import Mathlib

/-!
# EngineEffectsManager (src/engine/effects/engineeffectsmanager.cpp)

A shallow embedding of the effects manager of the mixing engine: the request
dispatch of `onCallbackStart` / `processEffectsRequest`, the rack list
helpers, and the buffer routing of `processInner` with its three entry points.

Objects (racks, chains, effects, sample buffers) are addressed by pointer; a
pointer is a natural number and `0` is the null pointer. Everything the
manager calls but does not define (the collaborators' `processEffectsRequest`
and `process`, `SampleUtil`, the response constructor's initial values) is a
field of `Externals`, so every theorem holds for every behaviour of them.
Where a statement is about sample values, `SampleUtil` is the one modelled
from the spec (`Externals.usesSampleUtil`), and what is assumed of the racks
is a named hypothesis (`Externals.racksWriteOnlyArguments`,
`Externals.racksKeepInput`).
-/

namespace Mixxx

/-! ## Pointers and scalar types -/

abbrev EngineEffectRackPtr := Nat
abbrev EngineEffectChainPtr := Nat
abbrev EngineEffectPtr := Nat
abbrev CSAMPLEPtr := Nat
abbrev ChannelHandle := Nat

/-- The null pointer. -/
def nullptr : Nat := 0

/-! ## QList operations used by the manager -/

/-- QList::contains. -/
def QList.contains (l : List Nat) (x : Nat) : Bool := decide (x ∈ l)

/-- QList::append: the element is added at the end. -/
def QList.append (l : List Nat) (x : Nat) : List Nat := l ++ [x]

/-- QList::removeAll: every occurrence of the element is removed; the number
of removed entries is returned with the new list. -/
def QList.removeAll (l : List Nat) (x : Nat) : Nat × List Nat :=
  (l.count x, l.filter (fun y => decide (y ≠ x)))

/-! ## Messages -/

/-- Modelled from the spec: the message header is not among the sources. The
eleven request kinds of the spec's table of request kinds, which are also the
case labels of `onCallbackStart`; `OTHER` stands for every value of the
enumeration's underlying type that is none of them (the `default:` label). -/
inductive MessageType where
  | ADD_EFFECT_RACK
  | REMOVE_EFFECT_RACK
  | ADD_CHAIN_TO_RACK
  | REMOVE_CHAIN_FROM_RACK
  | ADD_EFFECT_TO_CHAIN
  | REMOVE_EFFECT_FROM_CHAIN
  | SET_EFFECT_CHAIN_PARAMETERS
  | ENABLE_EFFECT_CHAIN_FOR_INPUT_CHANNEL
  | DISABLE_EFFECT_CHAIN_FOR_INPUT_CHANNEL
  | SET_EFFECT_PARAMETERS
  | SET_PARAMETER_PARAMETERS
  | OTHER (code : Nat)
  deriving DecidableEq, Repr

/-- Payload of ADD_EFFECT_RACK / REMOVE_EFFECT_RACK: rack identity and
pre-fader flag. -/
structure RackPayload where
  pRack : EngineEffectRackPtr
  preFader : Bool
  deriving DecidableEq, Repr

/-- Payload of ADD_CHAIN_TO_RACK / REMOVE_CHAIN_FROM_RACK: chain identity. -/
structure ChainPayload where
  pChain : EngineEffectChainPtr
  deriving DecidableEq, Repr

/-- Payload of ADD_EFFECT_TO_CHAIN / REMOVE_EFFECT_FROM_CHAIN: effect
identity. -/
structure EffectPayload where
  pEffect : EngineEffectPtr
  deriving DecidableEq, Repr

/-- Modelled from the spec: the message header is not among the sources. A
request is a tagged union of a kind, a target reference (rack, chain or
effect) and a kind-specific payload. The three targets are kept as three
fields (the code reads only the one its kind names). The payload of an add
request and of the matching remove request is one storage: the code reads
the rack of a REMOVE_EFFECT_RACK request through the member `AddEffectRack`,
so `RemoveEffectRack`, `RemoveChainFromRack` and `RemoveEffectFromChain`
below are views of the add members. Parameter blobs, indices and channel
handles are never read by the manager and are gathered in `blob`. -/
structure EffectsRequest where
  type : MessageType
  request_id : Nat
  pTargetRack : EngineEffectRackPtr
  pTargetChain : EngineEffectChainPtr
  pTargetEffect : EngineEffectPtr
  AddEffectRack : RackPayload
  AddChainToRack : ChainPayload
  AddEffectToChain : EffectPayload
  blob : Nat
  deriving DecidableEq, Repr

/-- The union member RemoveEffectRack (same storage as AddEffectRack). -/
def EffectsRequest.RemoveEffectRack (r : EffectsRequest) : RackPayload := r.AddEffectRack

/-- The union member RemoveChainFromRack (same storage as AddChainToRack). -/
def EffectsRequest.RemoveChainFromRack (r : EffectsRequest) : ChainPayload := r.AddChainToRack

/-- The union member RemoveEffectFromChain (same storage as AddEffectToChain). -/
def EffectsRequest.RemoveEffectFromChain (r : EffectsRequest) : EffectPayload :=
  r.AddEffectToChain

/-- Modelled from the spec: the response status enumeration (success,
no-such-rack, no-such-chain, no-such-effect, invalid-request,
unhandled-message-type); `OTHER` stands for any further value of the
underlying type. -/
inductive StatusCode where
  | OK
  | UNHANDLED_MESSAGE_TYPE
  | NO_SUCH_RACK
  | NO_SUCH_CHAIN
  | NO_SUCH_EFFECT
  | INVALID_REQUEST
  | OTHER (code : Nat)
  deriving DecidableEq, Repr

/-- Modelled from the spec: the message header is not among the sources. A
response mirrors the originating request and carries a success flag and a
status code. -/
structure EffectsResponse where
  request : EffectsRequest
  success : Bool
  status : StatusCode
  deriving DecidableEq, Repr

/-! ## Samples, buffers and memory -/

/-- An audio sample. Samples are idealised as rationals; no arithmetic on
them happens in the manager itself, only in `SampleUtil` and the racks. -/
abbrev CSAMPLE := ℚ

/-- A gain factor; the manager only compares gains with `CSAMPLE_GAIN_ONE`. -/
abbrev CSAMPLE_GAIN := ℚ

/-- Unity gain. -/
def CSAMPLE_GAIN_ONE : CSAMPLE_GAIN := 1

/-- The samples a buffer pointer points to. -/
abbrev Buffer := List CSAMPLE

/-- Sample memory: what each buffer pointer points to. -/
abbrev Memory := CSAMPLEPtr → Buffer

/-- Writing a buffer through a pointer. -/
def Memory.write (mem : Memory) (p : CSAMPLEPtr) (b : Buffer) : Memory :=
  fun q => if q = p then b else mem q

/-- The per-block feature side channel; its content is never inspected by
the manager. -/
abbrev GroupFeatureState := Nat

/-! ## What the manager calls but does not define -/

/-- The code outside this file that the manager runs, as functions of an
external state `σ` (the collaborators' own state).

* `initSuccess`, `initStatus`: the flag and status a freshly constructed
  `EffectsResponse(request)` carries.
* `rackRequest`, `chainRequest`, `effectRequest`: `processEffectsRequest` of
  the rack / chain / effect behind a pointer: the returned flag, the
  responses it writes to the response pipe, and the new external state.
* `rackProcess`: `EngineEffectRack::process` (input handle, output handle,
  input pointer, output pointer, sample count, sample rate, features).
* `applyRampingGain`, `copyWithRampingGain`, `add`: `SampleUtil`, on the
  buffers behind the pointers they are given (destination first).
* `defaultFeatureState`: a default-constructed `GroupFeatureState`. -/
structure Externals (σ : Type) where
  initSuccess : Bool
  initStatus : StatusCode
  rackRequest : EngineEffectRackPtr → EffectsRequest → σ → Bool × List EffectsResponse × σ
  chainRequest : EngineEffectChainPtr → EffectsRequest → σ → Bool × List EffectsResponse × σ
  effectRequest : EngineEffectPtr → EffectsRequest → σ → Bool × List EffectsResponse × σ
  rackProcess : EngineEffectRackPtr → ChannelHandle → ChannelHandle → CSAMPLEPtr → CSAMPLEPtr →
    Nat → Nat → GroupFeatureState → Memory → σ → Bool × Memory × σ
  applyRampingGain : Buffer → CSAMPLE_GAIN → CSAMPLE_GAIN → Nat → Buffer
  copyWithRampingGain : Buffer → Buffer → CSAMPLE_GAIN → CSAMPLE_GAIN → Nat → Buffer
  add : Buffer → Buffer → Nat → Buffer
  defaultFeatureState : GroupFeatureState

/-- The constructor `EffectsResponse(request)`. -/
def EffectsResponse.ofRequest {σ : Type} (ext : Externals σ) (request : EffectsRequest) :
    EffectsResponse :=
  { request := request, success := ext.initSuccess, status := ext.initStatus }

/-! ## Manager state -/

/-- Which collaborator a request was forwarded to. -/
inductive Target where
  | rack (p : EngineEffectRackPtr)
  | chain (p : EngineEffectChainPtr)
  | effect (p : EngineEffectPtr)
  deriving DecidableEq, Repr

/-- Record of one call of a collaborator's `processEffectsRequest`: whom, with
which request, the manager's four lists at the moment of the call, and the
flag the collaborator returned. -/
structure Forwarded where
  target : Target
  request : EffectsRequest
  preFaderRacks : List EngineEffectRackPtr
  postFaderRacks : List EngineEffectRackPtr
  chains : List EngineEffectChainPtr
  effects : List EngineEffectPtr
  processed : Bool
  deriving DecidableEq, Repr

/-- Record of one call of `EngineEffectRack::process`. -/
structure ProcessCall where
  pRack : EngineEffectRackPtr
  inputHandle : ChannelHandle
  outputHandle : ChannelHandle
  pInput : CSAMPLEPtr
  pOutput : CSAMPLEPtr
  numSamples : Nat
  sampleRate : Nat
  groupFeatures : GroupFeatureState
  modified : Bool
  deriving DecidableEq, Repr

/-- The manager together with what it acts on.

* `m_preFaderRacks`, `m_postFaderRacks`, `m_chains`, `m_effects`, `m_buffer1`,
  `m_buffer2` are the members of the class (the two buffers by their data
  pointer).
* `requests` and `responses` are the two directions of `m_pResponsePipe`:
  the requests still to be read, oldest first, and the responses written so
  far, oldest first.
* `memory` is the sample memory, `world` the collaborators' state.
* `readLog`, `forwardLog`, `processLog` are ghost histories: every request
  `readMessages` handed out, every collaborator `processEffectsRequest` call,
  every rack `process` call, oldest first. No code reads them. -/
structure EngineEffectsManager (σ : Type) where
  m_preFaderRacks : List EngineEffectRackPtr
  m_postFaderRacks : List EngineEffectRackPtr
  m_chains : List EngineEffectChainPtr
  m_effects : List EngineEffectPtr
  m_buffer1 : CSAMPLEPtr
  m_buffer2 : CSAMPLEPtr
  requests : List EffectsRequest
  responses : List EffectsResponse
  memory : Memory
  world : σ
  readLog : List EffectsRequest
  forwardLog : List Forwarded
  processLog : List ProcessCall

/-- The constructor: all four lists start empty (only capacity is reserved),
the two scratch buffers are allocated. The pipe starts empty. -/
def EngineEffectsManager.new {σ : Type} (buffer1 buffer2 : CSAMPLEPtr) (memory : Memory)
    (world : σ) : EngineEffectsManager σ :=
  { m_preFaderRacks := [], m_postFaderRacks := [], m_chains := [], m_effects := [],
    m_buffer1 := buffer1, m_buffer2 := buffer2, requests := [], responses := [],
    memory := memory, world := world, readLog := [], forwardLog := [], processLog := [] }

/-! ## Helpers of the embedding -/

/-- Modelled from the spec: the macro VERIFY_OR_DEBUG_ASSERT(cond) { block }
comes from a header that is not among the sources. The block runs exactly
when the condition is false (an absent identity "fails with not-found", a
repeated rack add "fails without mutating state ... not a crash"). The
result is whether the block runs. -/
def VERIFY_OR_DEBUG_ASSERT (cond : Bool) : Bool := !cond

/-- The call m_pResponsePipe->writeMessages(&response, 1): the response is
put on the pipe (a write is the call; the capacity of the pipe is not
modelled, and the code does not look at what the call returns). -/
def writeMessages {σ : Type} (response : EffectsResponse) (s : EngineEffectsManager σ) :
    EngineEffectsManager σ :=
  { s with responses := s.responses ++ [response] }

/-- The call request->pTargetRack->processEffectsRequest(*request, pipe): the
rack runs, what it writes goes to the pipe, and the call is recorded. -/
def forwardToRack {σ : Type} (ext : Externals σ) (request : EffectsRequest)
    (s : EngineEffectsManager σ) : Bool × EngineEffectsManager σ :=
  let out := ext.rackRequest request.pTargetRack request s.world
  (out.1,
   { s with
     world := out.2.2
     responses := s.responses ++ out.2.1
     forwardLog := s.forwardLog ++
       [{ target := Target.rack request.pTargetRack, request := request,
          preFaderRacks := s.m_preFaderRacks, postFaderRacks := s.m_postFaderRacks,
          chains := s.m_chains, effects := s.m_effects, processed := out.1 }] })

/-- The call request->pTargetChain->processEffectsRequest(*request, pipe). -/
def forwardToChain {σ : Type} (ext : Externals σ) (request : EffectsRequest)
    (s : EngineEffectsManager σ) : Bool × EngineEffectsManager σ :=
  let out := ext.chainRequest request.pTargetChain request s.world
  (out.1,
   { s with
     world := out.2.2
     responses := s.responses ++ out.2.1
     forwardLog := s.forwardLog ++
       [{ target := Target.chain request.pTargetChain, request := request,
          preFaderRacks := s.m_preFaderRacks, postFaderRacks := s.m_postFaderRacks,
          chains := s.m_chains, effects := s.m_effects, processed := out.1 }] })

/-- The call request->pTargetEffect->processEffectsRequest(*request, pipe). -/
def forwardToEffect {σ : Type} (ext : Externals σ) (request : EffectsRequest)
    (s : EngineEffectsManager σ) : Bool × EngineEffectsManager σ :=
  let out := ext.effectRequest request.pTargetEffect request s.world
  (out.1,
   { s with
     world := out.2.2
     responses := s.responses ++ out.2.1
     forwardLog := s.forwardLog ++
       [{ target := Target.effect request.pTargetEffect, request := request,
          preFaderRacks := s.m_preFaderRacks, postFaderRacks := s.m_postFaderRacks,
          chains := s.m_chains, effects := s.m_effects, processed := out.1 }] })

/-! ## Rack list helpers (lines 237-259) -/

/-- EngineEffectsManager::addPostFaderEffectRack. -/
def addPostFaderEffectRack {σ : Type} (pRack : EngineEffectRackPtr)
    (s : EngineEffectsManager σ) : Bool × EngineEffectsManager σ :=
  if VERIFY_OR_DEBUG_ASSERT (!QList.contains s.m_postFaderRacks pRack) then
    (false, s)
  else
    (true, { s with m_postFaderRacks := QList.append s.m_postFaderRacks pRack })

/-- EngineEffectsManager::removePostFaderEffectRack. -/
def removePostFaderEffectRack {σ : Type} (pRack : EngineEffectRackPtr)
    (s : EngineEffectsManager σ) : Bool × EngineEffectsManager σ :=
  let r := QList.removeAll s.m_postFaderRacks pRack
  (decide (r.1 > 0), { s with m_postFaderRacks := r.2 })

/-- EngineEffectsManager::addPreFaderEffectRack. -/
def addPreFaderEffectRack {σ : Type} (pRack : EngineEffectRackPtr)
    (s : EngineEffectsManager σ) : Bool × EngineEffectsManager σ :=
  if VERIFY_OR_DEBUG_ASSERT (!QList.contains s.m_preFaderRacks pRack) then
    (false, s)
  else
    (true, { s with m_preFaderRacks := QList.append s.m_preFaderRacks pRack })

/-- EngineEffectsManager::removePreFaderEffectRack. -/
def removePreFaderEffectRack {σ : Type} (pRack : EngineEffectRackPtr)
    (s : EngineEffectsManager σ) : Bool × EngineEffectsManager σ :=
  let r := QList.removeAll s.m_preFaderRacks pRack
  (decide (r.1 > 0), { s with m_preFaderRacks := r.2 })

/-! ## Request dispatch (lines 24-123 and 261-294) -/

/-- EngineEffectsManager::processEffectsRequest: the manager's own handler of
the two rack kinds. It returns false, writing nothing, for every other kind;
otherwise it writes its response and returns true. -/
def processEffectsRequest {σ : Type} (ext : Externals σ) (message : EffectsRequest)
    (s : EngineEffectsManager σ) : Bool × EngineEffectsManager σ :=
  let response := EffectsResponse.ofRequest ext message
  match message.type with
  | MessageType.ADD_EFFECT_RACK =>
    let r :=
      if message.AddEffectRack.preFader then
        addPreFaderEffectRack message.AddEffectRack.pRack s
      else
        addPostFaderEffectRack message.AddEffectRack.pRack s
    (true, writeMessages { response with success := r.1 } r.2)
  | MessageType.REMOVE_EFFECT_RACK =>
    let r :=
      if message.AddEffectRack.preFader then
        removePreFaderEffectRack message.AddEffectRack.pRack s
      else
        removePostFaderEffectRack message.AddEffectRack.pRack s
    (true, writeMessages { response with success := r.1 } r.2)
  | _ => (false, s)

/-- The locals of one iteration of the loop of onCallbackStart once its
switch statement is left: the manager, `processed` and `response`. -/
structure SwitchResult (σ : Type) where
  state : EngineEffectsManager σ
  processed : Bool
  response : EffectsResponse

/-- The switch statement of onCallbackStart (lines 27-117), entered with
`response` freshly constructed from the request and `processed` false. -/
def onCallbackStart.switch {σ : Type} (ext : Externals σ) (request : EffectsRequest)
    (s : EngineEffectsManager σ) : SwitchResult σ :=
  let response := EffectsResponse.ofRequest ext request
  match request.type with
  | MessageType.ADD_EFFECT_RACK | MessageType.REMOVE_EFFECT_RACK =>
    let r := processEffectsRequest ext request s
    if r.1 then ⟨r.2, true, response⟩ else ⟨r.2, false, response⟩
  | MessageType.ADD_CHAIN_TO_RACK | MessageType.REMOVE_CHAIN_FROM_RACK =>
    if VERIFY_OR_DEBUG_ASSERT (QList.contains s.m_preFaderRacks request.pTargetRack
        || QList.contains s.m_postFaderRacks request.pTargetRack) then
      ⟨s, false, { response with success := false, status := StatusCode.NO_SUCH_RACK }⟩
    else
      let r := forwardToRack ext request s
      if r.1 then
        if request.type = MessageType.ADD_CHAIN_TO_RACK then
          ⟨{ r.2 with m_chains := QList.append r.2.m_chains request.AddChainToRack.pChain },
            true, response⟩
        else if request.type = MessageType.REMOVE_CHAIN_FROM_RACK then
          ⟨{ r.2 with
             m_chains := (QList.removeAll r.2.m_chains request.RemoveChainFromRack.pChain).2 },
            true, response⟩
        else ⟨r.2, true, response⟩
      else
        ⟨r.2, false, { response with success := false, status := StatusCode.INVALID_REQUEST }⟩
  | MessageType.ADD_EFFECT_TO_CHAIN | MessageType.REMOVE_EFFECT_FROM_CHAIN
  | MessageType.SET_EFFECT_CHAIN_PARAMETERS
  | MessageType.ENABLE_EFFECT_CHAIN_FOR_INPUT_CHANNEL
  | MessageType.DISABLE_EFFECT_CHAIN_FOR_INPUT_CHANNEL =>
    if VERIFY_OR_DEBUG_ASSERT (QList.contains s.m_chains request.pTargetChain) then
      ⟨s, false, { response with success := false, status := StatusCode.NO_SUCH_CHAIN }⟩
    else
      let r := forwardToChain ext request s
      if r.1 then
        if request.type = MessageType.ADD_EFFECT_TO_CHAIN then
          ⟨{ r.2 with m_effects := QList.append r.2.m_effects request.AddEffectToChain.pEffect },
            true, response⟩
        else if request.type = MessageType.REMOVE_EFFECT_FROM_CHAIN then
          ⟨{ r.2 with
             m_effects :=
               (QList.removeAll r.2.m_effects request.RemoveEffectFromChain.pEffect).2 },
            true, response⟩
        else ⟨r.2, true, response⟩
      else
        ⟨r.2, false, { response with success := false, status := StatusCode.INVALID_REQUEST }⟩
  | MessageType.SET_EFFECT_PARAMETERS | MessageType.SET_PARAMETER_PARAMETERS =>
    if VERIFY_OR_DEBUG_ASSERT (QList.contains s.m_effects request.pTargetEffect) then
      ⟨s, false, { response with success := false, status := StatusCode.NO_SUCH_EFFECT }⟩
    else
      let r := forwardToEffect ext request s
      if !r.1 then
        ⟨r.2, false, { response with success := false, status := StatusCode.INVALID_REQUEST }⟩
      else ⟨r.2, true, response⟩
  | MessageType.OTHER _ =>
    ⟨s, false, { response with success := false, status := StatusCode.UNHANDLED_MESSAGE_TYPE }⟩

/-- One iteration of the loop of onCallbackStart (lines 27-121) for a request
that readMessages has just handed out: the switch, then the manager's own
response unless the request was processed. -/
def onCallbackStart.body {σ : Type} (ext : Externals σ) (request : EffectsRequest)
    (s : EngineEffectsManager σ) : EngineEffectsManager σ :=
  let d := onCallbackStart.switch ext request s
  if !d.processed then writeMessages d.response d.state else d.state

/-- The loop of onCallbackStart over the requests the pipe holds: readMessages
takes the oldest one off the pipe (and the ghost read log notes it), the body
runs, and the loop goes on until nothing is left to read. -/
def onCallbackStart.loop {σ : Type} (ext : Externals σ) :
    List EffectsRequest → EngineEffectsManager σ → EngineEffectsManager σ
  | [], s => s
  | request :: rest, s =>
    onCallbackStart.loop ext rest
      (onCallbackStart.body ext request
        { s with requests := rest, readLog := s.readLog ++ [request] })

/-- EngineEffectsManager::onCallbackStart. -/
def onCallbackStart {σ : Type} (ext : Externals σ) (s : EngineEffectsManager σ) :
    EngineEffectsManager σ :=
  onCallbackStart.loop ext s.requests s

/-! ## Buffer routing (lines 125-235) -/

/-- The call pRack->process(inputHandle, outputHandle, pInput, pOutput,
numSamples, sampleRate, groupFeatures): the rack runs on the sample memory
and its own state, and the call is recorded. -/
def callRackProcess {σ : Type} (ext : Externals σ) (pRack : EngineEffectRackPtr)
    (inputHandle outputHandle : ChannelHandle) (pInput pOutput : CSAMPLEPtr)
    (numSamples sampleRate : Nat) (groupFeatures : GroupFeatureState)
    (s : EngineEffectsManager σ) : Bool × EngineEffectsManager σ :=
  let out := ext.rackProcess pRack inputHandle outputHandle pInput pOutput numSamples
    sampleRate groupFeatures s.memory s.world
  (out.1,
   { s with
     memory := out.2.1
     world := out.2.2
     processLog := s.processLog ++
       [{ pRack := pRack, inputHandle := inputHandle, outputHandle := outputHandle,
          pInput := pInput, pOutput := pOutput, numSamples := numSamples,
          sampleRate := sampleRate, groupFeatures := groupFeatures, modified := out.1 }] })

/-- The rack loop of the in-place branch of processInner (lines 188-194):
every non-null rack processes the buffer in place; what it returns is not
looked at. -/
def processInner.inPlaceLoop {σ : Type} (ext : Externals σ)
    (inputHandle outputHandle : ChannelHandle) (pIn : CSAMPLEPtr)
    (numSamples sampleRate : Nat) (groupFeatures : GroupFeatureState) :
    List EngineEffectRackPtr → EngineEffectsManager σ → EngineEffectsManager σ
  | [], s => s
  | pRack :: rest, s =>
    if pRack ≠ nullptr then
      processInner.inPlaceLoop ext inputHandle outputHandle pIn numSamples sampleRate
        groupFeatures rest
        (callRackProcess ext pRack inputHandle outputHandle pIn pIn numSamples sampleRate
          groupFeatures s).2
    else
      processInner.inPlaceLoop ext inputHandle outputHandle pIn numSamples sampleRate
        groupFeatures rest s

/-- The rack loop of the mix branch of processInner (lines 213-230), with the
local pIntermediateInput as an argument and in the result: each non-null
rack gets the scratch buffer that is not its input as its output, and its
output becomes the next input when it returns true. -/
def processInner.mixLoop {σ : Type} (ext : Externals σ)
    (inputHandle outputHandle : ChannelHandle)
    (numSamples sampleRate : Nat) (groupFeatures : GroupFeatureState) :
    List EngineEffectRackPtr → CSAMPLEPtr → EngineEffectsManager σ →
      CSAMPLEPtr × EngineEffectsManager σ
  | [], pIntermediateInput, s => (pIntermediateInput, s)
  | pRack :: rest, pIntermediateInput, s =>
    if pRack ≠ nullptr then
      let pIntermediateOutput :=
        if pIntermediateInput = s.m_buffer1 then s.m_buffer2 else s.m_buffer1
      let r := callRackProcess ext pRack inputHandle outputHandle pIntermediateInput
        pIntermediateOutput numSamples sampleRate groupFeatures s
      if r.1 then
        processInner.mixLoop ext inputHandle outputHandle numSamples sampleRate groupFeatures
          rest pIntermediateOutput r.2
      else
        processInner.mixLoop ext inputHandle outputHandle numSamples sampleRate groupFeatures
          rest pIntermediateInput r.2
    else
      processInner.mixLoop ext inputHandle outputHandle numSamples sampleRate groupFeatures
        rest pIntermediateInput s

/-- EngineEffectsManager::processInner. -/
def processInner {σ : Type} (ext : Externals σ) (racks : List EngineEffectRackPtr)
    (inputHandle outputHandle : ChannelHandle) (pIn pOut : CSAMPLEPtr)
    (numSamples sampleRate : Nat) (groupFeatures : GroupFeatureState)
    (oldGain newGain : CSAMPLE_GAIN) (s : EngineEffectsManager σ) : EngineEffectsManager σ :=
  if pIn = pOut then
    let s1 : EngineEffectsManager σ :=
      { s with
        memory := s.memory.write pIn
          (ext.applyRampingGain (s.memory pIn) oldGain newGain numSamples) }
    processInner.inPlaceLoop ext inputHandle outputHandle pIn numSamples sampleRate
      groupFeatures racks s1
  else
    let start : CSAMPLEPtr × EngineEffectsManager σ :=
      if oldGain = CSAMPLE_GAIN_ONE ∧ newGain = CSAMPLE_GAIN_ONE then
        (pIn, s)
      else
        (s.m_buffer1,
         { s with
           memory := s.memory.write s.m_buffer1
             (ext.copyWithRampingGain (s.memory s.m_buffer1) (s.memory pIn) oldGain newGain
               numSamples) })
    let r := processInner.mixLoop ext inputHandle outputHandle numSamples sampleRate
      groupFeatures racks start.1 start.2
    { r.2 with
      memory := r.2.memory.write pOut (ext.add (r.2.memory pOut) (r.2.memory r.1) numSamples) }

/-- EngineEffectsManager::processPreFaderInPlace: a default-constructed
feature state, and (the gain arguments being left out) unity gain. -/
def processPreFaderInPlace {σ : Type} (ext : Externals σ)
    (inputHandle outputHandle : ChannelHandle) (pInOut : CSAMPLEPtr)
    (numSamples sampleRate : Nat) (s : EngineEffectsManager σ) : EngineEffectsManager σ :=
  processInner ext s.m_preFaderRacks inputHandle outputHandle pInOut pInOut numSamples
    sampleRate ext.defaultFeatureState CSAMPLE_GAIN_ONE CSAMPLE_GAIN_ONE s

/-- EngineEffectsManager::processPostFaderInPlace. -/
def processPostFaderInPlace {σ : Type} (ext : Externals σ)
    (inputHandle outputHandle : ChannelHandle) (pInOut : CSAMPLEPtr)
    (numSamples sampleRate : Nat) (groupFeatures : GroupFeatureState)
    (oldGain newGain : CSAMPLE_GAIN) (s : EngineEffectsManager σ) : EngineEffectsManager σ :=
  processInner ext s.m_postFaderRacks inputHandle outputHandle pInOut pInOut numSamples
    sampleRate groupFeatures oldGain newGain s

/-- EngineEffectsManager::processPostFaderAndMix. -/
def processPostFaderAndMix {σ : Type} (ext : Externals σ)
    (inputHandle outputHandle : ChannelHandle) (pIn pOut : CSAMPLEPtr)
    (numSamples sampleRate : Nat) (groupFeatures : GroupFeatureState)
    (oldGain newGain : CSAMPLE_GAIN) (s : EngineEffectsManager σ) : EngineEffectsManager σ :=
  processInner ext s.m_postFaderRacks inputHandle outputHandle pIn pOut numSamples
    sampleRate groupFeatures oldGain newGain s

/-! ## Sequences of calls on the manager -/

/-- One call the engine makes on the manager from the audio thread. A
callback start comes with the requests the control thread has put into the
pipe since the previous one. -/
inductive ManagerCall where
  | onCallbackStart (arrived : List EffectsRequest)
  | processPreFaderInPlace (inputHandle outputHandle : ChannelHandle) (pInOut : CSAMPLEPtr)
      (numSamples sampleRate : Nat)
  | processPostFaderInPlace (inputHandle outputHandle : ChannelHandle) (pInOut : CSAMPLEPtr)
      (numSamples sampleRate : Nat) (groupFeatures : GroupFeatureState)
      (oldGain newGain : CSAMPLE_GAIN)
  | processPostFaderAndMix (inputHandle outputHandle : ChannelHandle) (pIn pOut : CSAMPLEPtr)
      (numSamples sampleRate : Nat) (groupFeatures : GroupFeatureState)
      (oldGain newGain : CSAMPLE_GAIN)

/-- The effect of one call. -/
def ManagerCall.apply {σ : Type} (ext : Externals σ) (s : EngineEffectsManager σ) :
    ManagerCall → EngineEffectsManager σ
  | ManagerCall.onCallbackStart arrived =>
    Mixxx.onCallbackStart ext { s with requests := s.requests ++ arrived }
  | ManagerCall.processPreFaderInPlace ih oh p n r =>
    Mixxx.processPreFaderInPlace ext ih oh p n r s
  | ManagerCall.processPostFaderInPlace ih oh p n r gf og ng =>
    Mixxx.processPostFaderInPlace ext ih oh p n r gf og ng s
  | ManagerCall.processPostFaderAndMix ih oh pi po n r gf og ng =>
    Mixxx.processPostFaderAndMix ext ih oh pi po n r gf og ng s

/-- A finite sequence of calls, in order. -/
def runCalls {σ : Type} (ext : Externals σ) (calls : List ManagerCall)
    (s : EngineEffectsManager σ) : EngineEffectsManager σ :=
  calls.foldl (ManagerCall.apply ext) s

/-! ## Vocabulary of the statements -/

/-- The kinds whose target is a rack (lines 36-37). -/
def MessageType.rackTargeted : MessageType → Bool
  | MessageType.ADD_CHAIN_TO_RACK | MessageType.REMOVE_CHAIN_FROM_RACK => true
  | _ => false

/-- The kinds whose target is a chain (lines 66-70). -/
def MessageType.chainTargeted : MessageType → Bool
  | MessageType.ADD_EFFECT_TO_CHAIN | MessageType.REMOVE_EFFECT_FROM_CHAIN
  | MessageType.SET_EFFECT_CHAIN_PARAMETERS
  | MessageType.ENABLE_EFFECT_CHAIN_FOR_INPUT_CHANNEL
  | MessageType.DISABLE_EFFECT_CHAIN_FOR_INPUT_CHANNEL => true
  | _ => false

/-- The kinds whose target is an effect (lines 95-96). -/
def MessageType.effectTargeted : MessageType → Bool
  | MessageType.SET_EFFECT_PARAMETERS | MessageType.SET_PARAMETER_PARAMETERS => true
  | _ => false

/-- The target of a recorded call was in the manager's list for its sort when
the call was made: one of the two rack lists for a rack, the master chain
list for a chain, the master effect list for an effect. -/
def Forwarded.targetListed (f : Forwarded) : Prop :=
  match f.target with
  | Target.rack p => p ∈ f.preFaderRacks ∨ p ∈ f.postFaderRacks
  | Target.chain p => p ∈ f.chains
  | Target.effect p => p ∈ f.effects

/-- The recorded call went to the target its request names for its kind. -/
def Forwarded.toRequestTarget (f : Forwarded) : Prop :=
  (f.request.type.rackTargeted = true ∧ f.target = Target.rack f.request.pTargetRack) ∨
  (f.request.type.chainTargeted = true ∧ f.target = Target.chain f.request.pTargetChain) ∨
  (f.request.type.effectTargeted = true ∧ f.target = Target.effect f.request.pTargetEffect)

/-- The response protocol asked of the collaborators: a call of
processEffectsRequest that returns true has written exactly one response, a
call that returns false has written none. -/
def Externals.respondsIffProcessed {σ : Type} (ext : Externals σ) : Prop :=
  (∀ p request w, (ext.rackRequest p request w).2.1.length =
    if (ext.rackRequest p request w).1 then 1 else 0) ∧
  (∀ p request w, (ext.chainRequest p request w).2.1.length =
    if (ext.chainRequest p request w).1 then 1 else 0) ∧
  (∀ p request w, (ext.effectRequest p request w).2.1.length =
    if (ext.effectRequest p request w).1 then 1 else 0)

/-- The three ways a request is left unprocessed by the switch: its identity
check fails, the collaborator it is forwarded to declines it, or its kind is
none of the eleven. -/
def notProcessedCause {σ : Type} (ext : Externals σ) (request : EffectsRequest)
    (s : EngineEffectsManager σ) : Prop :=
  (request.type.rackTargeted = true ∧
    ((request.pTargetRack ∉ s.m_preFaderRacks ∧ request.pTargetRack ∉ s.m_postFaderRacks) ∨
      (ext.rackRequest request.pTargetRack request s.world).1 = false)) ∨
  (request.type.chainTargeted = true ∧
    (request.pTargetChain ∉ s.m_chains ∨
      (ext.chainRequest request.pTargetChain request s.world).1 = false)) ∨
  (request.type.effectTargeted = true ∧
    (request.pTargetEffect ∉ s.m_effects ∨
      (ext.effectRequest request.pTargetEffect request s.world).1 = false)) ∨
  (∃ code, request.type = MessageType.OTHER code)

/-- The rack list the pre-fader flag selects. -/
def selectedRacks {σ : Type} (preFader : Bool) (s : EngineEffectsManager σ) :
    List EngineEffectRackPtr :=
  if preFader then s.m_preFaderRacks else s.m_postFaderRacks

/-- The manager with the rack list the pre-fader flag selects replaced. -/
def withSelectedRacks {σ : Type} (preFader : Bool) (racks : List EngineEffectRackPtr)
    (s : EngineEffectsManager σ) : EngineEffectsManager σ :=
  if preFader then { s with m_preFaderRacks := racks } else { s with m_postFaderRacks := racks }

/-! ## Edit histories -/

/-- An edit of a membership list: an identity is added or removed. -/
inductive Edit where
  | add (x : Nat)
  | remove (x : Nat)
  deriving DecidableEq, Repr

/-- The identity an edit names. -/
def Edit.id : Edit → Nat
  | Edit.add x => x
  | Edit.remove x => x

/-- The last edit of a history (oldest first) that names `x`, if there is one. -/
def lastEditOf (x : Nat) (edits : List Edit) : Option Edit :=
  (edits.filter (fun e => decide (e.id = x))).getLast?

/-- The edit of the master chain list a recorded collaborator call stands
for: a processed ADD_CHAIN_TO_RACK adds its payload chain, a processed
REMOVE_CHAIN_FROM_RACK removes it. -/
def Forwarded.chainEdit (f : Forwarded) : Option Edit :=
  if f.processed then
    match f.request.type with
    | MessageType.ADD_CHAIN_TO_RACK => some (Edit.add f.request.AddChainToRack.pChain)
    | MessageType.REMOVE_CHAIN_FROM_RACK =>
      some (Edit.remove f.request.RemoveChainFromRack.pChain)
    | _ => none
  else none

/-- The edit of the master effect list a recorded collaborator call stands
for. -/
def Forwarded.effectEdit (f : Forwarded) : Option Edit :=
  if f.processed then
    match f.request.type with
    | MessageType.ADD_EFFECT_TO_CHAIN => some (Edit.add f.request.AddEffectToChain.pEffect)
    | MessageType.REMOVE_EFFECT_FROM_CHAIN =>
      some (Edit.remove f.request.RemoveEffectFromChain.pEffect)
    | _ => none
  else none

/-- The edit of the rack list with the given pre-fader flag a request asks
for: ADD_EFFECT_RACK / REMOVE_EFFECT_RACK with that flag. -/
def EffectsRequest.rackEdit (preFader : Bool) (r : EffectsRequest) : Option Edit :=
  match r.type with
  | MessageType.ADD_EFFECT_RACK =>
    if r.AddEffectRack.preFader = preFader then some (Edit.add r.AddEffectRack.pRack) else none
  | MessageType.REMOVE_EFFECT_RACK =>
    if r.RemoveEffectRack.preFader = preFader then
      some (Edit.remove r.RemoveEffectRack.pRack)
    else none
  | _ => none

/-- The requests a sequence of calls brings to the manager, in order. -/
def arrivedRequests : List ManagerCall → List EffectsRequest
  | [] => []
  | ManagerCall.onCallbackStart arrived :: calls => arrived ++ arrivedRequests calls
  | _ :: calls => arrivedRequests calls

/-- Membership in `l` is what the edit history says: the last edit naming an
identity is an add. -/
def NetOf (l : List Nat) (edits : List Edit) : Prop :=
  ∀ x, x ∈ l ↔ lastEditOf x edits = some (Edit.add x)

/-- What an optional edit does to a master list (chains, effects): an add
appends, a remove deletes every occurrence. -/
def applyEdit : Option Edit → List Nat → List Nat
  | none, l => l
  | some (Edit.add x), l => l ++ [x]
  | some (Edit.remove x), l => l.filter (fun z => decide (z ≠ x))

/-- What an optional edit does to a rack list: an add appends unless the rack
is already there, a remove deletes every occurrence. -/
def applyRackEdit : Option Edit → List Nat → List Nat
  | none, l => l
  | some (Edit.add x), l => if x ∈ l then l else l ++ [x]
  | some (Edit.remove x), l => l.filter (fun z => decide (z ≠ x))

/-- The bookkeeping invariant of the manager's four lists against its
histories. -/
def NetInvariant {σ : Type} (s : EngineEffectsManager σ) : Prop :=
  NetOf s.m_chains (s.forwardLog.filterMap Forwarded.chainEdit) ∧
  NetOf s.m_effects (s.forwardLog.filterMap Forwarded.effectEdit) ∧
  NetOf s.m_preFaderRacks (s.readLog.filterMap (EffectsRequest.rackEdit true)) ∧
  NetOf s.m_postFaderRacks (s.readLog.filterMap (EffectsRequest.rackEdit false))

/-- The four membership lists of the manager: pre-fader racks, post-fader
racks, master chain list, master effect list. -/
def EngineEffectsManager.lists {σ : Type} (s : EngineEffectsManager σ) :
    List EngineEffectRackPtr × List EngineEffectRackPtr × List EngineEffectChainPtr ×
      List EngineEffectPtr :=
  (s.m_preFaderRacks, s.m_postFaderRacks, s.m_chains, s.m_effects)

/-- Everything the request dispatch reads or writes apart from the
collaborators' state: the four lists, the pipe, the read and forward
histories. -/
def EngineEffectsManager.dispatchView {σ : Type} (s : EngineEffectsManager σ) :
    (List EngineEffectRackPtr × List EngineEffectRackPtr × List EngineEffectChainPtr ×
      List EngineEffectPtr) × List EffectsRequest × List EffectsResponse ×
      List EffectsRequest × List Forwarded :=
  (s.lists, s.requests, s.responses, s.readLog, s.forwardLog)

/-- Whether a call is one of the three buffer-processing calls. -/
def ManagerCall.isBufferProcessing : ManagerCall → Bool
  | ManagerCall.onCallbackStart _ => false
  | _ => true

/-! ## Example collaborators and states -/

/-- Example collaborators over a trivial external state: every rack, chain
and effect processes every request and answers it with one success response;
racks leave the audio untouched and report no modification. -/
def acceptAll : Externals Unit where
  initSuccess := false
  initStatus := StatusCode.OTHER 0
  rackRequest := fun _ req w =>
    (true, [{ request := req, success := true, status := StatusCode.OK }], w)
  chainRequest := fun _ req w =>
    (true, [{ request := req, success := true, status := StatusCode.OK }], w)
  effectRequest := fun _ req w =>
    (true, [{ request := req, success := true, status := StatusCode.OK }], w)
  rackProcess := fun _ _ _ _ _ _ _ _ mem w => (false, mem, w)
  applyRampingGain := fun b _ _ _ => b
  copyWithRampingGain := fun _ src _ _ _ => src
  add := fun dest src _ => List.zipWith (fun a b => a + b) dest src
  defaultFeatureState := 0

/-- Example collaborators that decline every request and write nothing. -/
def declineAll : Externals Unit where
  initSuccess := false
  initStatus := StatusCode.OTHER 0
  rackRequest := fun _ _ w => (false, [], w)
  chainRequest := fun _ _ w => (false, [], w)
  effectRequest := fun _ _ w => (false, [], w)
  rackProcess := fun _ _ _ _ _ _ _ _ mem w => (false, mem, w)
  applyRampingGain := fun b _ _ _ => b
  copyWithRampingGain := fun _ src _ _ _ => src
  add := fun dest src _ => List.zipWith (fun a b => a + b) dest src
  defaultFeatureState := 0

/-- An example request of the given kind: its target (rack, chain or effect
alike) is `target`, its payload identity is `payload`, its pre-fader flag is
`preFader`. -/
def exampleRequest (type : MessageType) (target payload : Nat) (preFader : Bool) :
    EffectsRequest :=
  { type := type, request_id := 0, pTargetRack := target, pTargetChain := target,
    pTargetEffect := target, AddEffectRack := { pRack := payload, preFader := preFader },
    AddChainToRack := { pChain := payload }, AddEffectToChain := { pEffect := payload },
    blob := 0 }

/-- An example manager with the given four lists and pending requests, empty
histories and empty sample memory. -/
def exampleManager (pre post chains effects : List Nat) (requests : List EffectsRequest) :
    EngineEffectsManager Unit :=
  { m_preFaderRacks := pre, m_postFaderRacks := post, m_chains := chains, m_effects := effects,
    m_buffer1 := 1, m_buffer2 := 2, requests := requests, responses := [],
    memory := fun _ => [], world := (), readLog := [], forwardLog := [], processLog := [] }

/-! ## The drain as written, sample arithmetic and the audio path -/

/-- The call m_pResponsePipe->readMessages(&request, 1): nothing when the pipe
holds no request; otherwise the oldest request is taken off the pipe (and the
ghost read log notes it). -/
def readMessages {σ : Type} (s : EngineEffectsManager σ) :
    Option (EffectsRequest × EngineEffectsManager σ) :=
  match s.requests with
  | [] => none
  | request :: rest =>
    some (request, { s with requests := rest, readLog := s.readLog ++ [request] })

/-- The while statement of onCallbackStart as written (lines 26-122), every
iteration asking the pipe anew, run for at most `fuel` calls of readMessages:
`none` when the fuel is used up before readMessages has found the pipe
empty. -/
def onCallbackStart.whileLoop {σ : Type} (ext : Externals σ) :
    Nat → EngineEffectsManager σ → Option (EngineEffectsManager σ)
  | 0, _ => none
  | fuel + 1, s =>
    match readMessages s with
    | none => some s
    | some (request, s1) =>
      onCallbackStart.whileLoop ext fuel (onCallbackStart.body ext request s1)

/-- Modelled from the spec: SampleUtil is not among the sources. The gain of
sample `i` of a block of `numSamples` samples under a gain ramp, the "linear
interpolation of a gain multiplier from an old to a new value across one
audio block": the gain moves from the old value in equal steps and is the new
value at the last sample. When both gains are the same the gain is that value
throughout. -/
def SampleUtil.rampGain (old_gain new_gain : CSAMPLE_GAIN) (numSamples i : Nat) :
    CSAMPLE_GAIN :=
  old_gain + (new_gain - old_gain) * ((i + 1 : Nat) : ℚ) / (numSamples : ℚ)

/-- The buffer `pDest` with each of its first `numSamples` samples replaced
by `f i`; a buffer holding fewer samples keeps its length. -/
def SampleUtil.overwrite (pDest : Buffer) (numSamples : Nat) (f : Nat → CSAMPLE) : Buffer :=
  (List.range pDest.length).map (fun i => if i < numSamples then f i else pDest.getD i 0)

/-- Modelled from the spec: SampleUtil::applyRampingGain is not among the
sources ("apply the gain ramp to the buffer"): each of the first numSamples
samples is multiplied by its gain. -/
def SampleUtil.applyRampingGain (pBuffer : Buffer) (old_gain new_gain : CSAMPLE_GAIN)
    (numSamples : Nat) : Buffer :=
  SampleUtil.overwrite pBuffer numSamples
    (fun i => pBuffer.getD i 0 * SampleUtil.rampGain old_gain new_gain numSamples i)

/-- Modelled from the spec: SampleUtil::copyWithRampingGain is not among the
sources ("copy-with-ramping-gain into a scratch buffer"): the first
numSamples samples of the destination become the source samples, each
multiplied by its gain. -/
def SampleUtil.copyWithRampingGain (pDest pSrc : Buffer) (old_gain new_gain : CSAMPLE_GAIN)
    (numSamples : Nat) : Buffer :=
  SampleUtil.overwrite pDest numSamples
    (fun i => pSrc.getD i 0 * SampleUtil.rampGain old_gain new_gain numSamples i)

/-- Modelled from the spec: SampleUtil::add is not among the sources
("additively mixed into the caller's output buffer (not overwritten)"): each
of the first numSamples source samples is added to the destination sample. -/
def SampleUtil.add (pDest pSrc : Buffer) (numSamples : Nat) : Buffer :=
  SampleUtil.overwrite pDest numSamples (fun i => pDest.getD i 0 + pSrc.getD i 0)

/-- The externals use the SampleUtil modelled from the spec. -/
def Externals.usesSampleUtil {σ : Type} (ext : Externals σ) : Prop :=
  ext.applyRampingGain = SampleUtil.applyRampingGain ∧
  ext.copyWithRampingGain = SampleUtil.copyWithRampingGain ∧
  ext.add = SampleUtil.add

/-- A rack reaches sample memory only through the two buffer pointers it is
handed: every other buffer is after the call what it was before. -/
def Externals.racksWriteOnlyArguments {σ : Type} (ext : Externals σ) : Prop :=
  ∀ pRack ih oh pInput pOutput n rate gf (mem : Memory) (w : σ) (q : CSAMPLEPtr),
    q ≠ pInput → q ≠ pOutput →
    (ext.rackProcess pRack ih oh pInput pOutput n rate gf mem w).2.1 q = mem q

/-- A rack does not write to its input buffer when its input and output
buffers differ. -/
def Externals.racksKeepInput {σ : Type} (ext : Externals σ) : Prop :=
  ∀ pRack ih oh pInput pOutput n rate gf (mem : Memory) (w : σ),
    pInput ≠ pOutput →
    (ext.rackProcess pRack ih oh pInput pOutput n rate gf mem w).2.1 pInput = mem pInput

/-- The rack `pRack` reports no modification, whatever it is handed. -/
def Externals.reportsNotModified {σ : Type} (ext : Externals σ) (pRack : EngineEffectRackPtr) :
    Prop :=
  ∀ ih oh pInput pOutput n rate gf (mem : Memory) (w : σ),
    (ext.rackProcess pRack ih oh pInput pOutput n rate gf mem w).1 = false

/-- The rack `pRack` reports a modification, whatever it is handed. -/
def Externals.reportsModified {σ : Type} (ext : Externals σ) (pRack : EngineEffectRackPtr) :
    Prop :=
  ∀ ih oh pInput pOutput n rate gf (mem : Memory) (w : σ),
    (ext.rackProcess pRack ih oh pInput pOutput n rate gf mem w).1 = true

/-- The two scratch buffers of the manager are two buffers, and neither is
one of the caller's buffers `pIn`, `pOut` (they are the manager's own
allocations). -/
def EngineEffectsManager.scratchApart {σ : Type} (s : EngineEffectsManager σ)
    (pIn pOut : CSAMPLEPtr) : Prop :=
  s.m_buffer1 ≠ s.m_buffer2 ∧ pIn ≠ s.m_buffer1 ∧ pIn ≠ s.m_buffer2 ∧
  pOut ≠ s.m_buffer1 ∧ pOut ≠ s.m_buffer2

/-- The start of the mix branch of processInner (lines 203-211): the first
intermediate input and the manager once the input has been copied with the
ramping gain, or the caller's input itself and the manager untouched when
both gains are unity. -/
def processInner.mixStart {σ : Type} (ext : Externals σ) (pIn : CSAMPLEPtr)
    (numSamples : Nat) (oldGain newGain : CSAMPLE_GAIN) (s : EngineEffectsManager σ) :
    CSAMPLEPtr × EngineEffectsManager σ :=
  if oldGain = CSAMPLE_GAIN_ONE ∧ newGain = CSAMPLE_GAIN_ONE then
    (pIn, s)
  else
    (s.m_buffer1,
     { s with
       memory := s.memory.write s.m_buffer1
         (ext.copyWithRampingGain (s.memory s.m_buffer1) (s.memory pIn) oldGain newGain
           numSamples) })

/-- The arguments of a recorded process call: the rack, the two channel
handles, the input and the output buffer, the sample count, the sample rate
and the feature state. -/
def ProcessCall.arguments (c : ProcessCall) :
    EngineEffectRackPtr × ChannelHandle × ChannelHandle × CSAMPLEPtr × CSAMPLEPtr × Nat × Nat ×
      GroupFeatureState :=
  (c.pRack, c.inputHandle, c.outputHandle, c.pInput, c.pOutput, c.numSamples, c.sampleRate,
    c.groupFeatures)

/-- The rack list without its null entries. -/
def nonNullRacks (racks : List EngineEffectRackPtr) : List EngineEffectRackPtr :=
  racks.filter (fun pRack => decide (pRack ≠ nullptr))

/-- Example externals for the audio path, over a trivial external state:
SampleUtil is the one modelled from the spec; a rack with an odd address
doubles every sample of its input into its output and reports a
modification, a rack with an even address does nothing and reports none.
Requests are accepted as by `acceptAll`. -/
def exampleAudio : Externals Unit :=
  { acceptAll with
    rackProcess := fun pRack _ _ pInput pOutput _ _ _ mem w =>
      if pRack % 2 = 1 then
        (true, mem.write pOutput ((mem pInput).map (fun x => 2 * x)), w)
      else (false, mem, w)
    applyRampingGain := SampleUtil.applyRampingGain
    copyWithRampingGain := SampleUtil.copyWithRampingGain
    add := SampleUtil.add }

/-- An example sample memory: buffer 10 holds 1, 2, 3, 4, buffer 11 holds
10, 20, 30, 40, and the scratch buffers 1 and 2 hold four samples each. -/
def exampleMemory : Memory := fun p =>
  if p = 10 then [1, 2, 3, 4]
  else if p = 11 then [10, 20, 30, 40]
  else if p = 1 then [0, 0, 0, 0]
  else if p = 2 then [0, 0, 0, 0]
  else []

/-- An example manager for the audio path: scratch buffers 1 and 2, the
example sample memory, the given post-fader racks, and nothing else. -/
def exampleAudioManager (post : List EngineEffectRackPtr) : EngineEffectsManager Unit :=
  { m_preFaderRacks := [], m_postFaderRacks := post, m_chains := [], m_effects := [],
    m_buffer1 := 1, m_buffer2 := 2, requests := [], responses := [],
    memory := exampleMemory, world := (), readLog := [], forwardLog := [], processLog := [] }

/-! ## Vocabulary of the routing statements: current buffer, arena, rack transformations -/

/-- The buffer that is current after a run of recorded rack calls that
started from the buffer `start`: the output buffer of the last call that
reported a modification, and `start` when no call did. -/
def currentAfter (start : CSAMPLEPtr) (calls : List ProcessCall) : CSAMPLEPtr :=
  calls.foldl (fun current c => if c.modified then c.pOutput else current) start

/-- An example manager for the audio path with pre-fader and post-fader
racks: scratch buffers 1 and 2 and the example sample memory. -/
def exampleAudioManagerWith (pre post : List EngineEffectRackPtr) : EngineEffectsManager Unit :=
  { exampleAudioManager post with m_preFaderRacks := pre }

/-- Where the current data is in the two-buffer arena of the spec ("an arena
of two fixed buffers with an explicit current index toggled after each stage
that reports modification"): still in the caller's input buffer, when
nothing was copied and no stage has modified yet, or in the scratch buffer
with the given index (`false` for the first, `true` for the second). -/
inductive ArenaSlot where
  | callerInput
  | scratch (second : Bool)
  deriving DecidableEq, Repr

/-- The buffer a slot of the arena stands for. -/
def ArenaSlot.pointer (pIn buffer1 buffer2 : CSAMPLEPtr) : ArenaSlot → CSAMPLEPtr
  | ArenaSlot.callerInput => pIn
  | ArenaSlot.scratch false => buffer1
  | ArenaSlot.scratch true => buffer2

/-- The slot a stage writes to: the scratch buffer that is not current (the
index toggled), and the first scratch buffer while the caller's input is
current. -/
def ArenaSlot.output : ArenaSlot → ArenaSlot
  | ArenaSlot.callerInput => ArenaSlot.scratch false
  | ArenaSlot.scratch second => ArenaSlot.scratch (!second)

/-- The rack loop of the mix path as the state machine of the spec: every
non-null rack reads the current slot and writes the output slot, and the
current slot advances to the output slot only after a stage that reports a
modification. -/
def arenaLoop {σ : Type} (ext : Externals σ) (inputHandle outputHandle : ChannelHandle)
    (pIn : CSAMPLEPtr) (numSamples sampleRate : Nat) (groupFeatures : GroupFeatureState) :
    List EngineEffectRackPtr → ArenaSlot → EngineEffectsManager σ →
      ArenaSlot × EngineEffectsManager σ
  | [], current, s => (current, s)
  | pRack :: rest, current, s =>
    if pRack ≠ nullptr then
      let r := callRackProcess ext pRack inputHandle outputHandle
        (current.pointer pIn s.m_buffer1 s.m_buffer2)
        (current.output.pointer pIn s.m_buffer1 s.m_buffer2)
        numSamples sampleRate groupFeatures s
      if r.1 then
        arenaLoop ext inputHandle outputHandle pIn numSamples sampleRate groupFeatures rest
          current.output r.2
      else
        arenaLoop ext inputHandle outputHandle pIn numSamples sampleRate groupFeatures rest
          current r.2
    else
      arenaLoop ext inputHandle outputHandle pIn numSamples sampleRate groupFeatures rest
        current s

/-- The mix path as the state machine of the spec: the caller's input is
current when both gains are unity, otherwise the input is copied with the
ramping gain into the first scratch buffer, which is then current; the racks
run as in `arenaLoop`; the buffer of the slot that is current at the end is
added to the output. -/
def arenaMix {σ : Type} (ext : Externals σ) (racks : List EngineEffectRackPtr)
    (inputHandle outputHandle : ChannelHandle) (pIn pOut : CSAMPLEPtr)
    (numSamples sampleRate : Nat) (groupFeatures : GroupFeatureState)
    (oldGain newGain : CSAMPLE_GAIN) (s : EngineEffectsManager σ) : EngineEffectsManager σ :=
  let start : ArenaSlot × EngineEffectsManager σ :=
    if oldGain = CSAMPLE_GAIN_ONE ∧ newGain = CSAMPLE_GAIN_ONE then
      (ArenaSlot.callerInput, s)
    else
      (ArenaSlot.scratch false,
       { s with
         memory := s.memory.write s.m_buffer1
           (ext.copyWithRampingGain (s.memory s.m_buffer1) (s.memory pIn) oldGain newGain
             numSamples) })
  let r := arenaLoop ext inputHandle outputHandle pIn numSamples sampleRate groupFeatures
    racks start.1 start.2
  { r.2 with
    memory := r.2.memory.write pOut
      (ext.add (r.2.memory pOut) (r.2.memory (r.1.pointer pIn s.m_buffer1 s.m_buffer2))
        numSamples) }

/-- The first numSamples samples of a buffer (a sample the buffer does not
hold counts as silence). -/
def firstSamples (pBuffer : Buffer) (numSamples : Nat) : Buffer :=
  (List.range numSamples).map (fun i => pBuffer.getD i 0)

/-- What a rack does to a block of samples: from the rack, the two channel
handles, the sample count, the sample rate, the feature state, the block of
input samples and the external state, to whether it modified anything, the
block of output samples, and the external state afterwards. -/
abbrev RackTransform (σ : Type) :=
  EngineEffectRackPtr → ChannelHandle → ChannelHandle → Nat → Nat → GroupFeatureState →
    Buffer → σ → Bool × Buffer × σ

/-- Each rack applies the same transformation `T` in place as out of place
and leaves the buffers untouched when it reports no modification: what
`process` returns and does to the external state depends on the first
numSamples input samples only, not on where they are; when it reports a
modification the first numSamples samples of the output buffer are the
transformed block and nothing else is written. -/
def Externals.racksApply {σ : Type} (ext : Externals σ) (T : RackTransform σ) : Prop :=
  ∀ pRack ih oh pInput pOutput n rate gf (mem : Memory) (w : σ),
    ext.rackProcess pRack ih oh pInput pOutput n rate gf mem w =
      ((T pRack ih oh n rate gf (firstSamples (mem pInput) n) w).1,
       (if (T pRack ih oh n rate gf (firstSamples (mem pInput) n) w).1 = true then
          mem.write pOutput (SampleUtil.overwrite (mem pOutput) n
            (fun i => (T pRack ih oh n rate gf (firstSamples (mem pInput) n) w).2.1.getD i 0))
        else mem),
       (T pRack ih oh n rate gf (firstSamples (mem pInput) n) w).2.2)

/-- An example rack transformation: a rack with an odd address doubles every
sample of the block and reports a modification, a rack with an even address
reports none. -/
def exampleTransform : RackTransform Unit :=
  fun pRack _ _ _ _ _ block w =>
    if pRack % 2 = 1 then (true, block.map (fun x => 2 * x), w) else (false, block, w)

/-- Example externals whose racks apply `exampleTransform` to the first
numSamples samples of their input, in place as out of place; SampleUtil is
the one modelled from the spec. -/
def exampleBlockAudio : Externals Unit :=
  { exampleAudio with
    rackProcess := fun pRack ih oh pInput pOutput n rate gf mem w =>
      ((exampleTransform pRack ih oh n rate gf (firstSamples (mem pInput) n) w).1,
       (if (exampleTransform pRack ih oh n rate gf (firstSamples (mem pInput) n) w).1 = true then
          mem.write pOutput (SampleUtil.overwrite (mem pOutput) n
            (fun i =>
              (exampleTransform pRack ih oh n rate gf
                (firstSamples (mem pInput) n) w).2.1.getD i 0))
        else mem),
       (exampleTransform pRack ih oh n rate gf (firstSamples (mem pInput) n) w).2.2) }

/-! ## Lemmas -/

/-! ### Projections of the helpers -/

@[simp] theorem writeMessages_m_preFaderRacks {σ : Type} (response : EffectsResponse)
    (s : EngineEffectsManager σ) :
    (writeMessages response s).m_preFaderRacks = s.m_preFaderRacks := rfl

@[simp] theorem writeMessages_m_postFaderRacks {σ : Type} (response : EffectsResponse)
    (s : EngineEffectsManager σ) :
    (writeMessages response s).m_postFaderRacks = s.m_postFaderRacks := rfl

@[simp] theorem writeMessages_m_chains {σ : Type} (response : EffectsResponse)
    (s : EngineEffectsManager σ) :
    (writeMessages response s).m_chains = s.m_chains := rfl

@[simp] theorem writeMessages_m_effects {σ : Type} (response : EffectsResponse)
    (s : EngineEffectsManager σ) :
    (writeMessages response s).m_effects = s.m_effects := rfl

@[simp] theorem writeMessages_m_buffer1 {σ : Type} (response : EffectsResponse)
    (s : EngineEffectsManager σ) :
    (writeMessages response s).m_buffer1 = s.m_buffer1 := rfl

@[simp] theorem writeMessages_m_buffer2 {σ : Type} (response : EffectsResponse)
    (s : EngineEffectsManager σ) :
    (writeMessages response s).m_buffer2 = s.m_buffer2 := rfl

@[simp] theorem writeMessages_requests {σ : Type} (response : EffectsResponse)
    (s : EngineEffectsManager σ) :
    (writeMessages response s).requests = s.requests := rfl

@[simp] theorem writeMessages_responses {σ : Type} (response : EffectsResponse)
    (s : EngineEffectsManager σ) :
    (writeMessages response s).responses = s.responses ++ [response] := rfl

@[simp] theorem writeMessages_memory {σ : Type} (response : EffectsResponse)
    (s : EngineEffectsManager σ) :
    (writeMessages response s).memory = s.memory := rfl

@[simp] theorem writeMessages_world {σ : Type} (response : EffectsResponse)
    (s : EngineEffectsManager σ) :
    (writeMessages response s).world = s.world := rfl

@[simp] theorem writeMessages_readLog {σ : Type} (response : EffectsResponse)
    (s : EngineEffectsManager σ) :
    (writeMessages response s).readLog = s.readLog := rfl

@[simp] theorem writeMessages_forwardLog {σ : Type} (response : EffectsResponse)
    (s : EngineEffectsManager σ) :
    (writeMessages response s).forwardLog = s.forwardLog := rfl

@[simp] theorem writeMessages_processLog {σ : Type} (response : EffectsResponse)
    (s : EngineEffectsManager σ) :
    (writeMessages response s).processLog = s.processLog := rfl

@[simp] theorem forwardToRack_fst {σ : Type} (ext : Externals σ) (request : EffectsRequest)
    (s : EngineEffectsManager σ) :
    (forwardToRack ext request s).1 = (ext.rackRequest request.pTargetRack request s.world).1 := rfl

@[simp] theorem forwardToRack_m_preFaderRacks {σ : Type} (ext : Externals σ)
    (request : EffectsRequest) (s : EngineEffectsManager σ) :
    (forwardToRack ext request s).2.m_preFaderRacks = s.m_preFaderRacks := rfl

@[simp] theorem forwardToRack_m_postFaderRacks {σ : Type} (ext : Externals σ)
    (request : EffectsRequest) (s : EngineEffectsManager σ) :
    (forwardToRack ext request s).2.m_postFaderRacks = s.m_postFaderRacks := rfl

@[simp] theorem forwardToRack_m_chains {σ : Type} (ext : Externals σ)
    (request : EffectsRequest) (s : EngineEffectsManager σ) :
    (forwardToRack ext request s).2.m_chains = s.m_chains := rfl

@[simp] theorem forwardToRack_m_effects {σ : Type} (ext : Externals σ)
    (request : EffectsRequest) (s : EngineEffectsManager σ) :
    (forwardToRack ext request s).2.m_effects = s.m_effects := rfl

@[simp] theorem forwardToRack_m_buffer1 {σ : Type} (ext : Externals σ)
    (request : EffectsRequest) (s : EngineEffectsManager σ) :
    (forwardToRack ext request s).2.m_buffer1 = s.m_buffer1 := rfl

@[simp] theorem forwardToRack_m_buffer2 {σ : Type} (ext : Externals σ)
    (request : EffectsRequest) (s : EngineEffectsManager σ) :
    (forwardToRack ext request s).2.m_buffer2 = s.m_buffer2 := rfl

@[simp] theorem forwardToRack_requests {σ : Type} (ext : Externals σ)
    (request : EffectsRequest) (s : EngineEffectsManager σ) :
    (forwardToRack ext request s).2.requests = s.requests := rfl

@[simp] theorem forwardToRack_memory {σ : Type} (ext : Externals σ)
    (request : EffectsRequest) (s : EngineEffectsManager σ) :
    (forwardToRack ext request s).2.memory = s.memory := rfl

@[simp] theorem forwardToRack_readLog {σ : Type} (ext : Externals σ)
    (request : EffectsRequest) (s : EngineEffectsManager σ) :
    (forwardToRack ext request s).2.readLog = s.readLog := rfl

@[simp] theorem forwardToRack_processLog {σ : Type} (ext : Externals σ)
    (request : EffectsRequest) (s : EngineEffectsManager σ) :
    (forwardToRack ext request s).2.processLog = s.processLog := rfl

@[simp] theorem forwardToRack_responses {σ : Type} (ext : Externals σ)
    (request : EffectsRequest) (s : EngineEffectsManager σ) :
    (forwardToRack ext request s).2.responses =
      s.responses ++ (ext.rackRequest request.pTargetRack request s.world).2.1 := rfl

@[simp] theorem forwardToRack_world {σ : Type} (ext : Externals σ)
    (request : EffectsRequest) (s : EngineEffectsManager σ) :
    (forwardToRack ext request s).2.world =
      (ext.rackRequest request.pTargetRack request s.world).2.2 := rfl

@[simp] theorem forwardToRack_forwardLog {σ : Type} (ext : Externals σ)
    (request : EffectsRequest) (s : EngineEffectsManager σ) :
    (forwardToRack ext request s).2.forwardLog =
      s.forwardLog ++ [⟨Target.rack request.pTargetRack, request, s.m_preFaderRacks,
        s.m_postFaderRacks, s.m_chains, s.m_effects,
        (ext.rackRequest request.pTargetRack request s.world).1⟩] := rfl

@[simp] theorem forwardToChain_fst {σ : Type} (ext : Externals σ) (request : EffectsRequest)
    (s : EngineEffectsManager σ) :
    (forwardToChain ext request s).1 = (ext.chainRequest request.pTargetChain request s.world).1 := rfl

@[simp] theorem forwardToChain_m_preFaderRacks {σ : Type} (ext : Externals σ)
    (request : EffectsRequest) (s : EngineEffectsManager σ) :
    (forwardToChain ext request s).2.m_preFaderRacks = s.m_preFaderRacks := rfl

@[simp] theorem forwardToChain_m_postFaderRacks {σ : Type} (ext : Externals σ)
    (request : EffectsRequest) (s : EngineEffectsManager σ) :
    (forwardToChain ext request s).2.m_postFaderRacks = s.m_postFaderRacks := rfl

@[simp] theorem forwardToChain_m_chains {σ : Type} (ext : Externals σ)
    (request : EffectsRequest) (s : EngineEffectsManager σ) :
    (forwardToChain ext request s).2.m_chains = s.m_chains := rfl

@[simp] theorem forwardToChain_m_effects {σ : Type} (ext : Externals σ)
    (request : EffectsRequest) (s : EngineEffectsManager σ) :
    (forwardToChain ext request s).2.m_effects = s.m_effects := rfl

@[simp] theorem forwardToChain_m_buffer1 {σ : Type} (ext : Externals σ)
    (request : EffectsRequest) (s : EngineEffectsManager σ) :
    (forwardToChain ext request s).2.m_buffer1 = s.m_buffer1 := rfl

@[simp] theorem forwardToChain_m_buffer2 {σ : Type} (ext : Externals σ)
    (request : EffectsRequest) (s : EngineEffectsManager σ) :
    (forwardToChain ext request s).2.m_buffer2 = s.m_buffer2 := rfl

@[simp] theorem forwardToChain_requests {σ : Type} (ext : Externals σ)
    (request : EffectsRequest) (s : EngineEffectsManager σ) :
    (forwardToChain ext request s).2.requests = s.requests := rfl

@[simp] theorem forwardToChain_memory {σ : Type} (ext : Externals σ)
    (request : EffectsRequest) (s : EngineEffectsManager σ) :
    (forwardToChain ext request s).2.memory = s.memory := rfl

@[simp] theorem forwardToChain_readLog {σ : Type} (ext : Externals σ)
    (request : EffectsRequest) (s : EngineEffectsManager σ) :
    (forwardToChain ext request s).2.readLog = s.readLog := rfl

@[simp] theorem forwardToChain_processLog {σ : Type} (ext : Externals σ)
    (request : EffectsRequest) (s : EngineEffectsManager σ) :
    (forwardToChain ext request s).2.processLog = s.processLog := rfl

@[simp] theorem forwardToChain_responses {σ : Type} (ext : Externals σ)
    (request : EffectsRequest) (s : EngineEffectsManager σ) :
    (forwardToChain ext request s).2.responses =
      s.responses ++ (ext.chainRequest request.pTargetChain request s.world).2.1 := rfl

@[simp] theorem forwardToChain_world {σ : Type} (ext : Externals σ)
    (request : EffectsRequest) (s : EngineEffectsManager σ) :
    (forwardToChain ext request s).2.world =
      (ext.chainRequest request.pTargetChain request s.world).2.2 := rfl

@[simp] theorem forwardToChain_forwardLog {σ : Type} (ext : Externals σ)
    (request : EffectsRequest) (s : EngineEffectsManager σ) :
    (forwardToChain ext request s).2.forwardLog =
      s.forwardLog ++ [⟨Target.chain request.pTargetChain, request, s.m_preFaderRacks,
        s.m_postFaderRacks, s.m_chains, s.m_effects,
        (ext.chainRequest request.pTargetChain request s.world).1⟩] := rfl

@[simp] theorem forwardToEffect_fst {σ : Type} (ext : Externals σ) (request : EffectsRequest)
    (s : EngineEffectsManager σ) :
    (forwardToEffect ext request s).1 = (ext.effectRequest request.pTargetEffect request s.world).1 := rfl

@[simp] theorem forwardToEffect_m_preFaderRacks {σ : Type} (ext : Externals σ)
    (request : EffectsRequest) (s : EngineEffectsManager σ) :
    (forwardToEffect ext request s).2.m_preFaderRacks = s.m_preFaderRacks := rfl

@[simp] theorem forwardToEffect_m_postFaderRacks {σ : Type} (ext : Externals σ)
    (request : EffectsRequest) (s : EngineEffectsManager σ) :
    (forwardToEffect ext request s).2.m_postFaderRacks = s.m_postFaderRacks := rfl

@[simp] theorem forwardToEffect_m_chains {σ : Type} (ext : Externals σ)
    (request : EffectsRequest) (s : EngineEffectsManager σ) :
    (forwardToEffect ext request s).2.m_chains = s.m_chains := rfl

@[simp] theorem forwardToEffect_m_effects {σ : Type} (ext : Externals σ)
    (request : EffectsRequest) (s : EngineEffectsManager σ) :
    (forwardToEffect ext request s).2.m_effects = s.m_effects := rfl

@[simp] theorem forwardToEffect_m_buffer1 {σ : Type} (ext : Externals σ)
    (request : EffectsRequest) (s : EngineEffectsManager σ) :
    (forwardToEffect ext request s).2.m_buffer1 = s.m_buffer1 := rfl

@[simp] theorem forwardToEffect_m_buffer2 {σ : Type} (ext : Externals σ)
    (request : EffectsRequest) (s : EngineEffectsManager σ) :
    (forwardToEffect ext request s).2.m_buffer2 = s.m_buffer2 := rfl

@[simp] theorem forwardToEffect_requests {σ : Type} (ext : Externals σ)
    (request : EffectsRequest) (s : EngineEffectsManager σ) :
    (forwardToEffect ext request s).2.requests = s.requests := rfl

@[simp] theorem forwardToEffect_memory {σ : Type} (ext : Externals σ)
    (request : EffectsRequest) (s : EngineEffectsManager σ) :
    (forwardToEffect ext request s).2.memory = s.memory := rfl

@[simp] theorem forwardToEffect_readLog {σ : Type} (ext : Externals σ)
    (request : EffectsRequest) (s : EngineEffectsManager σ) :
    (forwardToEffect ext request s).2.readLog = s.readLog := rfl

@[simp] theorem forwardToEffect_processLog {σ : Type} (ext : Externals σ)
    (request : EffectsRequest) (s : EngineEffectsManager σ) :
    (forwardToEffect ext request s).2.processLog = s.processLog := rfl

@[simp] theorem forwardToEffect_responses {σ : Type} (ext : Externals σ)
    (request : EffectsRequest) (s : EngineEffectsManager σ) :
    (forwardToEffect ext request s).2.responses =
      s.responses ++ (ext.effectRequest request.pTargetEffect request s.world).2.1 := rfl

@[simp] theorem forwardToEffect_world {σ : Type} (ext : Externals σ)
    (request : EffectsRequest) (s : EngineEffectsManager σ) :
    (forwardToEffect ext request s).2.world =
      (ext.effectRequest request.pTargetEffect request s.world).2.2 := rfl

@[simp] theorem forwardToEffect_forwardLog {σ : Type} (ext : Externals σ)
    (request : EffectsRequest) (s : EngineEffectsManager σ) :
    (forwardToEffect ext request s).2.forwardLog =
      s.forwardLog ++ [⟨Target.effect request.pTargetEffect, request, s.m_preFaderRacks,
        s.m_postFaderRacks, s.m_chains, s.m_effects,
        (ext.effectRequest request.pTargetEffect request s.world).1⟩] := rfl

/-! ### One iteration of the dispatch loop, case by case -/

theorem body_no_such_rack {σ : Type} (ext : Externals σ) (request : EffectsRequest)
    (s : EngineEffectsManager σ) (hk : request.type.rackTargeted = true)
    (h1 : request.pTargetRack ∉ s.m_preFaderRacks)
    (h2 : request.pTargetRack ∉ s.m_postFaderRacks) :
    onCallbackStart.body ext request s =
      { s with responses := s.responses ++
          [{ request := request, success := false, status := StatusCode.NO_SUCH_RACK }] } := by
  cases h : request.type <;> simp [h, MessageType.rackTargeted] at hk <;>
    simp [onCallbackStart.body, onCallbackStart.switch, h, VERIFY_OR_DEBUG_ASSERT,
      QList.contains, h1, h2, EffectsResponse.ofRequest, writeMessages]

theorem body_no_such_chain {σ : Type} (ext : Externals σ) (request : EffectsRequest)
    (s : EngineEffectsManager σ) (hk : request.type.chainTargeted = true)
    (h1 : request.pTargetChain ∉ s.m_chains) :
    onCallbackStart.body ext request s =
      { s with responses := s.responses ++
          [{ request := request, success := false, status := StatusCode.NO_SUCH_CHAIN }] } := by
  cases h : request.type <;> simp [h, MessageType.chainTargeted] at hk <;>
    simp [onCallbackStart.body, onCallbackStart.switch, h, VERIFY_OR_DEBUG_ASSERT,
      QList.contains, h1, EffectsResponse.ofRequest, writeMessages]

theorem body_no_such_effect {σ : Type} (ext : Externals σ) (request : EffectsRequest)
    (s : EngineEffectsManager σ) (hk : request.type.effectTargeted = true)
    (h1 : request.pTargetEffect ∉ s.m_effects) :
    onCallbackStart.body ext request s =
      { s with responses := s.responses ++
          [{ request := request, success := false, status := StatusCode.NO_SUCH_EFFECT }] } := by
  cases h : request.type <;> simp [h, MessageType.effectTargeted] at hk <;>
    simp [onCallbackStart.body, onCallbackStart.switch, h, VERIFY_OR_DEBUG_ASSERT,
      QList.contains, h1, EffectsResponse.ofRequest, writeMessages]

theorem body_unhandled {σ : Type} (ext : Externals σ) (request : EffectsRequest)
    (s : EngineEffectsManager σ) (code : Nat) (hk : request.type = MessageType.OTHER code) :
    onCallbackStart.body ext request s =
      { s with responses := s.responses ++
          [{ request := request, success := false,
             status := StatusCode.UNHANDLED_MESSAGE_TYPE }] } := by
  simp [onCallbackStart.body, onCallbackStart.switch, hk, EffectsResponse.ofRequest,
    writeMessages]

theorem body_rack_declined {σ : Type} (ext : Externals σ) (request : EffectsRequest)
    (s : EngineEffectsManager σ) (hk : request.type.rackTargeted = true)
    (h1 : request.pTargetRack ∈ s.m_preFaderRacks ∨ request.pTargetRack ∈ s.m_postFaderRacks)
    (hd : (ext.rackRequest request.pTargetRack request s.world).1 = false) :
    onCallbackStart.body ext request s =
      { (forwardToRack ext request s).2 with
        responses := (forwardToRack ext request s).2.responses ++
          [{ request := request, success := false, status := StatusCode.INVALID_REQUEST }] } := by
  have h1' : ¬ (request.pTargetRack ∉ s.m_preFaderRacks ∧
      request.pTargetRack ∉ s.m_postFaderRacks) := by tauto
  cases h : request.type <;> simp [h, MessageType.rackTargeted] at hk <;>
    simp [onCallbackStart.body, onCallbackStart.switch, h, VERIFY_OR_DEBUG_ASSERT,
      QList.contains, h1', EffectsResponse.ofRequest, writeMessages, forwardToRack, hd]

theorem body_chain_declined {σ : Type} (ext : Externals σ) (request : EffectsRequest)
    (s : EngineEffectsManager σ) (hk : request.type.chainTargeted = true)
    (h1 : request.pTargetChain ∈ s.m_chains)
    (hd : (ext.chainRequest request.pTargetChain request s.world).1 = false) :
    onCallbackStart.body ext request s =
      { (forwardToChain ext request s).2 with
        responses := (forwardToChain ext request s).2.responses ++
          [{ request := request, success := false, status := StatusCode.INVALID_REQUEST }] } := by
  cases h : request.type <;> simp [h, MessageType.chainTargeted] at hk <;>
    simp [onCallbackStart.body, onCallbackStart.switch, h, VERIFY_OR_DEBUG_ASSERT,
      QList.contains, h1, EffectsResponse.ofRequest, writeMessages, forwardToChain, hd]

theorem body_effect_declined {σ : Type} (ext : Externals σ) (request : EffectsRequest)
    (s : EngineEffectsManager σ) (hk : request.type.effectTargeted = true)
    (h1 : request.pTargetEffect ∈ s.m_effects)
    (hd : (ext.effectRequest request.pTargetEffect request s.world).1 = false) :
    onCallbackStart.body ext request s =
      { (forwardToEffect ext request s).2 with
        responses := (forwardToEffect ext request s).2.responses ++
          [{ request := request, success := false, status := StatusCode.INVALID_REQUEST }] } := by
  cases h : request.type <;> simp [h, MessageType.effectTargeted] at hk <;>
    simp [onCallbackStart.body, onCallbackStart.switch, h, VERIFY_OR_DEBUG_ASSERT,
      QList.contains, h1, EffectsResponse.ofRequest, writeMessages, forwardToEffect, hd]

theorem body_add_chain {σ : Type} (ext : Externals σ) (request : EffectsRequest)
    (s : EngineEffectsManager σ) (hk : request.type = MessageType.ADD_CHAIN_TO_RACK)
    (h1 : request.pTargetRack ∈ s.m_preFaderRacks ∨ request.pTargetRack ∈ s.m_postFaderRacks)
    (hp : (ext.rackRequest request.pTargetRack request s.world).1 = true) :
    onCallbackStart.body ext request s =
      { (forwardToRack ext request s).2 with
        m_chains := s.m_chains ++ [request.AddChainToRack.pChain] } := by
  have h1' : ¬ (request.pTargetRack ∉ s.m_preFaderRacks ∧
      request.pTargetRack ∉ s.m_postFaderRacks) := by tauto
  simp [onCallbackStart.body, onCallbackStart.switch, hk, VERIFY_OR_DEBUG_ASSERT,
    QList.contains, h1', EffectsResponse.ofRequest, writeMessages, forwardToRack, hp,
    QList.append]

theorem body_remove_chain {σ : Type} (ext : Externals σ) (request : EffectsRequest)
    (s : EngineEffectsManager σ) (hk : request.type = MessageType.REMOVE_CHAIN_FROM_RACK)
    (h1 : request.pTargetRack ∈ s.m_preFaderRacks ∨ request.pTargetRack ∈ s.m_postFaderRacks)
    (hp : (ext.rackRequest request.pTargetRack request s.world).1 = true) :
    onCallbackStart.body ext request s =
      { (forwardToRack ext request s).2 with
        m_chains := s.m_chains.filter
          (fun c => decide (c ≠ request.RemoveChainFromRack.pChain)) } := by
  have h1' : ¬ (request.pTargetRack ∉ s.m_preFaderRacks ∧
      request.pTargetRack ∉ s.m_postFaderRacks) := by tauto
  simp [onCallbackStart.body, onCallbackStart.switch, hk, VERIFY_OR_DEBUG_ASSERT,
    QList.contains, h1', EffectsResponse.ofRequest, writeMessages, forwardToRack, hp,
    QList.removeAll]

theorem body_add_effect {σ : Type} (ext : Externals σ) (request : EffectsRequest)
    (s : EngineEffectsManager σ) (hk : request.type = MessageType.ADD_EFFECT_TO_CHAIN)
    (h1 : request.pTargetChain ∈ s.m_chains)
    (hp : (ext.chainRequest request.pTargetChain request s.world).1 = true) :
    onCallbackStart.body ext request s =
      { (forwardToChain ext request s).2 with
        m_effects := s.m_effects ++ [request.AddEffectToChain.pEffect] } := by
  simp [onCallbackStart.body, onCallbackStart.switch, hk, VERIFY_OR_DEBUG_ASSERT,
    QList.contains, h1, EffectsResponse.ofRequest, writeMessages, forwardToChain, hp,
    QList.append]

theorem body_remove_effect {σ : Type} (ext : Externals σ) (request : EffectsRequest)
    (s : EngineEffectsManager σ) (hk : request.type = MessageType.REMOVE_EFFECT_FROM_CHAIN)
    (h1 : request.pTargetChain ∈ s.m_chains)
    (hp : (ext.chainRequest request.pTargetChain request s.world).1 = true) :
    onCallbackStart.body ext request s =
      { (forwardToChain ext request s).2 with
        m_effects := s.m_effects.filter
          (fun e => decide (e ≠ request.RemoveEffectFromChain.pEffect)) } := by
  simp [onCallbackStart.body, onCallbackStart.switch, hk, VERIFY_OR_DEBUG_ASSERT,
    QList.contains, h1, EffectsResponse.ofRequest, writeMessages, forwardToChain, hp,
    QList.removeAll]

theorem body_chain_setter {σ : Type} (ext : Externals σ) (request : EffectsRequest)
    (s : EngineEffectsManager σ)
    (hk : request.type = MessageType.SET_EFFECT_CHAIN_PARAMETERS ∨
      request.type = MessageType.ENABLE_EFFECT_CHAIN_FOR_INPUT_CHANNEL ∨
      request.type = MessageType.DISABLE_EFFECT_CHAIN_FOR_INPUT_CHANNEL)
    (h1 : request.pTargetChain ∈ s.m_chains)
    (hp : (ext.chainRequest request.pTargetChain request s.world).1 = true) :
    onCallbackStart.body ext request s = (forwardToChain ext request s).2 := by
  rcases hk with hk | hk | hk <;>
  simp [onCallbackStart.body, onCallbackStart.switch, hk, VERIFY_OR_DEBUG_ASSERT,
    QList.contains, h1, EffectsResponse.ofRequest, writeMessages, forwardToChain, hp]

theorem body_effect_setter {σ : Type} (ext : Externals σ) (request : EffectsRequest)
    (s : EngineEffectsManager σ) (hk : request.type.effectTargeted = true)
    (h1 : request.pTargetEffect ∈ s.m_effects)
    (hp : (ext.effectRequest request.pTargetEffect request s.world).1 = true) :
    onCallbackStart.body ext request s = (forwardToEffect ext request s).2 := by
  cases h : request.type <;> simp [h, MessageType.effectTargeted] at hk <;>
    simp [onCallbackStart.body, onCallbackStart.switch, h, VERIFY_OR_DEBUG_ASSERT,
      QList.contains, h1, EffectsResponse.ofRequest, writeMessages, forwardToEffect, hp]

theorem body_rack_kind {σ : Type} (ext : Externals σ) (request : EffectsRequest)
    (s : EngineEffectsManager σ)
    (hk : request.type = MessageType.ADD_EFFECT_RACK ∨
      request.type = MessageType.REMOVE_EFFECT_RACK) :
    onCallbackStart.body ext request s = (processEffectsRequest ext request s).2 := by
  rcases hk with hk | hk <;>
  simp [onCallbackStart.body, onCallbackStart.switch, hk, processEffectsRequest]

theorem body_add_rack_present {σ : Type} (ext : Externals σ) (request : EffectsRequest)
    (s : EngineEffectsManager σ) (hk : request.type = MessageType.ADD_EFFECT_RACK)
    (h1 : request.AddEffectRack.pRack ∈ selectedRacks request.AddEffectRack.preFader s) :
    onCallbackStart.body ext request s =
      { s with responses := s.responses ++
          [{ request := request, success := false, status := ext.initStatus }] } := by
  rw [body_rack_kind ext request s (Or.inl hk)]
  cases hf : request.AddEffectRack.preFader <;>
    simp [selectedRacks, hf] at h1 <;>
    simp [processEffectsRequest, hk, hf, addPreFaderEffectRack, addPostFaderEffectRack,
      VERIFY_OR_DEBUG_ASSERT, QList.contains, h1, writeMessages, EffectsResponse.ofRequest]

theorem body_add_rack_absent {σ : Type} (ext : Externals σ) (request : EffectsRequest)
    (s : EngineEffectsManager σ) (hk : request.type = MessageType.ADD_EFFECT_RACK)
    (h1 : request.AddEffectRack.pRack ∉ selectedRacks request.AddEffectRack.preFader s) :
    onCallbackStart.body ext request s =
      withSelectedRacks request.AddEffectRack.preFader
        (selectedRacks request.AddEffectRack.preFader s ++ [request.AddEffectRack.pRack])
        { s with responses := s.responses ++
            [{ request := request, success := true, status := ext.initStatus }] } := by
  rw [body_rack_kind ext request s (Or.inl hk)]
  cases hf : request.AddEffectRack.preFader <;>
    simp [selectedRacks, hf] at h1 <;>
    simp [processEffectsRequest, hk, hf, addPreFaderEffectRack, addPostFaderEffectRack,
      VERIFY_OR_DEBUG_ASSERT, QList.contains, h1, writeMessages, EffectsResponse.ofRequest,
      selectedRacks, withSelectedRacks, QList.append]

theorem body_remove_rack_absent {σ : Type} (ext : Externals σ) (request : EffectsRequest)
    (s : EngineEffectsManager σ) (hk : request.type = MessageType.REMOVE_EFFECT_RACK)
    (h1 : request.RemoveEffectRack.pRack ∉ selectedRacks request.RemoveEffectRack.preFader s) :
    onCallbackStart.body ext request s =
      { s with responses := s.responses ++
          [{ request := request, success := false, status := ext.initStatus }] } := by
  rw [body_rack_kind ext request s (Or.inr hk)]
  simp only [EffectsRequest.RemoveEffectRack] at h1
  cases hf : request.AddEffectRack.preFader <;>
    simp [selectedRacks, hf] at h1 <;>
    simp [processEffectsRequest, hk, hf, removePreFaderEffectRack, removePostFaderEffectRack,
      QList.removeAll, h1, writeMessages, EffectsResponse.ofRequest, List.count_eq_zero_of_not_mem,
      List.filter_eq_self]
  all_goals (intro a ha hEq; exact h1 (hEq ▸ ha))

theorem body_remove_rack_present {σ : Type} (ext : Externals σ) (request : EffectsRequest)
    (s : EngineEffectsManager σ) (hk : request.type = MessageType.REMOVE_EFFECT_RACK)
    (h1 : request.RemoveEffectRack.pRack ∈ selectedRacks request.RemoveEffectRack.preFader s) :
    onCallbackStart.body ext request s =
      withSelectedRacks request.RemoveEffectRack.preFader
        ((selectedRacks request.RemoveEffectRack.preFader s).filter
          (fun r => decide (r ≠ request.RemoveEffectRack.pRack)))
        { s with responses := s.responses ++
            [{ request := request, success := true, status := ext.initStatus }] } := by
  rw [body_rack_kind ext request s (Or.inr hk)]
  simp only [EffectsRequest.RemoveEffectRack] at h1 ⊢
  cases hf : request.AddEffectRack.preFader <;>
    simp [selectedRacks, hf] at h1 <;>
    simp [processEffectsRequest, hk, hf, removePreFaderEffectRack, removePostFaderEffectRack,
      QList.removeAll, h1, writeMessages, EffectsResponse.ofRequest,
      selectedRacks, withSelectedRacks, List.count_pos_iff]

/-! ### What an iteration leaves alone -/

theorem body_frame {σ : Type} (ext : Externals σ) (request : EffectsRequest)
    (s : EngineEffectsManager σ) :
    (onCallbackStart.body ext request s).requests = s.requests ∧
    (onCallbackStart.body ext request s).readLog = s.readLog ∧
    (onCallbackStart.body ext request s).m_buffer1 = s.m_buffer1 ∧
    (onCallbackStart.body ext request s).m_buffer2 = s.m_buffer2 ∧
    (onCallbackStart.body ext request s).memory = s.memory ∧
    (onCallbackStart.body ext request s).processLog = s.processLog ∧
    (onCallbackStart.body ext request s).m_preFaderRacks =
      applyRackEdit (request.rackEdit true) s.m_preFaderRacks ∧
    (onCallbackStart.body ext request s).m_postFaderRacks =
      applyRackEdit (request.rackEdit false) s.m_postFaderRacks := by
  by_cases hr : request.type.rackTargeted = true
  · have hedit : ∀ b, request.rackEdit b = none := by
      intro b
      cases h : request.type <;> simp [h, MessageType.rackTargeted] at hr <;>
        simp [EffectsRequest.rackEdit, h]
    simp only [hedit, applyRackEdit]
    by_cases h1 : request.pTargetRack ∈ s.m_preFaderRacks ∨
        request.pTargetRack ∈ s.m_postFaderRacks
    · cases hp : (ext.rackRequest request.pTargetRack request s.world).1
      · rw [body_rack_declined ext request s hr h1 hp]
        simp
      · cases h : request.type <;> simp [h, MessageType.rackTargeted] at hr
        · rw [body_add_chain ext request s h h1 hp]
          simp
        · rw [body_remove_chain ext request s h h1 hp]
          simp
    · rw [body_no_such_rack ext request s hr (by tauto) (by tauto)]
      simp
  · by_cases hc : request.type.chainTargeted = true
    · have hedit : ∀ b, request.rackEdit b = none := by
        intro b
        cases h : request.type <;> simp [h, MessageType.chainTargeted] at hc <;>
          simp [EffectsRequest.rackEdit, h]
      simp only [hedit, applyRackEdit]
      by_cases h1 : request.pTargetChain ∈ s.m_chains
      · cases hp : (ext.chainRequest request.pTargetChain request s.world).1
        · rw [body_chain_declined ext request s hc h1 hp]
          simp
        · cases h : request.type <;> simp [h, MessageType.chainTargeted] at hc
          · rw [body_add_effect ext request s h h1 hp]
            simp
          · rw [body_remove_effect ext request s h h1 hp]
            simp
          · rw [body_chain_setter ext request s (Or.inl h) h1 hp]
            simp
          · rw [body_chain_setter ext request s (Or.inr (Or.inl h)) h1 hp]
            simp
          · rw [body_chain_setter ext request s (Or.inr (Or.inr h)) h1 hp]
            simp
      · rw [body_no_such_chain ext request s hc h1]
        simp
    · by_cases he : request.type.effectTargeted = true
      · have hedit : ∀ b, request.rackEdit b = none := by
          intro b
          cases h : request.type <;> simp [h, MessageType.effectTargeted] at he <;>
            simp [EffectsRequest.rackEdit, h]
        simp only [hedit, applyRackEdit]
        by_cases h1 : request.pTargetEffect ∈ s.m_effects
        · cases hp : (ext.effectRequest request.pTargetEffect request s.world).1
          · rw [body_effect_declined ext request s he h1 hp]
            simp
          · rw [body_effect_setter ext request s he h1 hp]
            simp
        · rw [body_no_such_effect ext request s he h1]
          simp
      · cases h : request.type <;>
          simp [h, MessageType.rackTargeted, MessageType.chainTargeted,
            MessageType.effectTargeted] at hr hc he
        · by_cases hm : request.AddEffectRack.pRack ∈
              selectedRacks request.AddEffectRack.preFader s
          · rw [body_add_rack_present ext request s h hm]
            cases hf : request.AddEffectRack.preFader <;>
              simp [selectedRacks, hf] at hm <;>
              simp [EffectsRequest.rackEdit, h, hf, applyRackEdit, hm]
          · rw [body_add_rack_absent ext request s h hm]
            cases hf : request.AddEffectRack.preFader <;>
              simp [selectedRacks, hf] at hm <;>
              simp [EffectsRequest.rackEdit, h, hf, applyRackEdit, hm, withSelectedRacks,
                selectedRacks]
        · rw [body_rack_kind ext request s (Or.inr h)]
          cases hf : request.AddEffectRack.preFader <;>
            simp [processEffectsRequest, h, hf, removePreFaderEffectRack,
              removePostFaderEffectRack, EffectsRequest.rackEdit,
              EffectsRequest.RemoveEffectRack, applyRackEdit, QList.removeAll]
        · rw [body_unhandled ext request s _ h]
          simp [EffectsRequest.rackEdit, h, applyRackEdit]

theorem body_requests {σ : Type} (ext : Externals σ)
    (request : EffectsRequest) (s : EngineEffectsManager σ) :
    (onCallbackStart.body ext request s).requests = s.requests :=
  (body_frame ext request s).1

theorem body_readLog {σ : Type} (ext : Externals σ) (request : EffectsRequest)
    (s : EngineEffectsManager σ) :
    (onCallbackStart.body ext request s).readLog = s.readLog :=
  (body_frame ext request s).2.1

theorem body_rack_lists {σ : Type} (ext : Externals σ) (request : EffectsRequest)
    (s : EngineEffectsManager σ) :
    (onCallbackStart.body ext request s).m_preFaderRacks =
      applyRackEdit (request.rackEdit true) s.m_preFaderRacks ∧
    (onCallbackStart.body ext request s).m_postFaderRacks =
      applyRackEdit (request.rackEdit false) s.m_postFaderRacks :=
  (body_frame ext request s).2.2.2.2.2.2

theorem body_remove_rack_frame {σ : Type} (ext : Externals σ) (request : EffectsRequest)
    (t : EngineEffectsManager σ) (hk : request.type = MessageType.REMOVE_EFFECT_RACK) :
    (onCallbackStart.body ext request t).m_chains = t.m_chains ∧
    (onCallbackStart.body ext request t).m_effects = t.m_effects := by
  rw [body_rack_kind ext request t (Or.inr hk)]
  simp only [processEffectsRequest, hk, removePreFaderEffectRack, removePostFaderEffectRack]
  split <;> simp

theorem body_remove_chain_frame {σ : Type} (ext : Externals σ) (request : EffectsRequest)
    (t : EngineEffectsManager σ) (hk : request.type = MessageType.REMOVE_CHAIN_FROM_RACK) :
    (onCallbackStart.body ext request t).m_effects = t.m_effects := by
  have hr : request.type.rackTargeted = true := by simp [hk, MessageType.rackTargeted]
  by_cases h1 : request.pTargetRack ∈ t.m_preFaderRacks ∨
      request.pTargetRack ∈ t.m_postFaderRacks
  · cases hp : (ext.rackRequest request.pTargetRack request t.world).1
    · rw [body_rack_declined ext request t hr h1 hp]
      simp
    · rw [body_remove_chain ext request t hk h1 hp]
      simp
  · rw [body_no_such_rack ext request t hr (by tauto) (by tauto)]

/-! ### The dispatch loop -/

theorem onCallbackStart_cons {σ : Type} (ext : Externals σ) (s : EngineEffectsManager σ)
    (request : EffectsRequest) (rest : List EffectsRequest) (hq : s.requests = request :: rest) :
    onCallbackStart ext s =
      onCallbackStart ext (onCallbackStart.body ext request
        { s with requests := rest, readLog := s.readLog ++ [request] }) := by
  unfold onCallbackStart
  rw [hq, body_requests]
  rfl

theorem onCallbackStart_nil {σ : Type} (ext : Externals σ) (s : EngineEffectsManager σ)
    (hq : s.requests = []) : onCallbackStart ext s = s := by
  unfold onCallbackStart
  rw [hq]
  rfl

theorem onCallbackStart_singleton {σ : Type} (ext : Externals σ) (s : EngineEffectsManager σ)
    (request : EffectsRequest) (hq : s.requests = [request]) :
    onCallbackStart ext s =
      onCallbackStart.body ext request
        { s with requests := [], readLog := s.readLog ++ [request] } := by
  rw [onCallbackStart_cons ext s request [] hq]
  exact onCallbackStart_nil ext _ (by rw [body_requests])

theorem loop_readLog {σ : Type} (ext : Externals σ) (queue : List EffectsRequest) :
    ∀ s : EngineEffectsManager σ,
      (onCallbackStart.loop ext queue s).readLog = s.readLog ++ queue := by
  induction queue with
  | nil => intro s; simp [onCallbackStart.loop]
  | cons request rest ih =>
    intro s
    simp only [onCallbackStart.loop]
    rw [ih, body_readLog]
    simp

theorem loop_requests {σ : Type} (ext : Externals σ) (queue : List EffectsRequest) :
    ∀ s : EngineEffectsManager σ, s.requests = queue →
      (onCallbackStart.loop ext queue s).requests = [] := by
  induction queue with
  | nil => intro s h; simpa [onCallbackStart.loop] using h
  | cons request rest ih =>
    intro s _
    simp only [onCallbackStart.loop]
    exact ih _ (by rw [body_requests])

theorem onCallbackStart_requests {σ : Type} (ext : Externals σ) (s : EngineEffectsManager σ) :
    (onCallbackStart ext s).requests = [] :=
  loop_requests ext s.requests s rfl

theorem onCallbackStart_readLog {σ : Type} (ext : Externals σ) (s : EngineEffectsManager σ) :
    (onCallbackStart ext s).readLog = s.readLog ++ s.requests :=
  loop_readLog ext s.requests s

/-! ### Collaborator calls and responses -/

theorem body_forwardLog {σ : Type} (ext : Externals σ) (request : EffectsRequest)
    (s : EngineEffectsManager σ) :
    (onCallbackStart.body ext request s).forwardLog = s.forwardLog ∨
    ∃ f, (onCallbackStart.body ext request s).forwardLog = s.forwardLog ++ [f] ∧
      f.targetListed ∧ f.toRequestTarget ∧ f.request = request ∧
      f.preFaderRacks = s.m_preFaderRacks ∧ f.postFaderRacks = s.m_postFaderRacks ∧
      f.chains = s.m_chains ∧ f.effects = s.m_effects := by
  by_cases hr : request.type.rackTargeted = true
  · by_cases h1 : request.pTargetRack ∈ s.m_preFaderRacks ∨
        request.pTargetRack ∈ s.m_postFaderRacks
    · right
      have h1' : ¬ (request.pTargetRack ∉ s.m_preFaderRacks ∧
          request.pTargetRack ∉ s.m_postFaderRacks) := by tauto
      refine ⟨⟨Target.rack request.pTargetRack, request, s.m_preFaderRacks, s.m_postFaderRacks,
          s.m_chains, s.m_effects, (ext.rackRequest request.pTargetRack request s.world).1⟩,
        ?_, h1, Or.inl ⟨hr, rfl⟩, rfl, rfl, rfl, rfl, rfl⟩
      cases h : request.type <;> simp [h, MessageType.rackTargeted] at hr <;>
        cases hp : (ext.rackRequest request.pTargetRack request s.world).1 <;>
        simp [onCallbackStart.body, onCallbackStart.switch, h, VERIFY_OR_DEBUG_ASSERT,
          QList.contains, h1', writeMessages, forwardToRack, hp]
    · left
      rw [body_no_such_rack ext request s hr (by tauto) (by tauto)]
  · by_cases hc : request.type.chainTargeted = true
    · by_cases h1 : request.pTargetChain ∈ s.m_chains
      · right
        refine ⟨⟨Target.chain request.pTargetChain, request, s.m_preFaderRacks, s.m_postFaderRacks,
          s.m_chains, s.m_effects, (ext.chainRequest request.pTargetChain request s.world).1⟩,
          ?_, h1, Or.inr (Or.inl ⟨hc, rfl⟩), rfl, rfl, rfl, rfl, rfl⟩
        cases h : request.type <;> simp [h, MessageType.chainTargeted] at hc <;>
          cases hp : (ext.chainRequest request.pTargetChain request s.world).1 <;>
          simp [onCallbackStart.body, onCallbackStart.switch, h, VERIFY_OR_DEBUG_ASSERT,
            QList.contains, h1, writeMessages, forwardToChain, hp]
      · left
        rw [body_no_such_chain ext request s hc h1]
    · by_cases he : request.type.effectTargeted = true
      · by_cases h1 : request.pTargetEffect ∈ s.m_effects
        · right
          refine ⟨⟨Target.effect request.pTargetEffect, request, s.m_preFaderRacks, s.m_postFaderRacks,
          s.m_chains, s.m_effects, (ext.effectRequest request.pTargetEffect request s.world).1⟩,
            ?_, h1, Or.inr (Or.inr ⟨he, rfl⟩), rfl, rfl, rfl, rfl, rfl⟩
          cases h : request.type <;> simp [h, MessageType.effectTargeted] at he <;>
            cases hp : (ext.effectRequest request.pTargetEffect request s.world).1 <;>
            simp [onCallbackStart.body, onCallbackStart.switch, h, VERIFY_OR_DEBUG_ASSERT,
              QList.contains, h1, writeMessages, forwardToEffect, hp]
        · left
          rw [body_no_such_effect ext request s he h1]
      · left
        cases h : request.type <;>
          simp [h, MessageType.rackTargeted, MessageType.chainTargeted,
            MessageType.effectTargeted] at hr hc he
        · simp [onCallbackStart.body, onCallbackStart.switch, h, processEffectsRequest,
            writeMessages, addPreFaderEffectRack, addPostFaderEffectRack]
          split <;> split <;> simp
        · simp [onCallbackStart.body, onCallbackStart.switch, h, processEffectsRequest,
            writeMessages, removePreFaderEffectRack, removePostFaderEffectRack]
          split <;> simp
        · simp [onCallbackStart.body, onCallbackStart.switch, h, writeMessages]

theorem loop_forwardLog {σ : Type} (ext : Externals σ) (queue : List EffectsRequest) :
    ∀ s : EngineEffectsManager σ, ∃ calls,
      (onCallbackStart.loop ext queue s).forwardLog = s.forwardLog ++ calls ∧
      ∀ f ∈ calls, f.targetListed ∧ f.toRequestTarget := by
  induction queue with
  | nil => intro s; exact ⟨[], by simp [onCallbackStart.loop], by simp⟩
  | cons request rest ih =>
    intro s
    obtain ⟨calls, hc, hall⟩ := ih (onCallbackStart.body ext request
      { s with requests := rest, readLog := s.readLog ++ [request] })
    rcases body_forwardLog ext request
      { s with requests := rest, readLog := s.readLog ++ [request] } with hb | ⟨f, hb, h1, h2, _⟩
    · refine ⟨calls, ?_, hall⟩
      simp only [onCallbackStart.loop]
      rw [hc, hb]
    · refine ⟨f :: calls, ?_, ?_⟩
      · simp only [onCallbackStart.loop]
        rw [hc, hb]
        simp
      · intro g hg
        rcases List.mem_cons.mp hg with rfl | hg
        · exact ⟨h1, h2⟩
        · exact hall g hg

theorem switch_processed_iff {σ : Type} (ext : Externals σ) (request : EffectsRequest)
    (s : EngineEffectsManager σ) :
    (onCallbackStart.switch ext request s).processed = false ↔
      notProcessedCause ext request s := by
  unfold notProcessedCause
  cases h : request.type <;>
    simp [onCallbackStart.switch, h, MessageType.rackTargeted, MessageType.chainTargeted,
      MessageType.effectTargeted, processEffectsRequest, VERIFY_OR_DEBUG_ASSERT,
      QList.contains, forwardToRack, forwardToChain, forwardToEffect] <;>
    (repeat' split) <;> simp_all

theorem length_ite_one_zero {α : Type} (l : List α) (b : Bool)
    (h : l.length = if b then 1 else 0) :
    (b = true → ∃ r, l = [r]) ∧ (b = false → l = []) := by
  cases b
  · simp at h; simp [h]
  · simp at h; simpa [List.length_eq_one] using h

theorem switch_responses {σ : Type} (ext : Externals σ) (hext : ext.respondsIffProcessed)
    (request : EffectsRequest) (s : EngineEffectsManager σ) :
    ((onCallbackStart.switch ext request s).processed = true →
      ∃ r, (onCallbackStart.switch ext request s).state.responses = s.responses ++ [r]) ∧
    ((onCallbackStart.switch ext request s).processed = false →
      (onCallbackStart.switch ext request s).state.responses = s.responses) := by
  obtain ⟨hR, hC, hE⟩ := hext
  have hR' := fun p w => length_ite_one_zero _ _ (hR p request w)
  have hC' := fun p w => length_ite_one_zero _ _ (hC p request w)
  have hE' := fun p w => length_ite_one_zero _ _ (hE p request w)
  cases h : request.type
  case ADD_EFFECT_RACK =>
    simp [onCallbackStart.switch, h, processEffectsRequest, writeMessages,
      addPreFaderEffectRack, addPostFaderEffectRack]
    split <;> split <;> simp
  case REMOVE_EFFECT_RACK =>
    simp [onCallbackStart.switch, h, processEffectsRequest, writeMessages,
      removePreFaderEffectRack, removePostFaderEffectRack]
    split <;> simp
  case OTHER code =>
    simp [onCallbackStart.switch, h]
  case ADD_CHAIN_TO_RACK | REMOVE_CHAIN_FROM_RACK =>
    by_cases h1 : request.pTargetRack ∉ s.m_preFaderRacks ∧
        request.pTargetRack ∉ s.m_postFaderRacks
    · simp [onCallbackStart.switch, h, VERIFY_OR_DEBUG_ASSERT, QList.contains, h1]
    · cases hp : (ext.rackRequest request.pTargetRack request s.world).1
      · have := (hR' request.pTargetRack s.world).2 hp
        simp [onCallbackStart.switch, h, VERIFY_OR_DEBUG_ASSERT, QList.contains, h1,
          forwardToRack, hp, this]
      · obtain ⟨r, hr⟩ := (hR' request.pTargetRack s.world).1 hp
        simp [onCallbackStart.switch, h, VERIFY_OR_DEBUG_ASSERT, QList.contains, h1,
          forwardToRack, hp, hr]
  case SET_EFFECT_PARAMETERS | SET_PARAMETER_PARAMETERS =>
    by_cases h1 : request.pTargetEffect ∈ s.m_effects
    · cases hp : (ext.effectRequest request.pTargetEffect request s.world).1
      · have := (hE' request.pTargetEffect s.world).2 hp
        simp [onCallbackStart.switch, h, VERIFY_OR_DEBUG_ASSERT, QList.contains, h1,
          forwardToEffect, hp, this]
      · obtain ⟨r, hr⟩ := (hE' request.pTargetEffect s.world).1 hp
        simp [onCallbackStart.switch, h, VERIFY_OR_DEBUG_ASSERT, QList.contains, h1,
          forwardToEffect, hp, hr]
    · simp [onCallbackStart.switch, h, VERIFY_OR_DEBUG_ASSERT, QList.contains, h1]
  all_goals
    by_cases h1 : request.pTargetChain ∈ s.m_chains
    · cases hp : (ext.chainRequest request.pTargetChain request s.world).1
      · have := (hC' request.pTargetChain s.world).2 hp
        simp [onCallbackStart.switch, h, VERIFY_OR_DEBUG_ASSERT, QList.contains, h1,
          forwardToChain, hp, this]
      · obtain ⟨r, hr⟩ := (hC' request.pTargetChain s.world).1 hp
        simp [onCallbackStart.switch, h, VERIFY_OR_DEBUG_ASSERT, QList.contains, h1,
          forwardToChain, hp, hr]
    · simp [onCallbackStart.switch, h, VERIFY_OR_DEBUG_ASSERT, QList.contains, h1]

theorem acceptAll_respondsIffProcessed : acceptAll.respondsIffProcessed := by
  refine ⟨?_, ?_, ?_⟩ <;> intro p request w <;> rfl

/-! ### Edit histories -/

theorem lastEditOf_append_singleton (x : Nat) (edits : List Edit) (e : Edit) :
    lastEditOf x (edits ++ [e]) = if e.id = x then some e else lastEditOf x edits := by
  unfold lastEditOf
  by_cases h : e.id = x
  · simp [List.filter_append, h]
  · simp [List.filter_append, h]

theorem netOf_nil : NetOf [] [] := by
  intro x; simp [lastEditOf]

theorem netOf_add {l : List Nat} {edits : List Edit} (h : NetOf l edits) (y : Nat) :
    NetOf (l ++ [y]) (edits ++ [Edit.add y]) := by
  intro x
  rw [lastEditOf_append_singleton]
  by_cases hxy : y = x
  · subst hxy; simp [Edit.id]
  · have hxy' : x ≠ y := fun h => hxy h.symm
    simp [Edit.id, hxy, hxy', h x]

theorem netOf_add_present {l : List Nat} {edits : List Edit} (h : NetOf l edits) (y : Nat)
    (hy : y ∈ l) : NetOf l (edits ++ [Edit.add y]) := by
  intro x
  rw [lastEditOf_append_singleton]
  by_cases hxy : y = x
  · subst hxy; simp [Edit.id, hy]
  · simp [Edit.id, hxy, h x]

theorem netOf_remove {l : List Nat} {edits : List Edit} (h : NetOf l edits) (y : Nat) :
    NetOf (l.filter (fun z => decide (z ≠ y))) (edits ++ [Edit.remove y]) := by
  intro x
  rw [lastEditOf_append_singleton]
  by_cases hxy : y = x
  · subst hxy; simp [Edit.id]
  · have hxy' : x ≠ y := fun h => hxy h.symm
    simp [Edit.id, hxy, hxy', h x]

theorem netOf_applyEdit {l : List Nat} {edits : List Edit} (h : NetOf l edits)
    (o : Option Edit) : NetOf (applyEdit o l) (edits ++ o.toList) := by
  cases o with
  | none => simpa [Mixxx.applyEdit] using h
  | some e =>
    cases e with
    | add x => simpa [Mixxx.applyEdit] using netOf_add h x
    | remove x => simpa [Mixxx.applyEdit] using netOf_remove h x

theorem netOf_applyRackEdit {l : List Nat} {edits : List Edit} (h : NetOf l edits)
    (o : Option Edit) : NetOf (applyRackEdit o l) (edits ++ o.toList) := by
  cases o with
  | none => simpa [Mixxx.applyRackEdit] using h
  | some e =>
    cases e with
    | add x =>
      by_cases hx : x ∈ l
      · simpa [Mixxx.applyRackEdit, hx] using netOf_add_present h x hx
      · simpa [Mixxx.applyRackEdit, hx] using netOf_add h x
    | remove x => simpa [Mixxx.applyRackEdit] using netOf_remove h x

theorem filterMap_append_singleton {α β : Type} (g : α → Option β) (l : List α) (a : α) :
    (l ++ [a]).filterMap g = l.filterMap g ++ (g a).toList := by
  rw [List.filterMap_append]
  cases h : g a <;> simp [List.filterMap_cons, h]

theorem body_master_lists {σ : Type} (ext : Externals σ) (request : EffectsRequest)
    (s : EngineEffectsManager σ) :
    ((onCallbackStart.body ext request s).forwardLog = s.forwardLog ∧
      (onCallbackStart.body ext request s).m_chains = s.m_chains ∧
      (onCallbackStart.body ext request s).m_effects = s.m_effects) ∨
    ∃ f, (onCallbackStart.body ext request s).forwardLog = s.forwardLog ++ [f] ∧
      (onCallbackStart.body ext request s).m_chains = applyEdit f.chainEdit s.m_chains ∧
      (onCallbackStart.body ext request s).m_effects = applyEdit f.effectEdit s.m_effects := by
  by_cases hr : request.type.rackTargeted = true
  · by_cases h1 : request.pTargetRack ∈ s.m_preFaderRacks ∨
        request.pTargetRack ∈ s.m_postFaderRacks
    · right
      refine ⟨⟨Target.rack request.pTargetRack, request, s.m_preFaderRacks, s.m_postFaderRacks,
          s.m_chains, s.m_effects, (ext.rackRequest request.pTargetRack request s.world).1⟩, ?_⟩
      cases hp : (ext.rackRequest request.pTargetRack request s.world).1
      · rw [body_rack_declined ext request s hr h1 hp]
        simp [hp, Forwarded.chainEdit, Forwarded.effectEdit, applyEdit]
      · cases h : request.type <;> simp [h, MessageType.rackTargeted] at hr
        · rw [body_add_chain ext request s h h1 hp]
          simp [hp, h, Forwarded.chainEdit, Forwarded.effectEdit, applyEdit]
        · rw [body_remove_chain ext request s h h1 hp]
          simp [hp, h, Forwarded.chainEdit, Forwarded.effectEdit, applyEdit]
    · left
      rw [body_no_such_rack ext request s hr (by tauto) (by tauto)]
      simp
  · by_cases hc : request.type.chainTargeted = true
    · by_cases h1 : request.pTargetChain ∈ s.m_chains
      · right
        refine ⟨⟨Target.chain request.pTargetChain, request, s.m_preFaderRacks,
          s.m_postFaderRacks, s.m_chains, s.m_effects,
          (ext.chainRequest request.pTargetChain request s.world).1⟩, ?_⟩
        cases hp : (ext.chainRequest request.pTargetChain request s.world).1
        · rw [body_chain_declined ext request s hc h1 hp]
          simp [hp, Forwarded.chainEdit, Forwarded.effectEdit, applyEdit]
        · cases h : request.type <;> simp [h, MessageType.chainTargeted] at hc
          · rw [body_add_effect ext request s h h1 hp]
            simp [hp, h, Forwarded.chainEdit, Forwarded.effectEdit, applyEdit]
          · rw [body_remove_effect ext request s h h1 hp]
            simp [hp, h, Forwarded.chainEdit, Forwarded.effectEdit, applyEdit]
          · rw [body_chain_setter ext request s (Or.inl h) h1 hp]
            simp [hp, h, Forwarded.chainEdit, Forwarded.effectEdit, applyEdit]
          · rw [body_chain_setter ext request s (Or.inr (Or.inl h)) h1 hp]
            simp [hp, h, Forwarded.chainEdit, Forwarded.effectEdit, applyEdit]
          · rw [body_chain_setter ext request s (Or.inr (Or.inr h)) h1 hp]
            simp [hp, h, Forwarded.chainEdit, Forwarded.effectEdit, applyEdit]
      · left
        rw [body_no_such_chain ext request s hc h1]
        simp
    · by_cases he : request.type.effectTargeted = true
      · by_cases h1 : request.pTargetEffect ∈ s.m_effects
        · right
          refine ⟨⟨Target.effect request.pTargetEffect, request, s.m_preFaderRacks,
            s.m_postFaderRacks, s.m_chains, s.m_effects,
            (ext.effectRequest request.pTargetEffect request s.world).1⟩, ?_⟩
          cases hp : (ext.effectRequest request.pTargetEffect request s.world).1
          · rw [body_effect_declined ext request s he h1 hp]
            simp [hp, Forwarded.chainEdit, Forwarded.effectEdit, applyEdit]
          · rw [body_effect_setter ext request s he h1 hp]
            cases h : request.type <;> simp [h, MessageType.effectTargeted] at he <;>
              simp [hp, h, Forwarded.chainEdit, Forwarded.effectEdit, applyEdit]
        · left
          rw [body_no_such_effect ext request s he h1]
          simp
      · left
        cases h : request.type <;>
          simp [h, MessageType.rackTargeted, MessageType.chainTargeted,
            MessageType.effectTargeted] at hr hc he
        · rw [body_rack_kind ext request s (Or.inl h)]
          simp only [processEffectsRequest, h, addPreFaderEffectRack, addPostFaderEffectRack]
          split <;> split <;> simp
        · rw [body_rack_kind ext request s (Or.inr h)]
          simp only [processEffectsRequest, h, removePreFaderEffectRack,
            removePostFaderEffectRack]
          split <;> simp
        · rw [body_unhandled ext request s _ h]
          simp

theorem netInvariant_body {σ : Type} (ext : Externals σ) (request : EffectsRequest)
    (rest : List EffectsRequest) (s : EngineEffectsManager σ) (h : NetInvariant s) :
    NetInvariant (onCallbackStart.body ext request
      { s with requests := rest, readLog := s.readLog ++ [request] }) := by
  obtain ⟨hc, he, hpre, hpost⟩ := h
  have hrl := body_readLog ext request
    { s with requests := rest, readLog := s.readLog ++ [request] }
  have hracks := body_rack_lists ext request
    { s with requests := rest, readLog := s.readLog ++ [request] }
  refine ⟨?_, ?_, ?_, ?_⟩
  · rcases body_master_lists ext request
      { s with requests := rest, readLog := s.readLog ++ [request] } with
      ⟨h1, h2, _⟩ | ⟨f, h1, h2, _⟩
    · rw [h1, h2]; exact hc
    · rw [h1, h2, filterMap_append_singleton]; exact netOf_applyEdit hc _
  · rcases body_master_lists ext request
      { s with requests := rest, readLog := s.readLog ++ [request] } with
      ⟨h1, _, h3⟩ | ⟨f, h1, _, h3⟩
    · rw [h1, h3]; exact he
    · rw [h1, h3, filterMap_append_singleton]; exact netOf_applyEdit he _
  · rw [hrl, hracks.1]
    simp only [filterMap_append_singleton]
    exact netOf_applyRackEdit hpre _
  · rw [hrl, hracks.2]
    simp only [filterMap_append_singleton]
    exact netOf_applyRackEdit hpost _

theorem netInvariant_loop {σ : Type} (ext : Externals σ) (queue : List EffectsRequest) :
    ∀ s : EngineEffectsManager σ, NetInvariant s →
      NetInvariant (onCallbackStart.loop ext queue s) := by
  induction queue with
  | nil => intro s h; exact h
  | cons request rest ih =>
    intro s h
    exact ih _ (netInvariant_body ext request rest s h)

theorem netInvariant_onCallbackStart {σ : Type} (ext : Externals σ)
    (s : EngineEffectsManager σ) (h : NetInvariant s) :
    NetInvariant (onCallbackStart ext s) :=
  netInvariant_loop ext s.requests s h

theorem netInvariant_new {σ : Type} (b1 b2 : CSAMPLEPtr) (mem : Memory) (w : σ) :
    NetInvariant (EngineEffectsManager.new b1 b2 mem w) :=
  ⟨netOf_nil, netOf_nil, netOf_nil, netOf_nil⟩

/-! ### Buffer processing leaves the dispatch state alone -/

theorem callRackProcess_dispatchView {σ : Type} (ext : Externals σ) (pRack : EngineEffectRackPtr)
    (ih oh : ChannelHandle) (pi po : CSAMPLEPtr) (n r : Nat) (gf : GroupFeatureState)
    (s : EngineEffectsManager σ) :
    (callRackProcess ext pRack ih oh pi po n r gf s).2.dispatchView = s.dispatchView := rfl

theorem inPlaceLoop_dispatchView {σ : Type} (ext : Externals σ)
    (ih oh : ChannelHandle) (pIn : CSAMPLEPtr) (n r : Nat) (gf : GroupFeatureState)
    (racks : List EngineEffectRackPtr) :
    ∀ s : EngineEffectsManager σ,
      (processInner.inPlaceLoop ext ih oh pIn n r gf racks s).dispatchView = s.dispatchView := by
  induction racks with
  | nil => intro s; rfl
  | cons pRack rest ihr =>
    intro s
    simp only [processInner.inPlaceLoop]
    split
    · rw [ihr, callRackProcess_dispatchView]
    · rw [ihr]

theorem mixLoop_dispatchView {σ : Type} (ext : Externals σ)
    (ih oh : ChannelHandle) (n r : Nat) (gf : GroupFeatureState)
    (racks : List EngineEffectRackPtr) :
    ∀ (p : CSAMPLEPtr) (s : EngineEffectsManager σ),
      (processInner.mixLoop ext ih oh n r gf racks p s).2.dispatchView = s.dispatchView := by
  induction racks with
  | nil => intro p s; rfl
  | cons pRack rest ihr =>
    intro p s
    simp only [processInner.mixLoop]
    split
    · split <;> split <;> rw [ihr, callRackProcess_dispatchView]
    · rw [ihr]

theorem processInner_dispatchView {σ : Type} (ext : Externals σ)
    (racks : List EngineEffectRackPtr) (ih oh : ChannelHandle) (pIn pOut : CSAMPLEPtr)
    (n r : Nat) (gf : GroupFeatureState) (og ng : CSAMPLE_GAIN) (s : EngineEffectsManager σ) :
    (processInner ext racks ih oh pIn pOut n r gf og ng s).dispatchView = s.dispatchView := by
  simp only [processInner]
  split
  · rw [inPlaceLoop_dispatchView]; rfl
  · show (processInner.mixLoop ext ih oh n r gf racks _ _).2.dispatchView = _
    rw [mixLoop_dispatchView]
    split <;> rfl

theorem apply_bufferProcessing_dispatchView {σ : Type} (ext : Externals σ)
    (s : EngineEffectsManager σ) (call : ManagerCall) (h : call.isBufferProcessing = true) :
    (call.apply ext s).dispatchView = s.dispatchView := by
  cases call with
  | onCallbackStart arrived => simp [ManagerCall.isBufferProcessing] at h
  | processPreFaderInPlace ih oh p n r =>
    exact processInner_dispatchView ext _ ih oh p p n r _ _ _ s
  | processPostFaderInPlace ih oh p n r gf og ng =>
    exact processInner_dispatchView ext _ ih oh p p n r gf og ng s
  | processPostFaderAndMix ih oh pi po n r gf og ng =>
    exact processInner_dispatchView ext _ ih oh pi po n r gf og ng s

theorem netInvariant_of_dispatchView {σ : Type} {s t : EngineEffectsManager σ}
    (h : t.dispatchView = s.dispatchView) (hs : NetInvariant s) : NetInvariant t := by
  simp only [EngineEffectsManager.dispatchView, EngineEffectsManager.lists, Prod.mk.injEq] at h
  obtain ⟨⟨h1, h2, h3, h4⟩, _, _, h5, h6⟩ := h
  unfold NetInvariant
  rw [h1, h2, h3, h4, h5, h6]
  exact hs

/-- What a run from a state with an empty pipe keeps true. -/
theorem runCalls_invariant {σ : Type} (ext : Externals σ) (calls : List ManagerCall) :
    ∀ s : EngineEffectsManager σ, NetInvariant s → s.requests = [] →
      NetInvariant (runCalls ext calls s) ∧ (runCalls ext calls s).requests = [] ∧
      (runCalls ext calls s).readLog = s.readLog ++ arrivedRequests calls := by
  induction calls with
  | nil => intro s h hq; simp [runCalls, arrivedRequests, h, hq]
  | cons call rest ih =>
    intro s h hq
    have hstep : NetInvariant (call.apply ext s) ∧ (call.apply ext s).requests = [] ∧
        (call.apply ext s).readLog = s.readLog ++ arrivedRequests [call] := by
      cases hb : call.isBufferProcessing
      · cases call with
        | onCallbackStart arrived =>
          refine ⟨?_, ?_, ?_⟩
          · exact netInvariant_onCallbackStart ext _ h
          · exact onCallbackStart_requests ext _
          · simp only [ManagerCall.apply]
            rw [onCallbackStart_readLog]
            simp [hq, arrivedRequests]
        | _ => simp [ManagerCall.isBufferProcessing] at hb
      · have hv := apply_bufferProcessing_dispatchView ext s call hb
        refine ⟨netInvariant_of_dispatchView hv h, ?_, ?_⟩
        · have := congrArg (fun v => v.2.1) hv
          simpa [EngineEffectsManager.dispatchView, hq] using this
        · have := congrArg (fun v => v.2.2.2.1) hv
          cases call <;> simp [ManagerCall.isBufferProcessing] at hb <;>
            simpa [EngineEffectsManager.dispatchView, arrivedRequests] using this
    obtain ⟨h1, h2, h3⟩ := ih (call.apply ext s) hstep.1 hstep.2.1
    refine ⟨h1, h2, ?_⟩
    show (runCalls ext rest (call.apply ext s)).readLog = _
    rw [h3, hstep.2.2]
    cases call <;> simp [arrivedRequests]

/-! ### The drain loop, add followed by remove, batches -/

theorem whileLoop_eq_loop {σ : Type} (ext : Externals σ) (queue : List EffectsRequest) :
    ∀ (fuel : Nat) (s : EngineEffectsManager σ), s.requests = queue → queue.length < fuel →
      onCallbackStart.whileLoop ext fuel s = some (onCallbackStart.loop ext queue s) := by
  induction queue with
  | nil =>
    intro fuel s hq hf
    cases fuel with
    | zero => simp at hf
    | succ fuel => simp [onCallbackStart.whileLoop, readMessages, hq, onCallbackStart.loop]
  | cons request rest ih =>
    intro fuel s hq hf
    cases fuel with
    | zero => simp at hf
    | succ fuel =>
      simp only [onCallbackStart.whileLoop, readMessages, hq, onCallbackStart.loop]
      exact ih fuel _ (by rw [body_requests]) (by simpa using hf)

theorem whileLoop_out_of_fuel {σ : Type} (ext : Externals σ) (queue : List EffectsRequest) :
    ∀ (fuel : Nat) (s : EngineEffectsManager σ), s.requests = queue → fuel ≤ queue.length →
      onCallbackStart.whileLoop ext fuel s = none := by
  induction queue with
  | nil =>
    intro fuel s hq hf
    simp at hf
    subst hf
    rfl
  | cons request rest ih =>
    intro fuel s hq hf
    cases fuel with
    | zero => rfl
    | succ fuel =>
      simp only [onCallbackStart.whileLoop, readMessages, hq]
      exact ih fuel _ (by rw [body_requests]) (by simpa using hf)

theorem loop_eq_foldl {σ : Type} (ext : Externals σ) (queue : List EffectsRequest) :
    ∀ (s : EngineEffectsManager σ), s.requests = queue →
      onCallbackStart.loop ext queue s =
        queue.foldl (fun t request => onCallbackStart.body ext request
          { t with requests := t.requests.tail, readLog := t.readLog ++ [request] }) s := by
  induction queue with
  | nil => intro s _; rfl
  | cons request rest ih =>
    intro s hq
    simp only [onCallbackStart.loop, List.foldl_cons]
    rw [ih _ (by rw [body_requests])]
    simp [hq]

theorem onCallbackStart_pair {σ : Type} (ext : Externals σ) (s : EngineEffectsManager σ)
    (first second : EffectsRequest) (hq : s.requests = [first, second]) :
    onCallbackStart ext s =
      onCallbackStart.body ext second
        { onCallbackStart.body ext first
            { s with requests := [second], readLog := s.readLog ++ [first] } with
          requests := []
          readLog := s.readLog ++ [first] ++ [second] } := by
  rw [onCallbackStart_cons ext s first [second] hq]
  rw [onCallbackStart_singleton ext _ second (by rw [body_requests])]
  rw [body_readLog]

theorem filter_ne_append_self (l : List Nat) (x : Nat) :
    (l ++ [x]).filter (fun y => decide (y ≠ x)) = l.filter (fun y => decide (y ≠ x)) := by
  simp [List.filter_append]

theorem filter_ne_of_not_mem (l : List Nat) (x : Nat) (h : x ∉ l) :
    l.filter (fun y => decide (y ≠ x)) = l := by
  rw [List.filter_eq_self]
  intro a ha
  simp only [ne_eq, decide_eq_true_eq]
  intro hax
  exact h (hax ▸ ha)

theorem applyRackEdit_add_remove (l : List Nat) (x : Nat) :
    applyRackEdit (some (Edit.remove x)) (applyRackEdit (some (Edit.add x)) l) =
      l.filter (fun y => decide (y ≠ x)) := by
  by_cases h : x ∈ l
  · simp [applyRackEdit, h]
  · simp [applyRackEdit, h, List.filter_append]

theorem runCalls_snoc {σ : Type} (ext : Externals σ) (calls : List ManagerCall)
    (call : ManagerCall) (s : EngineEffectsManager σ) :
    runCalls ext (calls ++ [call]) s = call.apply ext (runCalls ext calls s) := by
  simp [runCalls, List.foldl_append]

theorem body_with_requests {σ : Type} (ext : Externals σ) (request : EffectsRequest)
    (t : EngineEffectsManager σ) (q : List EffectsRequest) :
    onCallbackStart.body ext request { t with requests := q } =
      { onCallbackStart.body ext request t with requests := q } := by
  by_cases hr : request.type.rackTargeted = true
  · by_cases h1 : request.pTargetRack ∈ t.m_preFaderRacks ∨
        request.pTargetRack ∈ t.m_postFaderRacks
    · cases hp : (ext.rackRequest request.pTargetRack request t.world).1
      · rw [body_rack_declined ext request t hr h1 hp,
          body_rack_declined ext request { t with requests := q } hr h1 hp]
        rfl
      · cases h : request.type <;> simp [h, MessageType.rackTargeted] at hr
        · rw [body_add_chain ext request t h h1 hp,
            body_add_chain ext request { t with requests := q } h h1 hp]
          rfl
        · rw [body_remove_chain ext request t h h1 hp,
            body_remove_chain ext request { t with requests := q } h h1 hp]
          rfl
    · rw [body_no_such_rack ext request t hr (by tauto) (by tauto),
        body_no_such_rack ext request { t with requests := q } hr (by tauto) (by tauto)]
  · by_cases hc : request.type.chainTargeted = true
    · by_cases h1 : request.pTargetChain ∈ t.m_chains
      · cases hp : (ext.chainRequest request.pTargetChain request t.world).1
        · rw [body_chain_declined ext request t hc h1 hp,
            body_chain_declined ext request { t with requests := q } hc h1 hp]
          rfl
        · cases h : request.type <;> simp [h, MessageType.chainTargeted] at hc
          · rw [body_add_effect ext request t h h1 hp,
              body_add_effect ext request { t with requests := q } h h1 hp]
            rfl
          · rw [body_remove_effect ext request t h h1 hp,
              body_remove_effect ext request { t with requests := q } h h1 hp]
            rfl
          · rw [body_chain_setter ext request t (Or.inl h) h1 hp,
              body_chain_setter ext request { t with requests := q } (Or.inl h) h1 hp]
            rfl
          · rw [body_chain_setter ext request t (Or.inr (Or.inl h)) h1 hp,
              body_chain_setter ext request { t with requests := q } (Or.inr (Or.inl h)) h1 hp]
            rfl
          · rw [body_chain_setter ext request t (Or.inr (Or.inr h)) h1 hp,
              body_chain_setter ext request { t with requests := q } (Or.inr (Or.inr h)) h1 hp]
            rfl
      · rw [body_no_such_chain ext request t hc h1,
          body_no_such_chain ext request { t with requests := q } hc h1]
    · by_cases he : request.type.effectTargeted = true
      · by_cases h1 : request.pTargetEffect ∈ t.m_effects
        · cases hp : (ext.effectRequest request.pTargetEffect request t.world).1
          · rw [body_effect_declined ext request t he h1 hp,
              body_effect_declined ext request { t with requests := q } he h1 hp]
            rfl
          · rw [body_effect_setter ext request t he h1 hp,
              body_effect_setter ext request { t with requests := q } he h1 hp]
            rfl
        · rw [body_no_such_effect ext request t he h1,
            body_no_such_effect ext request { t with requests := q } he h1]
      · cases h : request.type <;>
          simp [h, MessageType.rackTargeted, MessageType.chainTargeted,
            MessageType.effectTargeted] at hr hc he
        · rw [body_rack_kind ext request t (Or.inl h),
            body_rack_kind ext request { t with requests := q } (Or.inl h)]
          simp only [processEffectsRequest, h, addPreFaderEffectRack, addPostFaderEffectRack,
            writeMessages]
          split <;> split <;> rfl
        · rw [body_rack_kind ext request t (Or.inr h),
            body_rack_kind ext request { t with requests := q } (Or.inr h)]
          simp only [processEffectsRequest, h, removePreFaderEffectRack,
            removePostFaderEffectRack, writeMessages]
          split <;> rfl
        · rw [body_unhandled ext request t _ h,
            body_unhandled ext request { t with requests := q } _ h]

theorem onCallbackStart_append {σ : Type} (ext : Externals σ) (a b : List EffectsRequest) :
    ∀ s : EngineEffectsManager σ,
      onCallbackStart ext { s with requests := a ++ b } =
        onCallbackStart ext
          { onCallbackStart ext { s with requests := a } with requests := b } := by
  induction a with
  | nil =>
    intro s
    rw [onCallbackStart_nil ext { s with requests := [] } rfl]
    rfl
  | cons request rest ih =>
    intro s
    have hl := onCallbackStart_cons ext { s with requests := request :: rest ++ b } request
      (rest ++ b) rfl
    have hr := onCallbackStart_cons ext { s with requests := request :: rest } request rest rfl
    have l1 := body_with_requests ext request { s with readLog := s.readLog ++ [request] }
      (rest ++ b)
    have l2 := body_with_requests ext request { s with readLog := s.readLog ++ [request] } rest
    have hi := ih (onCallbackStart.body ext request
      { s with readLog := s.readLog ++ [request] })
    calc onCallbackStart ext { s with requests := request :: rest ++ b }
        = onCallbackStart ext (onCallbackStart.body ext request
            { s with requests := rest ++ b, readLog := s.readLog ++ [request] }) := hl
      _ = onCallbackStart ext { onCallbackStart.body ext request
            { s with readLog := s.readLog ++ [request] } with requests := rest ++ b } :=
          congrArg _ l1
      _ = onCallbackStart ext { onCallbackStart ext { onCallbackStart.body ext request
            { s with readLog := s.readLog ++ [request] } with requests := rest } with
            requests := b } := hi
      _ = onCallbackStart ext { onCallbackStart ext (onCallbackStart.body ext request
            { s with requests := rest, readLog := s.readLog ++ [request] }) with
            requests := b } := by rw [← l2]
      _ = onCallbackStart ext
            { onCallbackStart ext { s with requests := request :: rest } with
              requests := b } := by rw [← hr]

theorem runCalls_split_batch {σ : Type} (ext : Externals σ) (a b : List EffectsRequest)
    (s : EngineEffectsManager σ) (hq : s.requests = []) :
    runCalls ext [ManagerCall.onCallbackStart (a ++ b)] s =
      runCalls ext [ManagerCall.onCallbackStart a, ManagerCall.onCallbackStart b] s := by
  simp only [runCalls, List.foldl_cons, List.foldl_nil, ManagerCall.apply, hq, List.nil_append]
  rw [onCallbackStart_append ext a b s, onCallbackStart_requests]
  rfl

theorem body_chain_forwarded {σ : Type} (ext : Externals σ) (request : EffectsRequest)
    (t : EngineEffectsManager σ) (hc : request.type.chainTargeted = true)
    (h1 : request.pTargetChain ∈ t.m_chains) :
    (onCallbackStart.body ext request t).forwardLog =
      t.forwardLog ++ [⟨Target.chain request.pTargetChain, request, t.m_preFaderRacks,
        t.m_postFaderRacks, t.m_chains, t.m_effects,
        (ext.chainRequest request.pTargetChain request t.world).1⟩] ∧
    (onCallbackStart.body ext request t).responses =
      t.responses ++ (ext.chainRequest request.pTargetChain request t.world).2.1 ++
        (if (ext.chainRequest request.pTargetChain request t.world).1 then []
          else [{ request := request, success := false,
                  status := StatusCode.INVALID_REQUEST }]) := by
  cases hp : (ext.chainRequest request.pTargetChain request t.world).1
  · rw [body_chain_declined ext request t hc h1 hp]
    simp [hp]
  · cases h : request.type <;> simp [h, MessageType.chainTargeted] at hc
    · rw [body_add_effect ext request t h h1 hp]
      simp [hp]
    · rw [body_remove_effect ext request t h h1 hp]
      simp [hp]
    · rw [body_chain_setter ext request t (Or.inl h) h1 hp]
      simp [hp]
    · rw [body_chain_setter ext request t (Or.inr (Or.inl h)) h1 hp]
      simp [hp]
    · rw [body_chain_setter ext request t (Or.inr (Or.inr h)) h1 hp]
      simp [hp]

theorem body_effect_forwarded {σ : Type} (ext : Externals σ) (request : EffectsRequest)
    (t : EngineEffectsManager σ) (he : request.type.effectTargeted = true)
    (h1 : request.pTargetEffect ∈ t.m_effects) :
    (onCallbackStart.body ext request t).forwardLog =
      t.forwardLog ++ [⟨Target.effect request.pTargetEffect, request, t.m_preFaderRacks,
        t.m_postFaderRacks, t.m_chains, t.m_effects,
        (ext.effectRequest request.pTargetEffect request t.world).1⟩] ∧
    (onCallbackStart.body ext request t).responses =
      t.responses ++ (ext.effectRequest request.pTargetEffect request t.world).2.1 ++
        (if (ext.effectRequest request.pTargetEffect request t.world).1 then []
          else [{ request := request, success := false,
                  status := StatusCode.INVALID_REQUEST }]) := by
  cases hp : (ext.effectRequest request.pTargetEffect request t.world).1
  · rw [body_effect_declined ext request t he h1 hp]
    simp [hp]
  · rw [body_effect_setter ext request t he h1 hp]
    simp [hp]

theorem Memory_write_same (mem : Memory) (p : CSAMPLEPtr) (b : Buffer) :
    (mem.write p b) p = b := by
  simp [Memory.write]

theorem Memory_write_other (mem : Memory) (p q : CSAMPLEPtr) (b : Buffer) (h : q ≠ p) :
    (mem.write p b) q = mem q := by
  simp [Memory.write, h]

theorem Memory_write_self (mem : Memory) (p : CSAMPLEPtr) : mem.write p (mem p) = mem := by
  funext q
  by_cases h : q = p
  · subst h; simp [Memory.write]
  · simp [Memory.write, h]

theorem overwrite_length (pDest : Buffer) (n : Nat) (f : Nat → CSAMPLE) :
    (SampleUtil.overwrite pDest n f).length = pDest.length := by
  simp [SampleUtil.overwrite]

theorem overwrite_getD (pDest : Buffer) (n : Nat) (f : Nat → CSAMPLE) (i : Nat)
    (hi : i < pDest.length) :
    (SampleUtil.overwrite pDest n f).getD i 0 = if i < n then f i else pDest.getD i 0 := by
  simp [SampleUtil.overwrite, List.getD_eq_getElem?_getD, List.getElem?_map,
    List.getElem?_range, hi]

theorem overwrite_self (b : Buffer) (n : Nat) :
    SampleUtil.overwrite b n (fun i => b.getD i 0) = b := by
  apply List.ext_getElem
  · simp [SampleUtil.overwrite]
  · intro i h1 h2
    simp [SampleUtil.overwrite, List.getD_eq_getElem?_getD, h2]

theorem rampGain_unity (n i : Nat) :
    SampleUtil.rampGain CSAMPLE_GAIN_ONE CSAMPLE_GAIN_ONE n i = 1 := by
  simp [SampleUtil.rampGain, CSAMPLE_GAIN_ONE]

theorem applyRampingGain_unity (b : Buffer) (n : Nat) :
    SampleUtil.applyRampingGain b CSAMPLE_GAIN_ONE CSAMPLE_GAIN_ONE n = b := by
  simp only [SampleUtil.applyRampingGain, rampGain_unity, mul_one]
  exact overwrite_self b n

theorem nonNullRacks_cons_null (rest : List EngineEffectRackPtr) :
    nonNullRacks (nullptr :: rest) = nonNullRacks rest := by
  simp [nonNullRacks]

theorem nonNullRacks_cons (pRack : EngineEffectRackPtr) (rest : List EngineEffectRackPtr)
    (h : pRack ≠ nullptr) : nonNullRacks (pRack :: rest) = pRack :: nonNullRacks rest := by
  simp [nonNullRacks, h]

theorem inPlaceLoop_nonNull {σ : Type} (ext : Externals σ) (ih oh : ChannelHandle)
    (p : CSAMPLEPtr) (n rate : Nat) (gf : GroupFeatureState)
    (racks : List EngineEffectRackPtr) :
    ∀ s : EngineEffectsManager σ,
      processInner.inPlaceLoop ext ih oh p n rate gf racks s =
        processInner.inPlaceLoop ext ih oh p n rate gf (nonNullRacks racks) s := by
  induction racks with
  | nil => intro s; rfl
  | cons pRack rest ihr =>
    intro s
    by_cases h : pRack = nullptr
    · subst h
      rw [nonNullRacks_cons_null]
      simp only [processInner.inPlaceLoop, ne_eq, not_true_eq_false, if_false]
      exact ihr s
    · rw [nonNullRacks_cons pRack rest h]
      simp only [processInner.inPlaceLoop, ne_eq, h, not_false_eq_true, if_true]
      exact ihr _

theorem mixLoop_nonNull {σ : Type} (ext : Externals σ) (ih oh : ChannelHandle)
    (n rate : Nat) (gf : GroupFeatureState) (racks : List EngineEffectRackPtr) :
    ∀ (p : CSAMPLEPtr) (s : EngineEffectsManager σ),
      processInner.mixLoop ext ih oh n rate gf racks p s =
        processInner.mixLoop ext ih oh n rate gf (nonNullRacks racks) p s := by
  induction racks with
  | nil => intro p s; rfl
  | cons pRack rest ihr =>
    intro p s
    by_cases h : pRack = nullptr
    · subst h
      rw [nonNullRacks_cons_null]
      simp only [processInner.mixLoop, ne_eq, not_true_eq_false, if_false]
      exact ihr p s
    · rw [nonNullRacks_cons pRack rest h]
      simp only [processInner.mixLoop, ne_eq, h, not_false_eq_true, if_true]
      rw [ihr, ihr]

theorem nonNullRacks_of_all_null (racks : List EngineEffectRackPtr)
    (h : ∀ r ∈ racks, r = nullptr) : nonNullRacks racks = [] := by
  simp only [nonNullRacks, List.filter_eq_nil_iff]
  intro a ha
  simp [h a ha]

theorem processInner_nonNull {σ : Type} (ext : Externals σ) (racks : List EngineEffectRackPtr)
    (ih oh : ChannelHandle) (pIn pOut : CSAMPLEPtr) (n rate : Nat) (gf : GroupFeatureState)
    (og ng : CSAMPLE_GAIN) (s : EngineEffectsManager σ) :
    processInner ext racks ih oh pIn pOut n rate gf og ng s =
      processInner ext (nonNullRacks racks) ih oh pIn pOut n rate gf og ng s := by
  simp only [processInner]
  rw [inPlaceLoop_nonNull, mixLoop_nonNull]

theorem processInner_mix {σ : Type} (ext : Externals σ) (racks : List EngineEffectRackPtr)
    (ih oh : ChannelHandle) (pIn pOut : CSAMPLEPtr) (n rate : Nat) (gf : GroupFeatureState)
    (og ng : CSAMPLE_GAIN) (s : EngineEffectsManager σ) (hne : pIn ≠ pOut) :
    processInner ext racks ih oh pIn pOut n rate gf og ng s =
      { (processInner.mixLoop ext ih oh n rate gf racks
          (processInner.mixStart ext pIn n og ng s).1
          (processInner.mixStart ext pIn n og ng s).2).2 with
        memory := (processInner.mixLoop ext ih oh n rate gf racks
            (processInner.mixStart ext pIn n og ng s).1
            (processInner.mixStart ext pIn n og ng s).2).2.memory.write pOut
          (ext.add
            ((processInner.mixLoop ext ih oh n rate gf racks
              (processInner.mixStart ext pIn n og ng s).1
              (processInner.mixStart ext pIn n og ng s).2).2.memory pOut)
            ((processInner.mixLoop ext ih oh n rate gf racks
              (processInner.mixStart ext pIn n og ng s).1
              (processInner.mixStart ext pIn n og ng s).2).2.memory
              (processInner.mixLoop ext ih oh n rate gf racks
                (processInner.mixStart ext pIn n og ng s).1
                (processInner.mixStart ext pIn n og ng s).2).1) n) } := by
  simp only [processInner, hne, if_false]
  rfl

theorem processInner_inPlace {σ : Type} (ext : Externals σ) (racks : List EngineEffectRackPtr)
    (ih oh : ChannelHandle) (p : CSAMPLEPtr) (n rate : Nat) (gf : GroupFeatureState)
    (og ng : CSAMPLE_GAIN) (s : EngineEffectsManager σ) :
    processInner ext racks ih oh p p n rate gf og ng s =
      processInner.inPlaceLoop ext ih oh p n rate gf racks
        { s with memory := s.memory.write p (ext.applyRampingGain (s.memory p) og ng n) } := by
  simp [processInner]

theorem exampleAudio_usesSampleUtil : exampleAudio.usesSampleUtil := ⟨rfl, rfl, rfl⟩

theorem exampleAudio_racksWriteOnlyArguments : exampleAudio.racksWriteOnlyArguments := by
  intro pRack ih oh pInput pOutput n rate gf mem w q h1 h2
  simp only [exampleAudio]
  split
  · exact Memory_write_other _ _ _ _ h2
  · rfl

theorem exampleAudio_racksKeepInput : exampleAudio.racksKeepInput := by
  intro pRack ih oh pInput pOutput n rate gf mem w h
  simp only [exampleAudio]
  split
  · exact Memory_write_other _ _ _ _ h
  · rfl

theorem inPlaceLoop_eq_foldl {σ : Type} (ext : Externals σ) (ih oh : ChannelHandle)
    (p : CSAMPLEPtr) (n rate : Nat) (gf : GroupFeatureState)
    (racks : List EngineEffectRackPtr) :
    ∀ s : EngineEffectsManager σ,
      processInner.inPlaceLoop ext ih oh p n rate gf racks s =
        (nonNullRacks racks).foldl
          (fun u pRack => (callRackProcess ext pRack ih oh p p n rate gf u).2) s := by
  induction racks with
  | nil => intro s; rfl
  | cons pRack rest ihr =>
    intro s
    by_cases h : pRack = nullptr
    · subst h
      rw [nonNullRacks_cons_null]
      simp only [processInner.inPlaceLoop, ne_eq, not_true_eq_false, if_false]
      exact ihr s
    · rw [nonNullRacks_cons pRack rest h]
      simp only [processInner.inPlaceLoop, ne_eq, h, not_false_eq_true, if_true,
        List.foldl_cons]
      exact ihr _

theorem foldl_callRackProcess_memory_world {σ : Type} (ext : Externals σ) (ih oh : ChannelHandle)
    (p : CSAMPLEPtr) (n rate : Nat) (gf : GroupFeatureState)
    (racks : List EngineEffectRackPtr) :
    ∀ s : EngineEffectsManager σ,
      (((racks.foldl (fun u pRack => (callRackProcess ext pRack ih oh p p n rate gf u).2)
          s).memory,
        (racks.foldl (fun u pRack => (callRackProcess ext pRack ih oh p p n rate gf u).2)
          s).world) : Memory × σ) =
        racks.foldl
          (fun mw pRack => (ext.rackProcess pRack ih oh p p n rate gf mw.1 mw.2).2)
          (s.memory, s.world) := by
  induction racks with
  | nil => intro s; rfl
  | cons pRack rest ihr =>
    intro s
    simp only [List.foldl_cons]
    rw [ihr]
    rfl

theorem foldl_callRackProcess_processLog {σ : Type} (ext : Externals σ) (ih oh : ChannelHandle)
    (p : CSAMPLEPtr) (n rate : Nat) (gf : GroupFeatureState)
    (racks : List EngineEffectRackPtr) :
    ∀ s : EngineEffectsManager σ, ∃ calls,
      (racks.foldl (fun u pRack => (callRackProcess ext pRack ih oh p p n rate gf u).2)
          s).processLog = s.processLog ++ calls ∧
      calls.map ProcessCall.arguments =
        racks.map (fun pRack => (pRack, ih, oh, p, p, n, rate, gf)) := by
  induction racks with
  | nil => intro s; exact ⟨[], by simp, rfl⟩
  | cons pRack rest ihr =>
    intro s
    obtain ⟨calls, h1, h2⟩ := ihr (callRackProcess ext pRack ih oh p p n rate gf s).2
    refine ⟨⟨pRack, ih, oh, p, p, n, rate, gf,
      (ext.rackProcess pRack ih oh p p n rate gf s.memory s.world).1⟩ :: calls, ?_, ?_⟩
    · simp only [List.foldl_cons]
      rw [h1]
      simp [callRackProcess]
    · simp [h2, ProcessCall.arguments]

theorem callRackProcess_frame {σ : Type} (ext : Externals σ)
    (hwrite : ext.racksWriteOnlyArguments) (hkeep : ext.racksKeepInput)
    (pRack : EngineEffectRackPtr) (ih oh : ChannelHandle) (pInput pOutput : CSAMPLEPtr)
    (n rate : Nat) (gf : GroupFeatureState) (s : EngineEffectsManager σ)
    (hne : pInput ≠ pOutput) (q : CSAMPLEPtr) (hq : q ≠ pOutput) :
    (callRackProcess ext pRack ih oh pInput pOutput n rate gf s).2.memory q = s.memory q := by
  simp only [callRackProcess]
  by_cases h : q = pInput
  · subst h
    exact hkeep pRack ih oh q pOutput n rate gf s.memory s.world hne
  · exact hwrite pRack ih oh pInput pOutput n rate gf s.memory s.world q h hq

theorem mixLoop_frame {σ : Type} (ext : Externals σ)
    (hwrite : ext.racksWriteOnlyArguments) (hkeep : ext.racksKeepInput)
    (ih oh : ChannelHandle) (n rate : Nat) (gf : GroupFeatureState)
    (racks : List EngineEffectRackPtr) :
    ∀ (p : CSAMPLEPtr) (s : EngineEffectsManager σ), s.m_buffer1 ≠ s.m_buffer2 →
      (processInner.mixLoop ext ih oh n rate gf racks p s).2.m_buffer1 = s.m_buffer1 ∧
      (processInner.mixLoop ext ih oh n rate gf racks p s).2.m_buffer2 = s.m_buffer2 ∧
      ((processInner.mixLoop ext ih oh n rate gf racks p s).1 = p ∨
        (processInner.mixLoop ext ih oh n rate gf racks p s).1 = s.m_buffer1 ∨
        (processInner.mixLoop ext ih oh n rate gf racks p s).1 = s.m_buffer2) ∧
      ∀ q, q ≠ s.m_buffer1 → q ≠ s.m_buffer2 →
        (processInner.mixLoop ext ih oh n rate gf racks p s).2.memory q = s.memory q := by
  induction racks with
  | nil => intro p s _; exact ⟨rfl, rfl, Or.inl rfl, fun _ _ _ => rfl⟩
  | cons pRack rest ihr =>
    intro p s hb
    by_cases h : pRack = nullptr
    · subst h
      simp only [processInner.mixLoop, ne_eq, not_true_eq_false, if_false]
      exact ihr p s hb
    · simp only [processInner.mixLoop, ne_eq, h, not_false_eq_true, if_true]
      generalize hpo : (if p = s.m_buffer1 then s.m_buffer2 else s.m_buffer1) = po
      have hio : p ≠ po := by
        rw [← hpo]
        by_cases hp : p = s.m_buffer1
        · rw [if_pos hp, hp]; exact hb
        · rw [if_neg hp]; exact hp
      have hout : po = s.m_buffer1 ∨ po = s.m_buffer2 := by
        rw [← hpo]
        by_cases hp : p = s.m_buffer1
        · rw [if_pos hp]; exact Or.inr rfl
        · rw [if_neg hp]; exact Or.inl rfl
      have hmem : ∀ q, q ≠ s.m_buffer1 → q ≠ s.m_buffer2 →
          (callRackProcess ext pRack ih oh p po n rate gf s).2.memory q = s.memory q := by
        intro q h1 h2
        apply callRackProcess_frame ext hwrite hkeep _ _ _ _ _ _ _ _ _ hio
        rcases hout with e | e
        · rw [e]; exact h1
        · rw [e]; exact h2
      by_cases hr : (callRackProcess ext pRack ih oh p po n rate gf s).1 = true
      · rw [if_pos hr]
        obtain ⟨a, b, c, d⟩ := ihr po (callRackProcess ext pRack ih oh p po n rate gf s).2 hb
        refine ⟨a, b, ?_, fun q h1 h2 => (d q h1 h2).trans (hmem q h1 h2)⟩
        rcases c with c | c | c
        · rcases hout with e | e
          · exact Or.inr (Or.inl (c.trans e))
          · exact Or.inr (Or.inr (c.trans e))
        · exact Or.inr (Or.inl c)
        · exact Or.inr (Or.inr c)
      · rw [if_neg hr]
        obtain ⟨a, b, c, d⟩ := ihr p (callRackProcess ext pRack ih oh p po n rate gf s).2 hb
        exact ⟨a, b, c, fun q h1 h2 => (d q h1 h2).trans (hmem q h1 h2)⟩

theorem mixStart_frame {σ : Type} (ext : Externals σ) (pIn : CSAMPLEPtr) (n : Nat)
    (og ng : CSAMPLE_GAIN) (s : EngineEffectsManager σ) :
    (processInner.mixStart ext pIn n og ng s).2.m_buffer1 = s.m_buffer1 ∧
    (processInner.mixStart ext pIn n og ng s).2.m_buffer2 = s.m_buffer2 ∧
    ((processInner.mixStart ext pIn n og ng s).1 = pIn ∨
      (processInner.mixStart ext pIn n og ng s).1 = s.m_buffer1) ∧
    ∀ q, q ≠ s.m_buffer1 → (processInner.mixStart ext pIn n og ng s).2.memory q = s.memory q := by
  simp only [processInner.mixStart]
  split
  · exact ⟨rfl, rfl, Or.inl rfl, fun _ _ => rfl⟩
  · exact ⟨rfl, rfl, Or.inr rfl, fun q h => Memory_write_other _ _ _ _ h⟩

theorem mixLoop_single_idle {σ : Type} (ext : Externals σ) (hkeep : ext.racksKeepInput)
    (pRack : EngineEffectRackPtr) (hidle : ext.reportsNotModified pRack)
    (ih oh : ChannelHandle) (n rate : Nat) (gf : GroupFeatureState)
    (p : CSAMPLEPtr) (s : EngineEffectsManager σ) (hb : s.m_buffer1 ≠ s.m_buffer2) :
    (processInner.mixLoop ext ih oh n rate gf [pRack] p s).1 = p ∧
    (processInner.mixLoop ext ih oh n rate gf [pRack] p s).2.memory p = s.memory p := by
  by_cases h : pRack = nullptr
  · subst h
    simp [processInner.mixLoop]
  · have hr : ∀ po, (callRackProcess ext pRack ih oh p po n rate gf s).1 = false :=
      fun po => hidle ih oh p po n rate gf s.memory s.world
    simp only [processInner.mixLoop, ne_eq, h, not_false_eq_true, if_true, hr,
      Bool.false_eq_true, if_false, true_and]
    simp only [callRackProcess]
    apply hkeep
    by_cases hp : p = s.m_buffer1
    · rw [if_pos hp, hp]; exact hb
    · rw [if_neg hp]; exact hp

theorem mixStart_ramped {σ : Type} (ext : Externals σ) (hutil : ext.usesSampleUtil)
    (pIn : CSAMPLEPtr) (n : Nat) (og ng : CSAMPLE_GAIN) (s : EngineEffectsManager σ)
    (hlen : n ≤ (s.memory s.m_buffer1).length) (i : Nat) (hi : i < n) :
    ((processInner.mixStart ext pIn n og ng s).2.memory
        (processInner.mixStart ext pIn n og ng s).1).getD i 0 =
      (s.memory pIn).getD i 0 * SampleUtil.rampGain og ng n i := by
  simp only [processInner.mixStart]
  split
  · rename_i h
    rw [h.1, h.2, rampGain_unity, mul_one]
  · simp only [Memory_write_same, hutil.2.1, SampleUtil.copyWithRampingGain]
    rw [overwrite_getD _ _ _ _ (lt_of_lt_of_le hi hlen), if_pos hi]

theorem add_getD (pDest pSrc : Buffer) (n i : Nat) (hi : i < n) (hlen : i < pDest.length) :
    (SampleUtil.add pDest pSrc n).getD i 0 = pDest.getD i 0 + pSrc.getD i 0 := by
  simp only [SampleUtil.add]
  rw [overwrite_getD _ _ _ _ hlen, if_pos hi]

theorem exampleAudio_even_reportsNotModified : exampleAudio.reportsNotModified 4 := by
  intro ih oh pInput pOutput n rate gf mem w
  rfl

theorem exampleAudio_odd_reportsModified : exampleAudio.reportsModified 3 := by
  intro ih oh pInput pOutput n rate gf mem w
  rfl

theorem exampleAudioManager_scratchApart (post : List EngineEffectRackPtr) :
    (exampleAudioManager post).scratchApart 10 11 := by
  simp [EngineEffectsManager.scratchApart, exampleAudioManager]

/-! ### Rack requests, duplicates, removal, and the routing of the mix path -/

theorem selectedRacks_withSelectedRacks {σ : Type} (f : Bool) (l : List EngineEffectRackPtr)
    (s : EngineEffectsManager σ) : selectedRacks f (withSelectedRacks f l s) = l := by
  cases f <;> rfl

theorem selectedRacks_withSelectedRacks_other {σ : Type} (f : Bool)
    (l : List EngineEffectRackPtr) (s : EngineEffectsManager σ) :
    selectedRacks (!f) (withSelectedRacks f l s) = selectedRacks (!f) s := by
  cases f <;> rfl

theorem withSelectedRacks_m_chains {σ : Type} (f : Bool) (l : List EngineEffectRackPtr)
    (s : EngineEffectsManager σ) : (withSelectedRacks f l s).m_chains = s.m_chains := by
  cases f <;> rfl

theorem withSelectedRacks_m_effects {σ : Type} (f : Bool) (l : List EngineEffectRackPtr)
    (s : EngineEffectsManager σ) : (withSelectedRacks f l s).m_effects = s.m_effects := by
  cases f <;> rfl

theorem withSelectedRacks_responses {σ : Type} (f : Bool) (l : List EngineEffectRackPtr)
    (s : EngineEffectsManager σ) : (withSelectedRacks f l s).responses = s.responses := by
  cases f <;> rfl

theorem withSelectedRacks_self {σ : Type} (f : Bool) (s : EngineEffectsManager σ) :
    (withSelectedRacks f (selectedRacks f s) s) = s := by
  cases f <;> rfl

theorem body_rack_kind_frame {σ : Type} (ext : Externals σ) (request : EffectsRequest)
    (s : EngineEffectsManager σ)
    (hk : request.type = MessageType.ADD_EFFECT_RACK ∨
      request.type = MessageType.REMOVE_EFFECT_RACK) :
    selectedRacks (!request.AddEffectRack.preFader) (onCallbackStart.body ext request s) =
      selectedRacks (!request.AddEffectRack.preFader) s ∧
    (onCallbackStart.body ext request s).m_chains = s.m_chains ∧
    (onCallbackStart.body ext request s).m_effects = s.m_effects := by
  rcases hk with hk | hk
  · by_cases h1 : request.AddEffectRack.pRack ∈ selectedRacks request.AddEffectRack.preFader s
    · rw [body_add_rack_present ext request s hk h1]
      exact ⟨rfl, rfl, rfl⟩
    · rw [body_add_rack_absent ext request s hk h1]
      exact ⟨selectedRacks_withSelectedRacks_other _ _ _, withSelectedRacks_m_chains _ _ _,
        withSelectedRacks_m_effects _ _ _⟩
  · by_cases h1 : request.RemoveEffectRack.pRack ∈
        selectedRacks request.RemoveEffectRack.preFader s
    · rw [body_remove_rack_present ext request s hk h1]
      exact ⟨selectedRacks_withSelectedRacks_other _ _ _, withSelectedRacks_m_chains _ _ _,
        withSelectedRacks_m_effects _ _ _⟩
    · rw [body_remove_rack_absent ext request s hk h1]
      exact ⟨rfl, rfl, rfl⟩

theorem filter_ne_append_new (l : List Nat) (x : Nat) (h : x ∉ l) :
    (l ++ [x]).filter (fun y => decide (y ≠ x)) = l := by
  rw [filter_ne_append_self, filter_ne_of_not_mem l x h]

theorem applyRackEdit_nodup (e : Option Edit) (l : List Nat) (h : l.Nodup) :
    (applyRackEdit e l).Nodup := by
  cases e with
  | none => exact h
  | some e =>
    cases e with
    | add x =>
      simp only [applyRackEdit]
      split
      · exact h
      · rename_i hx
        exact List.Nodup.append h (List.nodup_singleton x)
          (by
            simp only [List.Disjoint, List.mem_singleton]
            exact fun a ha e => hx (e ▸ ha))
    | remove x =>
      simp only [applyRackEdit]
      exact h.filter _

theorem rackNodup_loop {σ : Type} (ext : Externals σ) (queue : List EffectsRequest) :
    ∀ s : EngineEffectsManager σ, s.m_preFaderRacks.Nodup ∧ s.m_postFaderRacks.Nodup →
      (onCallbackStart.loop ext queue s).m_preFaderRacks.Nodup ∧
      (onCallbackStart.loop ext queue s).m_postFaderRacks.Nodup := by
  induction queue with
  | nil => intro s h; exact h
  | cons request rest ih =>
    intro s h
    apply ih
    have hb := body_rack_lists ext request
      { s with requests := rest, readLog := s.readLog ++ [request] }
    rw [hb.1, hb.2]
    exact ⟨applyRackEdit_nodup _ _ h.1, applyRackEdit_nodup _ _ h.2⟩

theorem rackNodup_apply {σ : Type} (ext : Externals σ) (call : ManagerCall)
    (s : EngineEffectsManager σ)
    (h : s.m_preFaderRacks.Nodup ∧ s.m_postFaderRacks.Nodup) :
    (call.apply ext s).m_preFaderRacks.Nodup ∧ (call.apply ext s).m_postFaderRacks.Nodup := by
  cases hb : call.isBufferProcessing
  · cases call with
    | onCallbackStart arrived =>
      exact rackNodup_loop ext _ _ h
    | _ => simp [ManagerCall.isBufferProcessing] at hb
  · have hv := apply_bufferProcessing_dispatchView ext s call hb
    simp only [EngineEffectsManager.dispatchView, EngineEffectsManager.lists,
      Prod.mk.injEq] at hv
    rw [hv.1.1, hv.1.2.1]
    exact h

theorem rackNodup_runCalls {σ : Type} (ext : Externals σ) (calls : List ManagerCall) :
    ∀ s : EngineEffectsManager σ, s.m_preFaderRacks.Nodup ∧ s.m_postFaderRacks.Nodup →
      (runCalls ext calls s).m_preFaderRacks.Nodup ∧
      (runCalls ext calls s).m_postFaderRacks.Nodup := by
  induction calls with
  | nil => intro s h; exact h
  | cons call rest ih =>
    intro s h
    exact ih _ (rackNodup_apply ext call s h)

theorem not_mem_filter_ne (l : List Nat) (x : Nat) :
    x ∉ l.filter (fun y => decide (y ≠ x)) := by
  simp [List.mem_filter]

theorem not_mem_of_last_edit_remove (l : List Nat) (edits : List Edit) (x : Nat)
    (h : NetOf l edits) (hlast : lastEditOf x edits = some (Edit.remove x)) : x ∉ l := by
  intro hx
  have := (h x).mp hx
  rw [hlast] at this
  cases this

theorem remove_chain_then_target {σ : Type} (ext : Externals σ) (s : EngineEffectsManager σ)
    (remove later : EffectsRequest) (hq : s.requests = [remove, later])
    (hr : remove.type = MessageType.REMOVE_CHAIN_FROM_RACK)
    (h1 : remove.pTargetRack ∈ s.m_preFaderRacks ∨ remove.pTargetRack ∈ s.m_postFaderRacks)
    (hp : (ext.rackRequest remove.pTargetRack remove s.world).1 = true)
    (hk : later.type.chainTargeted = true)
    (ht : later.pTargetChain = remove.RemoveChainFromRack.pChain) :
    onCallbackStart ext s =
      { s with
        requests := []
        readLog := s.readLog ++ [remove] ++ [later]
        world := (ext.rackRequest remove.pTargetRack remove s.world).2.2
        m_chains := s.m_chains.filter
          (fun c => decide (c ≠ remove.RemoveChainFromRack.pChain))
        responses := s.responses ++ (ext.rackRequest remove.pTargetRack remove s.world).2.1 ++
          [{ request := later, success := false, status := StatusCode.NO_SUCH_CHAIN }]
        forwardLog := s.forwardLog ++
          [⟨Target.rack remove.pTargetRack, remove, s.m_preFaderRacks, s.m_postFaderRacks,
            s.m_chains, s.m_effects, true⟩] } := by
  rw [onCallbackStart_pair ext s remove later hq]
  rw [body_remove_chain ext remove
    { s with requests := [later], readLog := s.readLog ++ [remove] } hr h1 hp]
  refine Eq.trans (body_no_such_chain ext later _ hk ?_) ?_
  · rw [ht]
    exact not_mem_filter_ne _ _
  · simp [forwardToRack, hp]

theorem remove_effect_then_target {σ : Type} (ext : Externals σ) (s : EngineEffectsManager σ)
    (remove later : EffectsRequest) (hq : s.requests = [remove, later])
    (hr : remove.type = MessageType.REMOVE_EFFECT_FROM_CHAIN)
    (h1 : remove.pTargetChain ∈ s.m_chains)
    (hp : (ext.chainRequest remove.pTargetChain remove s.world).1 = true)
    (hk : later.type.effectTargeted = true)
    (ht : later.pTargetEffect = remove.RemoveEffectFromChain.pEffect) :
    onCallbackStart ext s =
      { s with
        requests := []
        readLog := s.readLog ++ [remove] ++ [later]
        world := (ext.chainRequest remove.pTargetChain remove s.world).2.2
        m_effects := s.m_effects.filter
          (fun e => decide (e ≠ remove.RemoveEffectFromChain.pEffect))
        responses := s.responses ++ (ext.chainRequest remove.pTargetChain remove s.world).2.1 ++
          [{ request := later, success := false, status := StatusCode.NO_SUCH_EFFECT }]
        forwardLog := s.forwardLog ++
          [⟨Target.chain remove.pTargetChain, remove, s.m_preFaderRacks, s.m_postFaderRacks,
            s.m_chains, s.m_effects, true⟩] } := by
  rw [onCallbackStart_pair ext s remove later hq]
  rw [body_remove_effect ext remove
    { s with requests := [later], readLog := s.readLog ++ [remove] } hr h1 hp]
  refine Eq.trans (body_no_such_effect ext later _ hk ?_) ?_
  · rw [ht]
    exact not_mem_filter_ne _ _
  · simp [forwardToChain, hp]

theorem currentAfter_cons (start : CSAMPLEPtr) (c : ProcessCall) (calls : List ProcessCall) :
    currentAfter start (c :: calls) =
      currentAfter (if c.modified then c.pOutput else start) calls := rfl

theorem currentAfter_mem (calls : List ProcessCall) :
    ∀ start : CSAMPLEPtr,
      currentAfter start calls = start ∨ ∃ c ∈ calls, currentAfter start calls = c.pOutput := by
  induction calls with
  | nil => intro start; exact Or.inl rfl
  | cons c rest ih =>
    intro start
    rw [currentAfter_cons]
    rcases ih (if c.modified then c.pOutput else start) with h | ⟨d, hd, h⟩
    · by_cases hm : c.modified = true
      · right
        exact ⟨c, List.mem_cons_self _ _, by rw [h, if_pos hm]⟩
      · left
        rw [h, if_neg hm]
    · right
      exact ⟨d, List.mem_cons_of_mem _ hd, h⟩

theorem mixLoop_log {σ : Type} (ext : Externals σ) (ih oh : ChannelHandle) (n rate : Nat)
    (gf : GroupFeatureState) (racks : List EngineEffectRackPtr) :
    ∀ (p : CSAMPLEPtr) (s : EngineEffectsManager σ), ∃ calls : List ProcessCall,
      (processInner.mixLoop ext ih oh n rate gf racks p s).2.processLog =
        s.processLog ++ calls ∧
      calls.map (fun c => c.pRack) = nonNullRacks racks ∧
      (∀ c ∈ calls, c.inputHandle = ih ∧ c.outputHandle = oh ∧ c.numSamples = n ∧
        c.sampleRate = rate ∧ c.groupFeatures = gf ∧
        c.pOutput = (if c.pInput = s.m_buffer1 then s.m_buffer2 else s.m_buffer1)) ∧
      (∀ before c after, calls = before ++ c :: after → c.pInput = currentAfter p before) ∧
      (processInner.mixLoop ext ih oh n rate gf racks p s).1 = currentAfter p calls := by
  induction racks with
  | nil =>
    intro p s
    refine ⟨[], by simp [processInner.mixLoop], rfl, by simp, ?_, rfl⟩
    intro before c after h
    simp at h
  | cons pRack rest ihr =>
    intro p s
    by_cases h : pRack = nullptr
    · subst h
      rw [nonNullRacks_cons_null]
      simp only [processInner.mixLoop, ne_eq, not_true_eq_false, if_false]
      exact ihr p s
    · rw [nonNullRacks_cons pRack rest h]
      simp only [processInner.mixLoop, ne_eq, h, not_false_eq_true, if_true]
      generalize hpo : (if p = s.m_buffer1 then s.m_buffer2 else s.m_buffer1) = po
      have hstep : ∀ p2 : CSAMPLEPtr,
          p2 = (if (callRackProcess ext pRack ih oh p po n rate gf s).1 = true then po else p) →
          ∃ calls : List ProcessCall,
          (processInner.mixLoop ext ih oh n rate gf rest p2
            (callRackProcess ext pRack ih oh p po n rate gf s).2).2.processLog =
            s.processLog ++ calls ∧
          calls.map (fun c => c.pRack) = pRack :: nonNullRacks rest ∧
          (∀ c ∈ calls, c.inputHandle = ih ∧ c.outputHandle = oh ∧ c.numSamples = n ∧
            c.sampleRate = rate ∧ c.groupFeatures = gf ∧
            c.pOutput = (if c.pInput = s.m_buffer1 then s.m_buffer2 else s.m_buffer1)) ∧
          (∀ before c after, calls = before ++ c :: after →
            c.pInput = currentAfter p before) ∧
          (processInner.mixLoop ext ih oh n rate gf rest p2
            (callRackProcess ext pRack ih oh p po n rate gf s).2).1 = currentAfter p calls := by
        intro p2 hp2
        obtain ⟨calls, h1, h2, h3, h4, h5⟩ := ihr p2
          (callRackProcess ext pRack ih oh p po n rate gf s).2
        refine ⟨⟨pRack, ih, oh, p, po, n, rate, gf,
          (ext.rackProcess pRack ih oh p po n rate gf s.memory s.world).1⟩ :: calls,
          ?_, ?_, ?_, ?_, ?_⟩
        · rw [h1]
          simp [callRackProcess]
        · simp [h2]
        · intro c hc
          rcases List.mem_cons.mp hc with e | hc
          · subst e
            exact ⟨rfl, rfl, rfl, rfl, rfl, hpo.symm⟩
          · exact h3 c hc
        · intro before c after e
          cases before with
          | nil =>
            simp only [List.nil_append, List.cons.injEq] at e
            rw [← e.1]
            rfl
          | cons b before =>
            simp only [List.cons_append, List.cons.injEq] at e
            rw [currentAfter_cons, ← e.1]
            have := h4 before c after e.2
            rw [this, hp2]
            rfl
        · rw [h5, currentAfter_cons, hp2]
          rfl
      by_cases hr : (callRackProcess ext pRack ih oh p po n rate gf s).1 = true
      · rw [if_pos hr]
        exact hstep po (by rw [if_pos hr])
      · rw [if_neg hr]
        exact hstep p (by rw [if_neg hr])

theorem mixStart_log {σ : Type} (ext : Externals σ) (pIn : CSAMPLEPtr) (n : Nat)
    (og ng : CSAMPLE_GAIN) (s : EngineEffectsManager σ) :
    (processInner.mixStart ext pIn n og ng s).2.processLog = s.processLog ∧
    (processInner.mixStart ext pIn n og ng s).2.world = s.world := by
  simp only [processInner.mixStart]
  split <;> exact ⟨rfl, rfl⟩

theorem map_pRack_of_arguments (calls : List ProcessCall) (racks : List EngineEffectRackPtr)
    (ih oh : ChannelHandle) (p : CSAMPLEPtr) (n rate : Nat) (gf : GroupFeatureState)
    (h : calls.map ProcessCall.arguments =
      racks.map (fun pRack => (pRack, ih, oh, p, p, n, rate, gf))) :
    calls.map (fun c => c.pRack) = racks ∧
    ∀ c ∈ calls, c.inputHandle = ih ∧ c.outputHandle = oh ∧ c.pInput = p ∧ c.pOutput = p ∧
      c.numSamples = n ∧ c.sampleRate = rate ∧ c.groupFeatures = gf := by
  induction calls generalizing racks with
  | nil =>
    cases racks with
    | nil => exact ⟨rfl, by simp⟩
    | cons r rest => simp at h
  | cons c calls ihc =>
    cases racks with
    | nil => simp at h
    | cons r rest =>
      simp only [List.map_cons, List.cons.injEq, ProcessCall.arguments, Prod.mk.injEq] at h
      obtain ⟨⟨e1, e2, e3, e4, e5, e6, e7, e8⟩, ht⟩ := h
      obtain ⟨a, b⟩ := ihc rest ht
      refine ⟨by simp [e1, a], ?_⟩
      intro d hd
      rcases List.mem_cons.mp hd with e | hd
      · subst e
        exact ⟨e2, e3, e4, e5, e6, e7, e8⟩
      · exact b d hd

/-- What processInner adds to the record of rack calls, whichever branch it
takes: one call per non-null rack of the list, in list order, each with the
handles, sample count, sample rate and feature state processInner was given. -/
theorem processInner_log {σ : Type} (ext : Externals σ) (racks : List EngineEffectRackPtr)
    (ih oh : ChannelHandle) (pIn pOut : CSAMPLEPtr) (n rate : Nat) (gf : GroupFeatureState)
    (og ng : CSAMPLE_GAIN) (s : EngineEffectsManager σ) :
    ∃ calls : List ProcessCall,
      (processInner ext racks ih oh pIn pOut n rate gf og ng s).processLog =
        s.processLog ++ calls ∧
      calls.map (fun c => c.pRack) = nonNullRacks racks ∧
      ∀ c ∈ calls, c.inputHandle = ih ∧ c.outputHandle = oh ∧ c.numSamples = n ∧
        c.sampleRate = rate ∧ c.groupFeatures = gf := by
  by_cases hp : pIn = pOut
  · subst hp
    rw [processInner_inPlace, inPlaceLoop_eq_foldl]
    obtain ⟨calls, h1, h2⟩ := foldl_callRackProcess_processLog ext ih oh pIn n rate gf
      (nonNullRacks racks)
      { s with memory := s.memory.write pIn (ext.applyRampingGain (s.memory pIn) og ng n) }
    obtain ⟨a, b⟩ := map_pRack_of_arguments calls _ ih oh pIn n rate gf h2
    exact ⟨calls, h1, a, fun c hc => ⟨(b c hc).1, (b c hc).2.1, (b c hc).2.2.2.2.1,
      (b c hc).2.2.2.2.2.1, (b c hc).2.2.2.2.2.2⟩⟩
  · rw [processInner_mix ext racks ih oh pIn pOut n rate gf og ng s hp]
    obtain ⟨calls, h1, h2, h3, _, _⟩ := mixLoop_log ext ih oh n rate gf racks
      (processInner.mixStart ext pIn n og ng s).1 (processInner.mixStart ext pIn n og ng s).2
    rw [(mixStart_log ext pIn n og ng s).1] at h1
    exact ⟨calls, h1, h2, fun c hc => ⟨(h3 c hc).1, (h3 c hc).2.1, (h3 c hc).2.2.1,
      (h3 c hc).2.2.2.1, (h3 c hc).2.2.2.2.1⟩⟩

theorem mem_of_map_pRack (calls : List ProcessCall) (racks : List EngineEffectRackPtr)
    (h : calls.map (fun c => c.pRack) = nonNullRacks racks) :
    ∀ c ∈ calls, c.pRack ∈ racks ∧ c.pRack ≠ nullptr := by
  intro c hc
  have : c.pRack ∈ nonNullRacks racks := by
    rw [← h]
    exact List.mem_map.mpr ⟨c, hc, rfl⟩
  simp only [nonNullRacks, List.mem_filter, decide_eq_true_eq] at this
  exact this

theorem arena_output_pointer (pIn b1 b2 : CSAMPLEPtr) (h : pIn ≠ b1) (current : ArenaSlot) :
    (if current.pointer pIn b1 b2 = b1 then b2 else b1) = current.output.pointer pIn b1 b2 := by
  cases current with
  | callerInput => simp [ArenaSlot.pointer, ArenaSlot.output, h]
  | scratch second =>
    cases second
    · simp [ArenaSlot.pointer, ArenaSlot.output]
    · by_cases e : b2 = b1
      · simp [ArenaSlot.pointer, ArenaSlot.output, e]
      · simp [ArenaSlot.pointer, ArenaSlot.output, e]

theorem mixLoop_eq_arenaLoop {σ : Type} (ext : Externals σ) (ih oh : ChannelHandle)
    (pIn : CSAMPLEPtr) (n rate : Nat) (gf : GroupFeatureState)
    (racks : List EngineEffectRackPtr) :
    ∀ (current : ArenaSlot) (s : EngineEffectsManager σ), pIn ≠ s.m_buffer1 →
      processInner.mixLoop ext ih oh n rate gf racks
          (current.pointer pIn s.m_buffer1 s.m_buffer2) s =
        ((arenaLoop ext ih oh pIn n rate gf racks current s).1.pointer pIn s.m_buffer1
            s.m_buffer2,
          (arenaLoop ext ih oh pIn n rate gf racks current s).2) := by
  induction racks with
  | nil => intro current s _; rfl
  | cons pRack rest ihr =>
    intro current s h
    by_cases hnull : pRack = nullptr
    · subst hnull
      simp only [processInner.mixLoop, arenaLoop, ne_eq, not_true_eq_false, if_false]
      exact ihr current s h
    · simp only [processInner.mixLoop, arenaLoop, ne_eq, hnull, not_false_eq_true, if_true]
      rw [arena_output_pointer pIn s.m_buffer1 s.m_buffer2 h current]
      by_cases hr : (callRackProcess ext pRack ih oh (current.pointer pIn s.m_buffer1 s.m_buffer2)
          (current.output.pointer pIn s.m_buffer1 s.m_buffer2) n rate gf s).1 = true
      · rw [if_pos hr, if_pos hr]
        exact ihr current.output
          (callRackProcess ext pRack ih oh (current.pointer pIn s.m_buffer1 s.m_buffer2)
            (current.output.pointer pIn s.m_buffer1 s.m_buffer2) n rate gf s).2 h
      · rw [if_neg hr, if_neg hr]
        exact ihr current
          (callRackProcess ext pRack ih oh (current.pointer pIn s.m_buffer1 s.m_buffer2)
            (current.output.pointer pIn s.m_buffer1 s.m_buffer2) n rate gf s).2 h

theorem processInner_eq_arenaMix {σ : Type} (ext : Externals σ)
    (racks : List EngineEffectRackPtr) (ih oh : ChannelHandle) (pIn pOut : CSAMPLEPtr)
    (n rate : Nat) (gf : GroupFeatureState) (og ng : CSAMPLE_GAIN)
    (s : EngineEffectsManager σ) (hne : pIn ≠ pOut) (hscratch : pIn ≠ s.m_buffer1) :
    processInner ext racks ih oh pIn pOut n rate gf og ng s =
      arenaMix ext racks ih oh pIn pOut n rate gf og ng s := by
  rw [processInner_mix ext racks ih oh pIn pOut n rate gf og ng s hne]
  simp only [arenaMix, processInner.mixStart]
  by_cases hu : og = CSAMPLE_GAIN_ONE ∧ ng = CSAMPLE_GAIN_ONE
  · simp only [hu, and_self, if_true]
    have e : processInner.mixLoop ext ih oh n rate gf racks pIn s =
        ((arenaLoop ext ih oh pIn n rate gf racks ArenaSlot.callerInput s).1.pointer pIn
            s.m_buffer1 s.m_buffer2,
          (arenaLoop ext ih oh pIn n rate gf racks ArenaSlot.callerInput s).2) :=
      mixLoop_eq_arenaLoop ext ih oh pIn n rate gf racks ArenaSlot.callerInput s hscratch
    rw [e]
  · simp only [hu, if_false]
    have e : processInner.mixLoop ext ih oh n rate gf racks s.m_buffer1
        { s with
          memory := s.memory.write s.m_buffer1
            (ext.copyWithRampingGain (s.memory s.m_buffer1) (s.memory pIn) og ng n) } =
        ((arenaLoop ext ih oh pIn n rate gf racks (ArenaSlot.scratch false)
            { s with
              memory := s.memory.write s.m_buffer1
                (ext.copyWithRampingGain (s.memory s.m_buffer1) (s.memory pIn) og ng n) }).1.pointer
            pIn s.m_buffer1 s.m_buffer2,
          (arenaLoop ext ih oh pIn n rate gf racks (ArenaSlot.scratch false)
            { s with
              memory := s.memory.write s.m_buffer1
                (ext.copyWithRampingGain (s.memory s.m_buffer1) (s.memory pIn) og ng n) }).2) :=
      mixLoop_eq_arenaLoop ext ih oh pIn n rate gf racks (ArenaSlot.scratch false)
        { s with
          memory := s.memory.write s.m_buffer1
            (ext.copyWithRampingGain (s.memory s.m_buffer1) (s.memory pIn) og ng n) } hscratch
    rw [e]

theorem mixLoop_first {σ : Type} (ext : Externals σ) (ih oh : ChannelHandle) (n rate : Nat)
    (gf : GroupFeatureState) (racks rest : List EngineEffectRackPtr) (pRack : EngineEffectRackPtr)
    (h : nonNullRacks racks = pRack :: rest) (p : CSAMPLEPtr) (s : EngineEffectsManager σ) :
    processInner.mixLoop ext ih oh n rate gf racks p s =
      processInner.mixLoop ext ih oh n rate gf rest
        (if (callRackProcess ext pRack ih oh p
            (if p = s.m_buffer1 then s.m_buffer2 else s.m_buffer1) n rate gf s).1 = true
          then (if p = s.m_buffer1 then s.m_buffer2 else s.m_buffer1) else p)
        (callRackProcess ext pRack ih oh p
          (if p = s.m_buffer1 then s.m_buffer2 else s.m_buffer1) n rate gf s).2 := by
  have hn : pRack ≠ nullptr := by
    have : pRack ∈ nonNullRacks racks := by rw [h]; exact List.mem_cons_self _ _
    simp only [nonNullRacks, List.mem_filter, decide_eq_true_eq] at this
    exact this.2
  rw [mixLoop_nonNull, h]
  simp only [processInner.mixLoop, ne_eq, hn, not_false_eq_true, if_true]
  generalize (if p = s.m_buffer1 then s.m_buffer2 else s.m_buffer1) = po
  by_cases hr : (callRackProcess ext pRack ih oh p po n rate gf s).1 = true
  · rw [if_pos hr, if_pos hr]
  · rw [if_neg hr, if_neg hr]

theorem firstSamples_congr (a b : Buffer) (n : Nat)
    (h : ∀ i, i < n → a.getD i 0 = b.getD i 0) : firstSamples a n = firstSamples b n := by
  simp only [firstSamples]
  apply List.map_congr_left
  intro i hi
  exact h i (List.mem_range.mp hi)

theorem getD_of_firstSamples (a b : Buffer) (n i : Nat)
    (h : firstSamples a n = firstSamples b n) (hi : i < n) : a.getD i 0 = b.getD i 0 := by
  have := congrArg (fun l => l.getD i 0) h
  simpa [firstSamples, List.getD_eq_getElem?_getD, List.getElem?_map, List.getElem?_range,
    hi] using this

theorem firstSamples_overwrite (pDest : Buffer) (n : Nat) (f : Nat → CSAMPLE)
    (h : n ≤ pDest.length) :
    firstSamples (SampleUtil.overwrite pDest n f) n = (List.range n).map f := by
  simp only [firstSamples]
  apply List.map_congr_left
  intro i hi
  have hi2 := List.mem_range.mp hi
  rw [overwrite_getD _ _ _ _ (lt_of_lt_of_le hi2 h), if_pos hi2]

theorem write_length_le (mem : Memory) (p q : CSAMPLEPtr) (b : Buffer) (n : Nat)
    (hb : b.length = (mem p).length) (h : n ≤ (mem q).length) :
    n ≤ ((mem.write p b) q).length := by
  by_cases e : q = p
  · subst e
    rw [Memory_write_same, hb]
    exact h
  · rw [Memory_write_other _ _ _ _ e]
    exact h

theorem callRackProcess_racksApply {σ : Type} (ext : Externals σ) (T : RackTransform σ)
    (hT : ext.racksApply T) (pRack : EngineEffectRackPtr) (ih oh : ChannelHandle)
    (pInput pOutput : CSAMPLEPtr) (n rate : Nat) (gf : GroupFeatureState)
    (s : EngineEffectsManager σ) :
    (callRackProcess ext pRack ih oh pInput pOutput n rate gf s).1 =
      (T pRack ih oh n rate gf (firstSamples (s.memory pInput) n) s.world).1 ∧
    (callRackProcess ext pRack ih oh pInput pOutput n rate gf s).2.world =
      (T pRack ih oh n rate gf (firstSamples (s.memory pInput) n) s.world).2.2 ∧
    (callRackProcess ext pRack ih oh pInput pOutput n rate gf s).2.memory =
      (if (T pRack ih oh n rate gf (firstSamples (s.memory pInput) n) s.world).1 = true then
        s.memory.write pOutput (SampleUtil.overwrite (s.memory pOutput) n
          (fun i =>
            (T pRack ih oh n rate gf (firstSamples (s.memory pInput) n) s.world).2.1.getD i 0))
       else s.memory) := by
  simp only [callRackProcess]
  rw [hT]
  exact ⟨rfl, rfl, rfl⟩

theorem mixLoop_simulates_inPlaceLoop {σ : Type} (ext : Externals σ) (T : RackTransform σ)
    (hT : ext.racksApply T) (ih oh : ChannelHandle) (pIn : CSAMPLEPtr) (n rate : Nat)
    (gf : GroupFeatureState) (racks : List EngineEffectRackPtr) :
    ∀ (u v : EngineEffectsManager σ) (cur : CSAMPLEPtr),
      u.world = v.world →
      firstSamples (u.memory pIn) n = firstSamples (v.memory cur) n →
      n ≤ (u.memory pIn).length →
      n ≤ (v.memory v.m_buffer1).length → n ≤ (v.memory v.m_buffer2).length →
      (processInner.inPlaceLoop ext ih oh pIn n rate gf racks u).world =
        (processInner.mixLoop ext ih oh n rate gf racks cur v).2.world ∧
      firstSamples ((processInner.inPlaceLoop ext ih oh pIn n rate gf racks u).memory pIn) n =
        firstSamples ((processInner.mixLoop ext ih oh n rate gf racks cur v).2.memory
          (processInner.mixLoop ext ih oh n rate gf racks cur v).1) n ∧
      ∀ q, q ≠ v.m_buffer1 → q ≠ v.m_buffer2 →
        (processInner.mixLoop ext ih oh n rate gf racks cur v).2.memory q = v.memory q := by
  induction racks with
  | nil =>
    intro u v cur hw hb _ _ _
    exact ⟨hw, hb, fun _ _ _ => rfl⟩
  | cons pRack rest ihr =>
    intro u v cur hw hb hu h1 h2
    by_cases hnull : pRack = nullptr
    · subst hnull
      simp only [processInner.inPlaceLoop, processInner.mixLoop, ne_eq, not_true_eq_false,
        if_false]
      exact ihr u v cur hw hb hu h1 h2
    · simp only [processInner.inPlaceLoop, processInner.mixLoop, ne_eq, hnull,
        not_false_eq_true, if_true]
      generalize hpo : (if cur = v.m_buffer1 then v.m_buffer2 else v.m_buffer1) = po
      have hlen : n ≤ (v.memory po).length := by
        rw [← hpo]
        by_cases hc : cur = v.m_buffer1
        · rw [if_pos hc]; exact h2
        · rw [if_neg hc]; exact h1
      have hq : ∀ q, q ≠ v.m_buffer1 → q ≠ v.m_buffer2 → q ≠ po := by
        intro q q1 q2
        rw [← hpo]
        by_cases hc : cur = v.m_buffer1
        · rw [if_pos hc]; exact q2
        · rw [if_neg hc]; exact q1
      obtain ⟨_, uw, um⟩ := callRackProcess_racksApply ext T hT pRack ih oh pIn pIn n rate gf u
      obtain ⟨v1, vw, vm⟩ := callRackProcess_racksApply ext T hT pRack ih oh cur po n rate gf v
      rw [← hb, ← hw] at v1 vw vm
      generalize T pRack ih oh n rate gf (firstSamples (u.memory pIn) n) u.world = t
        at uw um v1 vw vm
      by_cases ht : t.1 = true
      · rw [if_pos ht] at um vm
        rw [if_pos (v1.trans ht)]
        obtain ⟨a, b, c⟩ := ihr (callRackProcess ext pRack ih oh pIn pIn n rate gf u).2
          (callRackProcess ext pRack ih oh cur po n rate gf v).2 po (uw.trans vw.symm)
          (by
            rw [um, vm, Memory_write_same, Memory_write_same, firstSamples_overwrite _ _ _ hu,
              firstSamples_overwrite _ _ _ hlen])
          (by rw [um, Memory_write_same, overwrite_length]; exact hu)
          (by
            rw [vm]
            exact write_length_le _ _ _ _ _ (overwrite_length _ _ _) h1)
          (by
            rw [vm]
            exact write_length_le _ _ _ _ _ (overwrite_length _ _ _) h2)
        refine ⟨a, b, fun q q1 q2 => (c q q1 q2).trans ?_⟩
        rw [vm, Memory_write_other _ _ _ _ (hq q q1 q2)]
      · rw [if_neg ht] at um vm
        rw [if_neg (fun e => ht (v1.symm.trans e))]
        obtain ⟨a, b, c⟩ := ihr (callRackProcess ext pRack ih oh pIn pIn n rate gf u).2
          (callRackProcess ext pRack ih oh cur po n rate gf v).2 cur (uw.trans vw.symm)
          (by rw [um, vm]; exact hb)
          (by rw [um]; exact hu)
          (by rw [vm]; exact h1)
          (by rw [vm]; exact h2)
        refine ⟨a, b, fun q q1 q2 => (c q q1 q2).trans ?_⟩
        rw [vm]

theorem exampleBlockAudio_usesSampleUtil : exampleBlockAudio.usesSampleUtil := ⟨rfl, rfl, rfl⟩

theorem exampleBlockAudio_racksApply : exampleBlockAudio.racksApply exampleTransform := by
  intro pRack ih oh pInput pOutput n rate gf mem w
  rfl

theorem mixStart_length {σ : Type} (ext : Externals σ) (hutil : ext.usesSampleUtil)
    (pIn : CSAMPLEPtr) (n : Nat) (og ng : CSAMPLE_GAIN) (s : EngineEffectsManager σ)
    (q : CSAMPLEPtr) (h : n ≤ (s.memory q).length) :
    n ≤ ((processInner.mixStart ext pIn n og ng s).2.memory q).length := by
  simp only [processInner.mixStart]
  split
  · exact h
  · apply write_length_le _ _ _ _ _ _ h
    rw [hutil.2.1]
    exact overwrite_length _ _ _

theorem processInner_mix_vs_inPlace {σ : Type} (ext : Externals σ) (T : RackTransform σ)
    (hutil : ext.usesSampleUtil) (hT : ext.racksApply T)
    (racks : List EngineEffectRackPtr) (ih oh : ChannelHandle) (pIn pOut : CSAMPLEPtr)
    (n rate : Nat) (gf : GroupFeatureState) (og ng : CSAMPLE_GAIN)
    (s : EngineEffectsManager σ) (hne : pIn ≠ pOut)
    (ho1 : pOut ≠ s.m_buffer1) (ho2 : pOut ≠ s.m_buffer2)
    (hin : n ≤ (s.memory pIn).length) (h1 : n ≤ (s.memory s.m_buffer1).length)
    (h2 : n ≤ (s.memory s.m_buffer2).length) :
    (processInner ext racks ih oh pIn pOut n rate gf og ng s).world =
      (processInner ext racks ih oh pIn pIn n rate gf og ng s).world ∧
    ∀ i, i < n → i < (s.memory pOut).length →
      ((processInner ext racks ih oh pIn pOut n rate gf og ng s).memory pOut).getD i 0 =
        (s.memory pOut).getD i 0 +
          ((processInner ext racks ih oh pIn pIn n rate gf og ng s).memory pIn).getD i 0 := by
  obtain ⟨sa, sb, _, sd⟩ := mixStart_frame ext pIn n og ng s
  obtain ⟨_, sw⟩ := mixStart_log ext pIn n og ng s
  have hstart : firstSamples
      ((s.memory.write pIn (ext.applyRampingGain (s.memory pIn) og ng n)) pIn) n =
      firstSamples ((processInner.mixStart ext pIn n og ng s).2.memory
        (processInner.mixStart ext pIn n og ng s).1) n := by
    apply firstSamples_congr
    intro i hi
    rw [mixStart_ramped ext hutil pIn n og ng s h1 i hi, Memory_write_same, hutil.1]
    simp only [SampleUtil.applyRampingGain]
    rw [overwrite_getD _ _ _ _ (lt_of_lt_of_le hi hin), if_pos hi]
  obtain ⟨a, b, c⟩ := mixLoop_simulates_inPlaceLoop ext T hT ih oh pIn n rate gf racks
    { s with memory := s.memory.write pIn (ext.applyRampingGain (s.memory pIn) og ng n) }
    (processInner.mixStart ext pIn n og ng s).2 (processInner.mixStart ext pIn n og ng s).1
    sw.symm hstart
    (by
      show n ≤ ((s.memory.write pIn (ext.applyRampingGain (s.memory pIn) og ng n)) pIn).length
      rw [Memory_write_same, hutil.1]
      simp only [SampleUtil.applyRampingGain, overwrite_length]
      exact hin)
    (by rw [sa]; exact mixStart_length ext hutil pIn n og ng s _ h1)
    (by rw [sb]; exact mixStart_length ext hutil pIn n og ng s _ h2)
  rw [sa, sb] at c
  rw [processInner_inPlace, processInner_mix ext racks ih oh pIn pOut n rate gf og ng s hne]
  refine ⟨a.symm, fun i hi hout => ?_⟩
  show (Memory.write _ _ _ _).getD i 0 = _
  rw [Memory_write_same, (c pOut ho1 ho2).trans (sd pOut ho1), hutil.2.2,
    add_getD _ _ _ _ hi hout, getD_of_firstSamples _ _ n i b hi]

/-! ## The claims -/

/-- C1. A request whose target is absent is answered not-found and changes
nothing else. When the oldest pending request is of a rack-targeted kind and
its target rack is in neither rack list, draining the pipe from `s` is
draining the remaining requests from `s` with the request read and one
response written, success=false and status NO_SUCH_RACK: the four lists, the
collaborators' state and the history of collaborator calls are those of `s`
(no rack is called). Likewise with NO_SUCH_CHAIN for a chain-targeted kind
whose target chain is not in the master chain list, and with NO_SUCH_EFFECT
for an effect-targeted kind whose target effect is not in the master effect
list. -/
theorem C1_absent_target_rejected {σ : Type} (ext : Externals σ) (s : EngineEffectsManager σ)
    (request : EffectsRequest) (rest : List EffectsRequest)
    (hq : s.requests = request :: rest) :
    (request.type.rackTargeted = true →
      request.pTargetRack ∉ s.m_preFaderRacks → request.pTargetRack ∉ s.m_postFaderRacks →
      onCallbackStart ext s = onCallbackStart ext
        { s with
          requests := rest
          readLog := s.readLog ++ [request]
          responses := s.responses ++
            [{ request := request, success := false, status := StatusCode.NO_SUCH_RACK }] }) ∧
    (request.type.chainTargeted = true → request.pTargetChain ∉ s.m_chains →
      onCallbackStart ext s = onCallbackStart ext
        { s with
          requests := rest
          readLog := s.readLog ++ [request]
          responses := s.responses ++
            [{ request := request, success := false, status := StatusCode.NO_SUCH_CHAIN }] }) ∧
    (request.type.effectTargeted = true → request.pTargetEffect ∉ s.m_effects →
      onCallbackStart ext s = onCallbackStart ext
        { s with
          requests := rest
          readLog := s.readLog ++ [request]
          responses := s.responses ++
            [{ request := request, success := false, status := StatusCode.NO_SUCH_EFFECT }] }) := by
  refine ⟨fun hk h1 h2 => ?_, fun hk h1 => ?_, fun hk h1 => ?_⟩
  · rw [onCallbackStart_cons ext s request rest hq]
    exact congrArg _ (body_no_such_rack ext request
      { s with requests := rest, readLog := s.readLog ++ [request] } hk h1 h2)
  · rw [onCallbackStart_cons ext s request rest hq]
    exact congrArg _ (body_no_such_chain ext request
      { s with requests := rest, readLog := s.readLog ++ [request] } hk h1)
  · rw [onCallbackStart_cons ext s request rest hq]
    exact congrArg _ (body_no_such_effect ext request
      { s with requests := rest, readLog := s.readLog ++ [request] } hk h1)

/-- C1 on a manager whose only rack is 7, whose only chain is 3 and whose only
effect is 4, with collaborators that would accept: ADD_CHAIN_TO_RACK for the
unknown rack 5 is answered NO_SUCH_RACK and the master chain list stays [3];
ADD_EFFECT_TO_CHAIN for the unknown chain 5 is answered NO_SUCH_CHAIN and the
master effect list stays [4]; SET_EFFECT_PARAMETERS for the unknown effect 5
is answered NO_SUCH_EFFECT and no collaborator is called. -/
theorem C1_absent_target_rejected_witness :
    ((onCallbackStart acceptAll
        (exampleManager [7] [] [3] [4]
          [exampleRequest MessageType.ADD_CHAIN_TO_RACK 5 9 false])).responses =
      [{ request := exampleRequest MessageType.ADD_CHAIN_TO_RACK 5 9 false, success := false,
         status := StatusCode.NO_SUCH_RACK }] ∧
     (onCallbackStart acceptAll
        (exampleManager [7] [] [3] [4]
          [exampleRequest MessageType.ADD_CHAIN_TO_RACK 5 9 false])).m_chains = [3]) ∧
    ((onCallbackStart acceptAll
        (exampleManager [7] [] [3] [4]
          [exampleRequest MessageType.ADD_EFFECT_TO_CHAIN 5 9 false])).responses =
      [{ request := exampleRequest MessageType.ADD_EFFECT_TO_CHAIN 5 9 false, success := false,
         status := StatusCode.NO_SUCH_CHAIN }] ∧
     (onCallbackStart acceptAll
        (exampleManager [7] [] [3] [4]
          [exampleRequest MessageType.ADD_EFFECT_TO_CHAIN 5 9 false])).m_effects = [4]) ∧
    ((onCallbackStart acceptAll
        (exampleManager [7] [] [3] [4]
          [exampleRequest MessageType.SET_EFFECT_PARAMETERS 5 0 false])).responses =
      [{ request := exampleRequest MessageType.SET_EFFECT_PARAMETERS 5 0 false,
         success := false, status := StatusCode.NO_SUCH_EFFECT }] ∧
     (onCallbackStart acceptAll
        (exampleManager [7] [] [3] [4]
          [exampleRequest MessageType.SET_EFFECT_PARAMETERS 5 0 false])).forwardLog = []) := by
  rw [(C1_absent_target_rejected acceptAll
    (exampleManager [7] [] [3] [4] [exampleRequest MessageType.ADD_CHAIN_TO_RACK 5 9 false])
    (exampleRequest MessageType.ADD_CHAIN_TO_RACK 5 9 false) [] rfl).1 rfl (by decide)
    (by decide)]
  rw [(C1_absent_target_rejected acceptAll
    (exampleManager [7] [] [3] [4] [exampleRequest MessageType.ADD_EFFECT_TO_CHAIN 5 9 false])
    (exampleRequest MessageType.ADD_EFFECT_TO_CHAIN 5 9 false) [] rfl).2.1 rfl (by decide)]
  rw [(C1_absent_target_rejected acceptAll
    (exampleManager [7] [] [3] [4] [exampleRequest MessageType.SET_EFFECT_PARAMETERS 5 0 false])
    (exampleRequest MessageType.SET_EFFECT_PARAMETERS 5 0 false) [] rfl).2.2 rfl (by decide)]
  exact ⟨⟨rfl, rfl⟩, ⟨rfl, rfl⟩, rfl, rfl⟩

/-- C2. Collaborators are called only while listed. Every call of a rack's,
chain's or effect's processEffectsRequest that onCallbackStart makes, from
any state and whatever requests are pending, goes to the target its request
names for its kind, and that target is, in the lists as they stand at the
moment of the call, in one of the two rack lists (a rack), in the master
chain list (a chain) or in the master effect list (an effect). So a request
whose target is absent is never forwarded to it. -/
theorem C2_forwarded_only_to_listed {σ : Type} (ext : Externals σ)
    (s : EngineEffectsManager σ) :
    ∃ calls, (onCallbackStart ext s).forwardLog = s.forwardLog ++ calls ∧
      ∀ f ∈ calls, f.targetListed ∧ f.toRequestTarget :=
  loop_forwardLog ext s.requests s

/-- C2 on a manager with rack 7, chain 3 and effect 4 and accepting
collaborators, draining four requests: the chain add goes to rack 7, the
effect add for the unknown chain 5 goes nowhere, the parameter request goes to
effect 4, and the chain setter goes to chain 9, which the first request has
put into the master chain list by then. -/
theorem C2_forwarded_only_to_listed_witness :
    (onCallbackStart acceptAll
        (exampleManager [7] [] [3] [4]
          [exampleRequest MessageType.ADD_CHAIN_TO_RACK 7 9 false,
           exampleRequest MessageType.ADD_EFFECT_TO_CHAIN 5 6 false,
           exampleRequest MessageType.SET_EFFECT_PARAMETERS 4 0 false,
           exampleRequest MessageType.SET_EFFECT_CHAIN_PARAMETERS 9 0 false])).forwardLog.map
        (fun f => (f.target, f.chains)) =
      [(Target.rack 7, [3]), (Target.effect 4, [3, 9]), (Target.chain 9, [3, 9])] ∧
    ∃ calls,
      (onCallbackStart acceptAll
        (exampleManager [7] [] [3] [4]
          [exampleRequest MessageType.ADD_CHAIN_TO_RACK 7 9 false,
           exampleRequest MessageType.ADD_EFFECT_TO_CHAIN 5 6 false,
           exampleRequest MessageType.SET_EFFECT_PARAMETERS 4 0 false,
           exampleRequest MessageType.SET_EFFECT_CHAIN_PARAMETERS 9 0 false])).forwardLog =
        [] ++ calls ∧ ∀ f ∈ calls, f.targetListed ∧ f.toRequestTarget :=
  ⟨by decide, C2_forwarded_only_to_listed acceptAll _⟩

/-- C3. Exactly one response per request, when each collaborator writes
exactly one response if its processEffectsRequest returns true and none if it
returns false. In every iteration of the loop: the request is left
unprocessed exactly when its identity check fails, its collaborator declines
or its kind is unknown; if it is processed, one response was written inside
the switch (by the collaborator, or by the manager's own rack handler) and
the manager adds none; if it is not, nothing was written inside the switch
and the manager writes its own response, once. Hence a drain of n pending
requests writes n responses. -/
theorem C3_exactly_one_response {σ : Type} (ext : Externals σ)
    (hext : ext.respondsIffProcessed) :
    (∀ (request : EffectsRequest) (s : EngineEffectsManager σ),
      ((onCallbackStart.switch ext request s).processed = false ↔
        notProcessedCause ext request s) ∧
      ((onCallbackStart.switch ext request s).processed = true →
        ∃ r, (onCallbackStart.switch ext request s).state.responses = s.responses ++ [r] ∧
          (onCallbackStart.body ext request s).responses = s.responses ++ [r]) ∧
      ((onCallbackStart.switch ext request s).processed = false →
        (onCallbackStart.switch ext request s).state.responses = s.responses ∧
        (onCallbackStart.body ext request s).responses =
          s.responses ++ [(onCallbackStart.switch ext request s).response])) ∧
    (∀ s : EngineEffectsManager σ,
      (onCallbackStart ext s).responses.length = s.responses.length + s.requests.length) := by
  have hbody : ∀ (request : EffectsRequest) (s : EngineEffectsManager σ),
      ∃ r, (onCallbackStart.body ext request s).responses = s.responses ++ [r] := by
    intro request s
    have h := switch_responses ext hext request s
    cases hp : (onCallbackStart.switch ext request s).processed
    · exact ⟨(onCallbackStart.switch ext request s).response,
        by simp [onCallbackStart.body, hp, writeMessages, h.2 hp]⟩
    · obtain ⟨r, hr⟩ := h.1 hp
      exact ⟨r, by simp [onCallbackStart.body, hp, hr]⟩
  refine ⟨fun request s => ⟨switch_processed_iff ext request s, fun hp => ?_, fun hp => ?_⟩, ?_⟩
  · obtain ⟨r, hr⟩ := (switch_responses ext hext request s).1 hp
    exact ⟨r, hr, by simp [onCallbackStart.body, hp, hr]⟩
  · have h := (switch_responses ext hext request s).2 hp
    exact ⟨h, by simp [onCallbackStart.body, hp, writeMessages, h]⟩
  · intro s
    have hloop : ∀ (queue : List EffectsRequest) (t : EngineEffectsManager σ),
        (onCallbackStart.loop ext queue t).responses.length =
          t.responses.length + queue.length := by
      intro queue
      induction queue with
      | nil => intro t; simp [onCallbackStart.loop]
      | cons request rest ih =>
        intro t
        obtain ⟨r, hr⟩ := hbody request
          { t with requests := rest, readLog := t.readLog ++ [request] }
        simp only [onCallbackStart.loop]
        rw [ih, hr]
        simp
        omega
    exact hloop s.requests s

/-- C3 with collaborators that accept everything and answer once: draining
three requests (a rack add, a chain add to that rack, a parameter request for
an unknown effect) writes three responses. -/
theorem C3_exactly_one_response_witness :
    acceptAll.respondsIffProcessed ∧
    (onCallbackStart acceptAll
      (exampleManager [] [] [] []
        [exampleRequest MessageType.ADD_EFFECT_RACK 0 7 true,
         exampleRequest MessageType.ADD_CHAIN_TO_RACK 7 9 false,
         exampleRequest MessageType.SET_EFFECT_PARAMETERS 4 0 false])).responses.length
      = 0 + 3 :=
  ⟨acceptAll_respondsIffProcessed,
   (C3_exactly_one_response acceptAll acceptAll_respondsIffProcessed).2
     (exampleManager [] [] [] []
        [exampleRequest MessageType.ADD_EFFECT_RACK 0 7 true,
         exampleRequest MessageType.ADD_CHAIN_TO_RACK 7 9 false,
         exampleRequest MessageType.SET_EFFECT_PARAMETERS 4 0 false])⟩

/-- C4. ADD_EFFECT_RACK and REMOVE_EFFECT_RACK act on the rack list selected
by the request's pre-fader flag. Adding a rack that is already in the
selected list, and removing one that is not in it, write a response with
success=false and change none of the four lists. Adding an absent rack
appends it at the end of the selected list, removing a present rack deletes
it from the selected list, each with a response with success=true; the other
three lists are unchanged. (The status of these responses is the one the
response constructor sets; the rack handler does not assign it.) -/
theorem C4_rack_add_remove {σ : Type} (ext : Externals σ) (s : EngineEffectsManager σ)
    (request : EffectsRequest) (rest : List EffectsRequest)
    (hq : s.requests = request :: rest) :
    (request.type = MessageType.ADD_EFFECT_RACK →
      request.AddEffectRack.pRack ∈ selectedRacks request.AddEffectRack.preFader s →
      onCallbackStart ext s = onCallbackStart ext
        { s with
          requests := rest
          readLog := s.readLog ++ [request]
          responses := s.responses ++
            [{ request := request, success := false, status := ext.initStatus }] }) ∧
    (request.type = MessageType.REMOVE_EFFECT_RACK →
      request.RemoveEffectRack.pRack ∉ selectedRacks request.RemoveEffectRack.preFader s →
      onCallbackStart ext s = onCallbackStart ext
        { s with
          requests := rest
          readLog := s.readLog ++ [request]
          responses := s.responses ++
            [{ request := request, success := false, status := ext.initStatus }] }) ∧
    (request.type = MessageType.ADD_EFFECT_RACK →
      request.AddEffectRack.pRack ∉ selectedRacks request.AddEffectRack.preFader s →
      onCallbackStart ext s = onCallbackStart ext
        (withSelectedRacks request.AddEffectRack.preFader
          (selectedRacks request.AddEffectRack.preFader s ++ [request.AddEffectRack.pRack])
          { s with
            requests := rest
            readLog := s.readLog ++ [request]
            responses := s.responses ++
              [{ request := request, success := true, status := ext.initStatus }] })) ∧
    (request.type = MessageType.REMOVE_EFFECT_RACK →
      request.RemoveEffectRack.pRack ∈ selectedRacks request.RemoveEffectRack.preFader s →
      onCallbackStart ext s = onCallbackStart ext
        (withSelectedRacks request.RemoveEffectRack.preFader
          ((selectedRacks request.RemoveEffectRack.preFader s).filter
            (fun r => decide (r ≠ request.RemoveEffectRack.pRack)))
          { s with
            requests := rest
            readLog := s.readLog ++ [request]
            responses := s.responses ++
              [{ request := request, success := true, status := ext.initStatus }] })) := by
  refine ⟨fun hk h1 => ?_, fun hk h1 => ?_, fun hk h1 => ?_, fun hk h1 => ?_⟩
  · rw [onCallbackStart_cons ext s request rest hq]
    exact congrArg _ (body_add_rack_present ext request
      { s with requests := rest, readLog := s.readLog ++ [request] } hk h1)
  · rw [onCallbackStart_cons ext s request rest hq]
    exact congrArg _ (body_remove_rack_absent ext request
      { s with requests := rest, readLog := s.readLog ++ [request] } hk h1)
  · rw [onCallbackStart_cons ext s request rest hq]
    exact congrArg _ (body_add_rack_absent ext request
      { s with requests := rest, readLog := s.readLog ++ [request] } hk h1)
  · rw [onCallbackStart_cons ext s request rest hq]
    exact congrArg _ (body_remove_rack_present ext request
      { s with requests := rest, readLog := s.readLog ++ [request] } hk h1)

/-- C4 on a manager whose pre-fader list is [7]: adding rack 7 again fails and
leaves [7]; adding rack 8 succeeds and gives [7, 8]. -/
theorem C4_rack_add_remove_witness :
    ((onCallbackStart acceptAll
        (exampleManager [7] [] [] [] [exampleRequest MessageType.ADD_EFFECT_RACK 0 7 true])).responses
        = [{ request := exampleRequest MessageType.ADD_EFFECT_RACK 0 7 true, success := false,
             status := StatusCode.OTHER 0 }] ∧
      (onCallbackStart acceptAll
        (exampleManager [7] [] [] []
          [exampleRequest MessageType.ADD_EFFECT_RACK 0 7 true])).m_preFaderRacks = [7]) ∧
    ((onCallbackStart acceptAll
        (exampleManager [7] [] [] [] [exampleRequest MessageType.ADD_EFFECT_RACK 0 8 true])).responses
        = [{ request := exampleRequest MessageType.ADD_EFFECT_RACK 0 8 true, success := true,
             status := StatusCode.OTHER 0 }] ∧
      (onCallbackStart acceptAll
        (exampleManager [7] [] [] []
          [exampleRequest MessageType.ADD_EFFECT_RACK 0 8 true])).m_preFaderRacks = [7, 8]) := by
  rw [(C4_rack_add_remove acceptAll
    (exampleManager [7] [] [] [] [exampleRequest MessageType.ADD_EFFECT_RACK 0 7 true])
    (exampleRequest MessageType.ADD_EFFECT_RACK 0 7 true) [] rfl).1 rfl (by decide)]
  rw [(C4_rack_add_remove acceptAll
    (exampleManager [7] [] [] [] [exampleRequest MessageType.ADD_EFFECT_RACK 0 8 true])
    (exampleRequest MessageType.ADD_EFFECT_RACK 0 8 true) [] rfl).2.2.1 rfl (by decide)]
  exact ⟨⟨rfl, rfl⟩, rfl, rfl⟩

/-- C5. What a request does to the lists once it has passed its identity check
and its collaborator has processed it. The rack check passes for a target in
the pre-fader or in the post-fader list. ADD_CHAIN_TO_RACK appends the
payload chain to the master chain list, REMOVE_CHAIN_FROM_RACK removes the
payload chain from it, ADD_EFFECT_TO_CHAIN appends the payload effect to the
master effect list, REMOVE_EFFECT_FROM_CHAIN removes the payload effect from
it; the three chain setters and the two effect kinds change no list. In each
case the rest of the state is what the collaborator call leaves (its
responses, its state), and the manager writes no response. -/
theorem C5_processed_updates_master_lists {σ : Type} (ext : Externals σ)
    (s : EngineEffectsManager σ) (request : EffectsRequest) (rest : List EffectsRequest)
    (hq : s.requests = request :: rest) :
    (request.type = MessageType.ADD_CHAIN_TO_RACK →
      (request.pTargetRack ∈ s.m_preFaderRacks ∨ request.pTargetRack ∈ s.m_postFaderRacks) →
      (ext.rackRequest request.pTargetRack request s.world).1 = true →
      onCallbackStart ext s = onCallbackStart ext
        { (forwardToRack ext request s).2 with
          requests := rest
          readLog := s.readLog ++ [request]
          m_chains := s.m_chains ++ [request.AddChainToRack.pChain] }) ∧
    (request.type = MessageType.REMOVE_CHAIN_FROM_RACK →
      (request.pTargetRack ∈ s.m_preFaderRacks ∨ request.pTargetRack ∈ s.m_postFaderRacks) →
      (ext.rackRequest request.pTargetRack request s.world).1 = true →
      onCallbackStart ext s = onCallbackStart ext
        { (forwardToRack ext request s).2 with
          requests := rest
          readLog := s.readLog ++ [request]
          m_chains := s.m_chains.filter
            (fun c => decide (c ≠ request.RemoveChainFromRack.pChain)) }) ∧
    (request.type = MessageType.ADD_EFFECT_TO_CHAIN →
      request.pTargetChain ∈ s.m_chains →
      (ext.chainRequest request.pTargetChain request s.world).1 = true →
      onCallbackStart ext s = onCallbackStart ext
        { (forwardToChain ext request s).2 with
          requests := rest
          readLog := s.readLog ++ [request]
          m_effects := s.m_effects ++ [request.AddEffectToChain.pEffect] }) ∧
    (request.type = MessageType.REMOVE_EFFECT_FROM_CHAIN →
      request.pTargetChain ∈ s.m_chains →
      (ext.chainRequest request.pTargetChain request s.world).1 = true →
      onCallbackStart ext s = onCallbackStart ext
        { (forwardToChain ext request s).2 with
          requests := rest
          readLog := s.readLog ++ [request]
          m_effects := s.m_effects.filter
            (fun e => decide (e ≠ request.RemoveEffectFromChain.pEffect)) }) ∧
    ((request.type = MessageType.SET_EFFECT_CHAIN_PARAMETERS ∨
        request.type = MessageType.ENABLE_EFFECT_CHAIN_FOR_INPUT_CHANNEL ∨
        request.type = MessageType.DISABLE_EFFECT_CHAIN_FOR_INPUT_CHANNEL) →
      request.pTargetChain ∈ s.m_chains →
      (ext.chainRequest request.pTargetChain request s.world).1 = true →
      onCallbackStart ext s = onCallbackStart ext
        { (forwardToChain ext request s).2 with
          requests := rest
          readLog := s.readLog ++ [request] }) ∧
    ((request.type = MessageType.SET_EFFECT_PARAMETERS ∨
        request.type = MessageType.SET_PARAMETER_PARAMETERS) →
      request.pTargetEffect ∈ s.m_effects →
      (ext.effectRequest request.pTargetEffect request s.world).1 = true →
      onCallbackStart ext s = onCallbackStart ext
        { (forwardToEffect ext request s).2 with
          requests := rest
          readLog := s.readLog ++ [request] }) := by
  refine ⟨fun hk h1 hp => ?_, fun hk h1 hp => ?_, fun hk h1 hp => ?_, fun hk h1 hp => ?_,
    fun hk h1 hp => ?_, fun hk h1 hp => ?_⟩
  · rw [onCallbackStart_cons ext s request rest hq]
    exact congrArg _ (body_add_chain ext request
      { s with requests := rest, readLog := s.readLog ++ [request] } hk h1 hp)
  · rw [onCallbackStart_cons ext s request rest hq]
    exact congrArg _ (body_remove_chain ext request
      { s with requests := rest, readLog := s.readLog ++ [request] } hk h1 hp)
  · rw [onCallbackStart_cons ext s request rest hq]
    exact congrArg _ (body_add_effect ext request
      { s with requests := rest, readLog := s.readLog ++ [request] } hk h1 hp)
  · rw [onCallbackStart_cons ext s request rest hq]
    exact congrArg _ (body_remove_effect ext request
      { s with requests := rest, readLog := s.readLog ++ [request] } hk h1 hp)
  · rw [onCallbackStart_cons ext s request rest hq]
    exact congrArg _ (body_chain_setter ext request
      { s with requests := rest, readLog := s.readLog ++ [request] } hk h1 hp)
  · rw [onCallbackStart_cons ext s request rest hq]
    have hk' : request.type.effectTargeted = true := by
      rcases hk with hk | hk <;> simp [hk, MessageType.effectTargeted]
    exact congrArg _ (body_effect_setter ext request
      { s with requests := rest, readLog := s.readLog ++ [request] } hk' h1 hp)

/-- C5 with accepting collaborators: a chain add through post-fader rack 7
turns the chain list [3] into [3, 9]; a chain removal turns [3, 9, 3] into
[9]; an effect add through chain 3 turns the effect list [4] into [4, 5]. -/
theorem C5_processed_updates_master_lists_witness :
    (onCallbackStart acceptAll
        (exampleManager [] [7] [3] []
          [exampleRequest MessageType.ADD_CHAIN_TO_RACK 7 9 false])).m_chains = [3, 9] ∧
    (onCallbackStart acceptAll
        (exampleManager [] [7] [3, 9, 3] [4]
          [exampleRequest MessageType.REMOVE_CHAIN_FROM_RACK 7 3 false])).m_chains = [9] ∧
    (onCallbackStart acceptAll
        (exampleManager [] [7] [3] [4]
          [exampleRequest MessageType.ADD_EFFECT_TO_CHAIN 3 5 false])).m_effects = [4, 5] := by
  rw [(C5_processed_updates_master_lists acceptAll
    (exampleManager [] [7] [3] [] [exampleRequest MessageType.ADD_CHAIN_TO_RACK 7 9 false])
    (exampleRequest MessageType.ADD_CHAIN_TO_RACK 7 9 false) [] rfl).1 rfl (by decide) rfl]
  rw [(C5_processed_updates_master_lists acceptAll
    (exampleManager [] [7] [3, 9, 3] [4]
      [exampleRequest MessageType.REMOVE_CHAIN_FROM_RACK 7 3 false])
    (exampleRequest MessageType.REMOVE_CHAIN_FROM_RACK 7 3 false) [] rfl).2.1 rfl (by decide)
    rfl]
  rw [(C5_processed_updates_master_lists acceptAll
    (exampleManager [] [7] [3] [4] [exampleRequest MessageType.ADD_EFFECT_TO_CHAIN 3 5 false])
    (exampleRequest MessageType.ADD_EFFECT_TO_CHAIN 3 5 false) [] rfl).2.2.1 rfl (by decide)
    rfl]
  exact ⟨rfl, by decide, rfl⟩

/-- C6. A request whose kind is none of the eleven handled kinds is answered
with success=false and status UNHANDLED_MESSAGE_TYPE; nothing is forwarded
(the history of collaborator calls and the collaborators' state are
unchanged) and the four lists are unchanged. -/
theorem C6_unknown_kind_unhandled {σ : Type} (ext : Externals σ)
    (s : EngineEffectsManager σ) (request : EffectsRequest) (rest : List EffectsRequest)
    (code : Nat) (hq : s.requests = request :: rest)
    (hk : request.type = MessageType.OTHER code) :
    onCallbackStart ext s = onCallbackStart ext
      { s with
        requests := rest
        readLog := s.readLog ++ [request]
        responses := s.responses ++
          [{ request := request, success := false,
             status := StatusCode.UNHANDLED_MESSAGE_TYPE }] } := by
  rw [onCallbackStart_cons ext s request rest hq]
  exact congrArg _ (body_unhandled ext request
    { s with requests := rest, readLog := s.readLog ++ [request] } code hk)

/-- C6 for the kind with code 11 on a manager that knows identity 1 in every
list: the answer is UNHANDLED_MESSAGE_TYPE and no collaborator is called. -/
theorem C6_unknown_kind_unhandled_witness :
    (onCallbackStart acceptAll
        (exampleManager [1] [1] [1] [1]
          [exampleRequest (MessageType.OTHER 11) 1 1 true])).responses =
      [{ request := exampleRequest (MessageType.OTHER 11) 1 1 true, success := false,
         status := StatusCode.UNHANDLED_MESSAGE_TYPE }] ∧
    (onCallbackStart acceptAll
        (exampleManager [1] [1] [1] [1]
          [exampleRequest (MessageType.OTHER 11) 1 1 true])).forwardLog = [] := by
  rw [C6_unknown_kind_unhandled acceptAll
    (exampleManager [1] [1] [1] [1] [exampleRequest (MessageType.OTHER 11) 1 1 true])
    (exampleRequest (MessageType.OTHER 11) 1 1 true) [] 11 rfl rfl]
  exact ⟨rfl, rfl⟩

/-- C7. A forwarded request that its collaborator declines. When the target is
listed and the collaborator's processEffectsRequest returns false, the
manager writes, after whatever the collaborator wrote, a response with
success=false and status INVALID_REQUEST, and the master chain list and the
master effect list are unchanged: a declined ADD_CHAIN_TO_RACK or
ADD_EFFECT_TO_CHAIN adds nothing. -/
theorem C7_declined_is_invalid_request {σ : Type} (ext : Externals σ)
    (s : EngineEffectsManager σ) (request : EffectsRequest) (rest : List EffectsRequest)
    (hq : s.requests = request :: rest) :
    (request.type.rackTargeted = true →
      (request.pTargetRack ∈ s.m_preFaderRacks ∨ request.pTargetRack ∈ s.m_postFaderRacks) →
      (ext.rackRequest request.pTargetRack request s.world).1 = false →
      onCallbackStart ext s = onCallbackStart ext
        { (forwardToRack ext request s).2 with
          requests := rest
          readLog := s.readLog ++ [request]
          m_chains := s.m_chains
          m_effects := s.m_effects
          responses := (forwardToRack ext request s).2.responses ++
            [{ request := request, success := false,
               status := StatusCode.INVALID_REQUEST }] }) ∧
    (request.type.chainTargeted = true →
      request.pTargetChain ∈ s.m_chains →
      (ext.chainRequest request.pTargetChain request s.world).1 = false →
      onCallbackStart ext s = onCallbackStart ext
        { (forwardToChain ext request s).2 with
          requests := rest
          readLog := s.readLog ++ [request]
          m_chains := s.m_chains
          m_effects := s.m_effects
          responses := (forwardToChain ext request s).2.responses ++
            [{ request := request, success := false,
               status := StatusCode.INVALID_REQUEST }] }) ∧
    (request.type.effectTargeted = true →
      request.pTargetEffect ∈ s.m_effects →
      (ext.effectRequest request.pTargetEffect request s.world).1 = false →
      onCallbackStart ext s = onCallbackStart ext
        { (forwardToEffect ext request s).2 with
          requests := rest
          readLog := s.readLog ++ [request]
          m_chains := s.m_chains
          m_effects := s.m_effects
          responses := (forwardToEffect ext request s).2.responses ++
            [{ request := request, success := false,
               status := StatusCode.INVALID_REQUEST }] }) := by
  refine ⟨fun hk h1 hp => ?_, fun hk h1 hp => ?_, fun hk h1 hp => ?_⟩
  · rw [onCallbackStart_cons ext s request rest hq]
    exact congrArg _ (body_rack_declined ext request
      { s with requests := rest, readLog := s.readLog ++ [request] } hk h1 hp)
  · rw [onCallbackStart_cons ext s request rest hq]
    exact congrArg _ (body_chain_declined ext request
      { s with requests := rest, readLog := s.readLog ++ [request] } hk h1 hp)
  · rw [onCallbackStart_cons ext s request rest hq]
    exact congrArg _ (body_effect_declined ext request
      { s with requests := rest, readLog := s.readLog ++ [request] } hk h1 hp)

/-- C7 with declining collaborators: ADD_CHAIN_TO_RACK of chain 9 to the listed
rack 7 is answered INVALID_REQUEST and the chain list stays [3]. -/
theorem C7_declined_is_invalid_request_witness :
    (onCallbackStart declineAll
        (exampleManager [7] [] [3] []
          [exampleRequest MessageType.ADD_CHAIN_TO_RACK 7 9 false])).responses =
      [{ request := exampleRequest MessageType.ADD_CHAIN_TO_RACK 7 9 false, success := false,
         status := StatusCode.INVALID_REQUEST }] ∧
    (onCallbackStart declineAll
        (exampleManager [7] [] [3] []
          [exampleRequest MessageType.ADD_CHAIN_TO_RACK 7 9 false])).m_chains = [3] := by
  rw [(C7_declined_is_invalid_request declineAll
    (exampleManager [7] [] [3] [] [exampleRequest MessageType.ADD_CHAIN_TO_RACK 7 9 false])
    (exampleRequest MessageType.ADD_CHAIN_TO_RACK 7 9 false) [] rfl).1 rfl (by decide) rfl]
  exact ⟨rfl, rfl⟩

/-- C8. Membership after any run is the net effect of the requests. Start from
the freshly constructed manager and make any finite sequence of calls:
callback starts, each with the requests that have arrived, and buffer
processing calls in between. Afterwards a chain is in the master chain list
exactly when the last collaborator-processed ADD_CHAIN_TO_RACK /
REMOVE_CHAIN_FROM_RACK naming it was an add; an effect is in the master
effect list exactly when the last processed ADD_EFFECT_TO_CHAIN /
REMOVE_EFFECT_FROM_CHAIN naming it was an add; a rack is in the pre-fader
(post-fader) list exactly when the last arrived ADD_EFFECT_RACK /
REMOVE_EFFECT_RACK naming it with that pre-fader flag was an add. The three
buffer processing calls change none of the four lists. -/
theorem C8_membership_is_net_effect {σ : Type} (ext : Externals σ) (calls : List ManagerCall)
    (b1 b2 : CSAMPLEPtr) (mem : Memory) (w : σ) :
    (∀ c, c ∈ (runCalls ext calls (EngineEffectsManager.new b1 b2 mem w)).m_chains ↔
      lastEditOf c ((runCalls ext calls (EngineEffectsManager.new b1 b2 mem w)).forwardLog.filterMap
        Forwarded.chainEdit) = some (Edit.add c)) ∧
    (∀ e, e ∈ (runCalls ext calls (EngineEffectsManager.new b1 b2 mem w)).m_effects ↔
      lastEditOf e ((runCalls ext calls (EngineEffectsManager.new b1 b2 mem w)).forwardLog.filterMap
        Forwarded.effectEdit) = some (Edit.add e)) ∧
    (∀ r, r ∈ (runCalls ext calls (EngineEffectsManager.new b1 b2 mem w)).m_preFaderRacks ↔
      lastEditOf r ((arrivedRequests calls).filterMap (EffectsRequest.rackEdit true)) =
        some (Edit.add r)) ∧
    (∀ r, r ∈ (runCalls ext calls (EngineEffectsManager.new b1 b2 mem w)).m_postFaderRacks ↔
      lastEditOf r ((arrivedRequests calls).filterMap (EffectsRequest.rackEdit false)) =
        some (Edit.add r)) ∧
    (∀ (call : ManagerCall) (s : EngineEffectsManager σ), call.isBufferProcessing = true →
      (call.apply ext s).lists = s.lists) := by
  obtain ⟨⟨hc, he, hpre, hpost⟩, _, hlog⟩ :=
    runCalls_invariant ext calls (EngineEffectsManager.new b1 b2 mem w)
      (netInvariant_new b1 b2 mem w) rfl
  have hlog' : (runCalls ext calls (EngineEffectsManager.new b1 b2 mem w)).readLog =
      arrivedRequests calls := by
    rw [hlog]; simp [EngineEffectsManager.new]
  rw [hlog'] at hpre hpost
  refine ⟨hc, he, hpre, hpost, fun call s hb => ?_⟩
  exact congrArg (fun v => v.1) (apply_bufferProcessing_dispatchView ext s call hb)

/-- C8 on a run of two callback starts with buffer processing in between and
after: rack 7 is added pre-fader and later removed, rack 8 is added
post-fader, chains 9 and 10 are added and 9 is removed again; what is left is
rack 8 post-fader and chain 10, whose last processed edit is its add. -/
theorem C8_membership_is_net_effect_witness :
    (runCalls acceptAll
      [ManagerCall.onCallbackStart
        [exampleRequest MessageType.ADD_EFFECT_RACK 0 7 true,
         exampleRequest MessageType.ADD_CHAIN_TO_RACK 7 9 false,
         exampleRequest MessageType.ADD_CHAIN_TO_RACK 7 10 false],
       ManagerCall.processPreFaderInPlace 0 0 5 4 44100,
       ManagerCall.onCallbackStart
        [exampleRequest MessageType.REMOVE_CHAIN_FROM_RACK 7 9 false,
         exampleRequest MessageType.REMOVE_EFFECT_RACK 0 7 true,
         exampleRequest MessageType.ADD_EFFECT_RACK 0 8 false],
       ManagerCall.processPostFaderAndMix 0 0 5 6 4 44100 0 1 2]
      (EngineEffectsManager.new 1 2 (fun _ => []) ())).lists = ([], [8], [10], []) ∧
    lastEditOf 10
      ((runCalls acceptAll
        [ManagerCall.onCallbackStart
          [exampleRequest MessageType.ADD_EFFECT_RACK 0 7 true,
           exampleRequest MessageType.ADD_CHAIN_TO_RACK 7 9 false,
           exampleRequest MessageType.ADD_CHAIN_TO_RACK 7 10 false],
         ManagerCall.processPreFaderInPlace 0 0 5 4 44100,
         ManagerCall.onCallbackStart
          [exampleRequest MessageType.REMOVE_CHAIN_FROM_RACK 7 9 false,
           exampleRequest MessageType.REMOVE_EFFECT_RACK 0 7 true,
           exampleRequest MessageType.ADD_EFFECT_RACK 0 8 false],
         ManagerCall.processPostFaderAndMix 0 0 5 6 4 44100 0 1 2]
        (EngineEffectsManager.new 1 2 (fun _ => []) ())).forwardLog.filterMap
          Forwarded.chainEdit) = some (Edit.add 10) :=
  ⟨by decide,
   ((C8_membership_is_net_effect acceptAll _ 1 2 (fun _ => []) ()).1 10).mp (by decide)⟩

/-- C9 fails: removing a rack does not remove its chains, and removing a chain
does not remove its effects. From the fresh manager with accepting
collaborators: add rack 7, add chain 9 to rack 7, remove rack 7 - chain 9 is
still in the master chain list although both rack lists are empty. And: add
rack 7, add chain 9 to it, add effect 5 to chain 9, remove chain 9 - effect 5
is still in the master effect list although the chain list is empty. -/
theorem C9_counterexample :
    (runCalls acceptAll
      [ManagerCall.onCallbackStart
        [exampleRequest MessageType.ADD_EFFECT_RACK 0 7 true,
         exampleRequest MessageType.ADD_CHAIN_TO_RACK 7 9 false,
         exampleRequest MessageType.REMOVE_EFFECT_RACK 0 7 true]]
      (EngineEffectsManager.new 1 2 (fun _ => []) ())).lists = ([], [], [9], []) ∧
    (runCalls acceptAll
      [ManagerCall.onCallbackStart
        [exampleRequest MessageType.ADD_EFFECT_RACK 0 7 true,
         exampleRequest MessageType.ADD_CHAIN_TO_RACK 7 9 false,
         exampleRequest MessageType.ADD_EFFECT_TO_CHAIN 9 5 false,
         exampleRequest MessageType.REMOVE_CHAIN_FROM_RACK 7 9 false]]
      (EngineEffectsManager.new 1 2 (fun _ => []) ())).lists = ([7], [], [], [5]) := by
  decide

/-- C9, amended. After any run from the freshly constructed manager, the
master chain list contains no chain whose last processed ADD_CHAIN_TO_RACK /
REMOVE_CHAIN_FROM_RACK was a removal (or that was never added), and the master
effect list no effect whose last processed ADD_EFFECT_TO_CHAIN /
REMOVE_EFFECT_FROM_CHAIN was a removal (or that was never added). Removal does
not cascade: a REMOVE_EFFECT_RACK request leaves the master chain list and
the master effect list as they are, and a REMOVE_CHAIN_FROM_RACK request
leaves the master effect list as it is. -/
theorem C9_listed_until_removed_by_name {σ : Type} (ext : Externals σ) :
    (∀ (calls : List ManagerCall) (b1 b2 : CSAMPLEPtr) (mem : Memory) (w : σ) (c : Nat),
      lastEditOf c ((runCalls ext calls (EngineEffectsManager.new b1 b2 mem w)).forwardLog.filterMap
        Forwarded.chainEdit) ≠ some (Edit.add c) →
      c ∉ (runCalls ext calls (EngineEffectsManager.new b1 b2 mem w)).m_chains) ∧
    (∀ (calls : List ManagerCall) (b1 b2 : CSAMPLEPtr) (mem : Memory) (w : σ) (e : Nat),
      lastEditOf e ((runCalls ext calls (EngineEffectsManager.new b1 b2 mem w)).forwardLog.filterMap
        Forwarded.effectEdit) ≠ some (Edit.add e) →
      e ∉ (runCalls ext calls (EngineEffectsManager.new b1 b2 mem w)).m_effects) ∧
    (∀ (s : EngineEffectsManager σ) (request : EffectsRequest), s.requests = [request] →
      request.type = MessageType.REMOVE_EFFECT_RACK →
      (onCallbackStart ext s).m_chains = s.m_chains ∧
      (onCallbackStart ext s).m_effects = s.m_effects) ∧
    (∀ (s : EngineEffectsManager σ) (request : EffectsRequest), s.requests = [request] →
      request.type = MessageType.REMOVE_CHAIN_FROM_RACK →
      (onCallbackStart ext s).m_effects = s.m_effects) := by
  refine ⟨fun calls b1 b2 mem w c h hc => ?_, fun calls b1 b2 mem w e h he => ?_,
    fun s request hq hk => ?_, fun s request hq hk => ?_⟩
  · exact h (((runCalls_invariant ext calls (EngineEffectsManager.new b1 b2 mem w)
      (netInvariant_new b1 b2 mem w) rfl).1.1 c).mp hc)
  · exact h (((runCalls_invariant ext calls (EngineEffectsManager.new b1 b2 mem w)
      (netInvariant_new b1 b2 mem w) rfl).1.2.1 e).mp he)
  · rw [onCallbackStart_singleton ext s request hq]
    exact body_remove_rack_frame ext request _ hk
  · rw [onCallbackStart_singleton ext s request hq]
    exact body_remove_chain_frame ext request _ hk

/-- C10 fails when the collaborator accepts. With chain 9 already in the master
chain list and rack 7 listed and accepting, ADD_CHAIN_TO_RACK naming 9 makes
the list [9, 9] and the only response is the rack's success; likewise an
accepted ADD_EFFECT_TO_CHAIN naming the listed effect 5 makes the effect list
[5, 5]. -/
theorem C10_counterexample :
    ((onCallbackStart acceptAll
        (exampleManager [7] [] [9] []
          [exampleRequest MessageType.ADD_CHAIN_TO_RACK 7 9 false])).m_chains = [9, 9] ∧
      (onCallbackStart acceptAll
        (exampleManager [7] [] [9] []
          [exampleRequest MessageType.ADD_CHAIN_TO_RACK 7 9 false])).responses =
        [{ request := exampleRequest MessageType.ADD_CHAIN_TO_RACK 7 9 false, success := true,
           status := StatusCode.OK }]) ∧
    ((onCallbackStart acceptAll
        (exampleManager [7] [] [9] [5]
          [exampleRequest MessageType.ADD_EFFECT_TO_CHAIN 9 5 false])).m_effects = [5, 5] ∧
      (onCallbackStart acceptAll
        (exampleManager [7] [] [9] [5]
          [exampleRequest MessageType.ADD_EFFECT_TO_CHAIN 9 5 false])).responses =
        [{ request := exampleRequest MessageType.ADD_EFFECT_TO_CHAIN 9 5 false, success := true,
           status := StatusCode.OK }]) := by
  decide

/-- C10, amended. For a manager with chain C already in the master chain list
and an ADD_CHAIN_TO_RACK naming C as its only pending request: if the target
rack is in neither rack list the manager answers NO_SUCH_RACK, and if the rack
is listed and declines the manager answers INVALID_REQUEST, in both cases with
the master chain list unchanged; if the rack is listed and processes the
request, the manager writes no response of its own and appends C once more,
so that C occurs one more time than before. The same for ADD_EFFECT_TO_CHAIN
naming an effect already in the master effect list, with the target chain and
NO_SUCH_CHAIN. -/
theorem C10_repeated_add_follows_collaborator {σ : Type} (ext : Externals σ)
    (s : EngineEffectsManager σ) (request : EffectsRequest) (hq : s.requests = [request]) :
    (request.type = MessageType.ADD_CHAIN_TO_RACK →
      request.AddChainToRack.pChain ∈ s.m_chains →
      (request.pTargetRack ∉ s.m_preFaderRacks → request.pTargetRack ∉ s.m_postFaderRacks →
        (onCallbackStart ext s).m_chains = s.m_chains ∧
        (onCallbackStart ext s).responses = s.responses ++
          [{ request := request, success := false, status := StatusCode.NO_SUCH_RACK }]) ∧
      ((request.pTargetRack ∈ s.m_preFaderRacks ∨ request.pTargetRack ∈ s.m_postFaderRacks) →
        (ext.rackRequest request.pTargetRack request s.world).1 = false →
        (onCallbackStart ext s).m_chains = s.m_chains ∧
        (onCallbackStart ext s).responses =
          s.responses ++ (ext.rackRequest request.pTargetRack request s.world).2.1 ++
            [{ request := request, success := false, status := StatusCode.INVALID_REQUEST }]) ∧
      ((request.pTargetRack ∈ s.m_preFaderRacks ∨ request.pTargetRack ∈ s.m_postFaderRacks) →
        (ext.rackRequest request.pTargetRack request s.world).1 = true →
        (onCallbackStart ext s).m_chains = s.m_chains ++ [request.AddChainToRack.pChain] ∧
        (onCallbackStart ext s).m_chains.count request.AddChainToRack.pChain =
          s.m_chains.count request.AddChainToRack.pChain + 1 ∧
        (onCallbackStart ext s).responses =
          s.responses ++ (ext.rackRequest request.pTargetRack request s.world).2.1)) ∧
    (request.type = MessageType.ADD_EFFECT_TO_CHAIN →
      request.AddEffectToChain.pEffect ∈ s.m_effects →
      (request.pTargetChain ∉ s.m_chains →
        (onCallbackStart ext s).m_effects = s.m_effects ∧
        (onCallbackStart ext s).responses = s.responses ++
          [{ request := request, success := false, status := StatusCode.NO_SUCH_CHAIN }]) ∧
      (request.pTargetChain ∈ s.m_chains →
        (ext.chainRequest request.pTargetChain request s.world).1 = false →
        (onCallbackStart ext s).m_effects = s.m_effects ∧
        (onCallbackStart ext s).responses =
          s.responses ++ (ext.chainRequest request.pTargetChain request s.world).2.1 ++
            [{ request := request, success := false, status := StatusCode.INVALID_REQUEST }]) ∧
      (request.pTargetChain ∈ s.m_chains →
        (ext.chainRequest request.pTargetChain request s.world).1 = true →
        (onCallbackStart ext s).m_effects = s.m_effects ++ [request.AddEffectToChain.pEffect] ∧
        (onCallbackStart ext s).m_effects.count request.AddEffectToChain.pEffect =
          s.m_effects.count request.AddEffectToChain.pEffect + 1 ∧
        (onCallbackStart ext s).responses =
          s.responses ++ (ext.chainRequest request.pTargetChain request s.world).2.1)) := by
  rw [onCallbackStart_singleton ext s request hq]
  refine ⟨fun hk _ => ⟨fun h1 h2 => ?_, fun h1 hp => ?_, fun h1 hp => ?_⟩,
    fun hk _ => ⟨fun h1 => ?_, fun h1 hp => ?_, fun h1 hp => ?_⟩⟩
  · rw [body_no_such_rack ext request { s with requests := [], readLog := s.readLog ++ [request] }
      (by simp [hk, MessageType.rackTargeted]) h1 h2]
    exact ⟨rfl, rfl⟩
  · rw [body_rack_declined ext request { s with requests := [], readLog := s.readLog ++ [request] }
      (by simp [hk, MessageType.rackTargeted]) h1 hp]
    exact ⟨rfl, rfl⟩
  · rw [body_add_chain ext request { s with requests := [], readLog := s.readLog ++ [request] } hk h1 hp]
    refine ⟨rfl, ?_, rfl⟩
    simp
  · rw [body_no_such_chain ext request { s with requests := [], readLog := s.readLog ++ [request] }
      (by simp [hk, MessageType.chainTargeted]) h1]
    exact ⟨rfl, rfl⟩
  · rw [body_chain_declined ext request { s with requests := [], readLog := s.readLog ++ [request] }
      (by simp [hk, MessageType.chainTargeted]) h1 hp]
    exact ⟨rfl, rfl⟩
  · rw [body_add_effect ext request { s with requests := [], readLog := s.readLog ++ [request] } hk h1 hp]
    refine ⟨rfl, ?_, rfl⟩
    simp

/-- C10, amended, with chain 9 listed and rack 7 listed: a declining rack gives
INVALID_REQUEST and the list stays [9]; an accepting rack makes 9 occur
twice. -/
theorem C10_repeated_add_follows_collaborator_witness :
    ((onCallbackStart declineAll
        (exampleManager [7] [] [9] []
          [exampleRequest MessageType.ADD_CHAIN_TO_RACK 7 9 false])).m_chains = [9] ∧
      (onCallbackStart declineAll
        (exampleManager [7] [] [9] []
          [exampleRequest MessageType.ADD_CHAIN_TO_RACK 7 9 false])).responses =
        [{ request := exampleRequest MessageType.ADD_CHAIN_TO_RACK 7 9 false, success := false,
           status := StatusCode.INVALID_REQUEST }]) ∧
    ((onCallbackStart acceptAll
        (exampleManager [7] [] [9] []
          [exampleRequest MessageType.ADD_CHAIN_TO_RACK 7 9 false])).m_chains.count 9 = 1 + 1) :=
  ⟨((C10_repeated_add_follows_collaborator declineAll
      (exampleManager [7] [] [9] [] [exampleRequest MessageType.ADD_CHAIN_TO_RACK 7 9 false])
      (exampleRequest MessageType.ADD_CHAIN_TO_RACK 7 9 false) rfl).1 rfl (by decide)).2.1
      (by decide) rfl,
   (((C10_repeated_add_follows_collaborator acceptAll
      (exampleManager [7] [] [9] [] [exampleRequest MessageType.ADD_CHAIN_TO_RACK 7 9 false])
      (exampleRequest MessageType.ADD_CHAIN_TO_RACK 7 9 false) rfl).1 rfl (by decide)).2.2
      (by decide) rfl).2.1⟩

/-- C11 fails when X is already in the list. With accepting collaborators:
the pre-fader list is [7], ADD_EFFECT_RACK of rack 7 is refused and
REMOVE_EFFECT_RACK of rack 7 then leaves the list empty, not [7]; the master
chain list is [9], ADD_CHAIN_TO_RACK of chain 9 to the listed rack 7 followed
by REMOVE_CHAIN_FROM_RACK of chain 9 leaves it empty, not [9]; the master
effect list is [5], ADD_EFFECT_TO_CHAIN of effect 5 to the listed chain 9
followed by REMOVE_EFFECT_FROM_CHAIN of effect 5 leaves it empty, not [5]. -/
theorem C11_counterexample :
    (onCallbackStart acceptAll
        (exampleManager [7] [] [] []
          [exampleRequest MessageType.ADD_EFFECT_RACK 0 7 true,
           exampleRequest MessageType.REMOVE_EFFECT_RACK 0 7 true])).m_preFaderRacks = [] ∧
    (onCallbackStart acceptAll
        (exampleManager [7] [] [9] []
          [exampleRequest MessageType.ADD_CHAIN_TO_RACK 7 9 false,
           exampleRequest MessageType.REMOVE_CHAIN_FROM_RACK 7 9 false])).m_chains = [] ∧
    (onCallbackStart acceptAll
        (exampleManager [7] [] [9] [5]
          [exampleRequest MessageType.ADD_EFFECT_TO_CHAIN 9 5 false,
           exampleRequest MessageType.REMOVE_EFFECT_FROM_CHAIN 9 5 false])).m_effects = [] := by
  decide

/-- C11, amended. Draining ADD of X immediately followed by REMOVE of X
leaves the list equal to its value before the ADD with every occurrence of X
deleted, the others in their order; it is exactly the value before the ADD
when X was not in it. For a rack: ADD_EFFECT_RACK then REMOVE_EFFECT_RACK with
the same rack and pre-fader flag, on the list the flag selects. For a chain:
ADD_CHAIN_TO_RACK then REMOVE_CHAIN_FROM_RACK of the same chain with the same
listed target rack, the rack processing the remove, on the master chain list.
For an effect: ADD_EFFECT_TO_CHAIN then REMOVE_EFFECT_FROM_CHAIN of the same
effect with the same listed target chain, the chain processing the remove, on
the master effect list. -/
theorem C11_add_then_remove_deletes_all {σ : Type} (ext : Externals σ)
    (s : EngineEffectsManager σ) (add remove : EffectsRequest)
    (hq : s.requests = [add, remove]) :
    (add.type = MessageType.ADD_EFFECT_RACK → remove.type = MessageType.REMOVE_EFFECT_RACK →
      remove.RemoveEffectRack = add.AddEffectRack →
      selectedRacks add.AddEffectRack.preFader (onCallbackStart ext s) =
        (selectedRacks add.AddEffectRack.preFader s).filter
          (fun r => decide (r ≠ add.AddEffectRack.pRack)) ∧
      (add.AddEffectRack.pRack ∉ selectedRacks add.AddEffectRack.preFader s →
        selectedRacks add.AddEffectRack.preFader (onCallbackStart ext s) =
          selectedRacks add.AddEffectRack.preFader s)) ∧
    (add.type = MessageType.ADD_CHAIN_TO_RACK → remove.type = MessageType.REMOVE_CHAIN_FROM_RACK →
      remove.pTargetRack = add.pTargetRack →
      remove.RemoveChainFromRack.pChain = add.AddChainToRack.pChain →
      (add.pTargetRack ∈ s.m_preFaderRacks ∨ add.pTargetRack ∈ s.m_postFaderRacks) →
      (ext.rackRequest add.pTargetRack remove
        (ext.rackRequest add.pTargetRack add s.world).2.2).1 = true →
      (onCallbackStart ext s).m_chains =
        s.m_chains.filter (fun c => decide (c ≠ add.AddChainToRack.pChain)) ∧
      (add.AddChainToRack.pChain ∉ s.m_chains →
        (onCallbackStart ext s).m_chains = s.m_chains)) ∧
    (add.type = MessageType.ADD_EFFECT_TO_CHAIN →
      remove.type = MessageType.REMOVE_EFFECT_FROM_CHAIN →
      remove.pTargetChain = add.pTargetChain →
      remove.RemoveEffectFromChain.pEffect = add.AddEffectToChain.pEffect →
      add.pTargetChain ∈ s.m_chains →
      (ext.chainRequest add.pTargetChain remove
        (ext.chainRequest add.pTargetChain add s.world).2.2).1 = true →
      (onCallbackStart ext s).m_effects =
        s.m_effects.filter (fun e => decide (e ≠ add.AddEffectToChain.pEffect)) ∧
      (add.AddEffectToChain.pEffect ∉ s.m_effects →
        (onCallbackStart ext s).m_effects = s.m_effects)) := by
  rw [onCallbackStart_pair ext s add remove hq]
  refine ⟨fun ha hr hsame => ?_, fun ha hr ht hx h1 hp2 => ?_, fun ha hr ht hx h1 hp2 => ?_⟩
  · have key : selectedRacks add.AddEffectRack.preFader
        (onCallbackStart.body ext remove
          { onCallbackStart.body ext add
              { s with requests := [remove], readLog := s.readLog ++ [add] } with
            requests := []
            readLog := s.readLog ++ [add] ++ [remove] }) =
        (selectedRacks add.AddEffectRack.preFader s).filter
          (fun r => decide (r ≠ add.AddEffectRack.pRack)) := by
      have h2 := body_rack_lists ext remove
        { onCallbackStart.body ext add
            { s with requests := [remove], readLog := s.readLog ++ [add] } with
          requests := []
          readLog := s.readLog ++ [add] ++ [remove] }
      have h1 := body_rack_lists ext add
        { s with requests := [remove], readLog := s.readLog ++ [add] }
      simp only [EffectsRequest.RemoveEffectRack] at hsame
      cases hf : add.AddEffectRack.preFader
      · simp only [selectedRacks, Bool.false_eq_true, if_false]
        rw [h2.2, h1.2]
        simp only [EffectsRequest.rackEdit, ha, hr, EffectsRequest.RemoveEffectRack, hsame, hf,
          if_true]
        exact applyRackEdit_add_remove _ _
      · simp only [selectedRacks, if_true]
        rw [h2.1, h1.1]
        simp only [EffectsRequest.rackEdit, ha, hr, EffectsRequest.RemoveEffectRack, hsame, hf,
          if_true]
        exact applyRackEdit_add_remove _ _
    refine ⟨key, fun hx => ?_⟩
    rw [key, filter_ne_of_not_mem _ _ hx]
  · have hk : add.type.rackTargeted = true := by simp [ha, MessageType.rackTargeted]
    have key : (onCallbackStart.body ext remove
          { onCallbackStart.body ext add
              { s with requests := [remove], readLog := s.readLog ++ [add] } with
            requests := []
            readLog := s.readLog ++ [add] ++ [remove] }).m_chains =
        s.m_chains.filter (fun c => decide (c ≠ add.AddChainToRack.pChain)) := by
      cases hp1 : (ext.rackRequest add.pTargetRack add s.world).1
      · rw [body_rack_declined ext add
          { s with requests := [remove], readLog := s.readLog ++ [add] } hk h1 hp1]
        rw [body_remove_chain ext remove _ hr (by simpa [ht] using h1)
          (by simpa [ht] using hp2)]
        simp [hx]
      · rw [body_add_chain ext add
          { s with requests := [remove], readLog := s.readLog ++ [add] } ha h1 hp1]
        rw [body_remove_chain ext remove _ hr (by simpa [ht] using h1)
          (by simpa [ht] using hp2)]
        simp [hx, List.filter_append]
    refine ⟨key, fun hn => ?_⟩
    rw [key, filter_ne_of_not_mem _ _ hn]
  · have hk : add.type.chainTargeted = true := by simp [ha, MessageType.chainTargeted]
    have key : (onCallbackStart.body ext remove
          { onCallbackStart.body ext add
              { s with requests := [remove], readLog := s.readLog ++ [add] } with
            requests := []
            readLog := s.readLog ++ [add] ++ [remove] }).m_effects =
        s.m_effects.filter (fun e => decide (e ≠ add.AddEffectToChain.pEffect)) := by
      cases hp1 : (ext.chainRequest add.pTargetChain add s.world).1
      · rw [body_chain_declined ext add
          { s with requests := [remove], readLog := s.readLog ++ [add] } hk h1 hp1]
        rw [body_remove_effect ext remove _ hr (by simpa [ht] using h1)
          (by simpa [ht] using hp2)]
        simp [hx]
      · rw [body_add_effect ext add
          { s with requests := [remove], readLog := s.readLog ++ [add] } ha h1 hp1]
        rw [body_remove_effect ext remove _ hr (by simpa [ht] using h1)
          (by simpa [ht] using hp2)]
        simp [hx, List.filter_append]
    refine ⟨key, fun hn => ?_⟩
    rw [key, filter_ne_of_not_mem _ _ hn]

/-- C11, amended, with accepting collaborators: adding and removing the
new rack 9 leaves the pre-fader list [7, 8] as it was; adding and removing
chain 9 through the listed rack 7 turns the master chain list [3, 9, 4, 9]
into [3, 4]. -/
theorem C11_add_then_remove_deletes_all_witness :
    selectedRacks true
        (onCallbackStart acceptAll
          (exampleManager [7, 8] [] [] []
            [exampleRequest MessageType.ADD_EFFECT_RACK 0 9 true,
             exampleRequest MessageType.REMOVE_EFFECT_RACK 0 9 true])) = [7, 8] ∧
    (onCallbackStart acceptAll
        (exampleManager [7] [] [3, 9, 4, 9] []
          [exampleRequest MessageType.ADD_CHAIN_TO_RACK 7 9 false,
           exampleRequest MessageType.REMOVE_CHAIN_FROM_RACK 7 9 false])).m_chains =
      [3, 4] :=
  ⟨((C11_add_then_remove_deletes_all acceptAll
      (exampleManager [7, 8] [] [] []
        [exampleRequest MessageType.ADD_EFFECT_RACK 0 9 true,
         exampleRequest MessageType.REMOVE_EFFECT_RACK 0 9 true])
      (exampleRequest MessageType.ADD_EFFECT_RACK 0 9 true)
      (exampleRequest MessageType.REMOVE_EFFECT_RACK 0 9 true) rfl).1 rfl rfl rfl).2
      (by decide),
   ((C11_add_then_remove_deletes_all acceptAll
      (exampleManager [7] [] [3, 9, 4, 9] []
        [exampleRequest MessageType.ADD_CHAIN_TO_RACK 7 9 false,
         exampleRequest MessageType.REMOVE_CHAIN_FROM_RACK 7 9 false])
      (exampleRequest MessageType.ADD_CHAIN_TO_RACK 7 9 false)
      (exampleRequest MessageType.REMOVE_CHAIN_FROM_RACK 7 9 false) rfl).2.1 rfl rfl rfl rfl
      (by decide) rfl).1⟩

/-- C12. The scenario from the freshly constructed manager, one request
per callback start. Draining ADD_EFFECT_RACK of rack R1 with the pre-fader
flag writes one response for that request with success = true and lists R1 as
the only pre-fader rack. Draining then ADD_CHAIN_TO_RACK of chain C1 to rack
R1, which R1 accepts, adds what R1 answers and nothing of the manager's own
to the responses and puts C1 in the master chain list. Draining then
SET_EFFECT_PARAMETERS, whatever effect it targets (no effect has been added),
adds one response with success = false and status NO_SUCH_EFFECT, changes no
list, and calls no collaborator: the only call ever made is that of rack R1
with the chain add. -/
theorem C12_scenario {σ : Type} (ext : Externals σ) (b1 b2 : CSAMPLEPtr) (mem : Memory)
    (w : σ) (R1 C1 : Nat) (addRack addChain setParameters : EffectsRequest)
    (h1 : addRack.type = MessageType.ADD_EFFECT_RACK)
    (h1r : addRack.AddEffectRack = { pRack := R1, preFader := true })
    (h2 : addChain.type = MessageType.ADD_CHAIN_TO_RACK)
    (h2t : addChain.pTargetRack = R1) (h2c : addChain.AddChainToRack.pChain = C1)
    (h3 : setParameters.type = MessageType.SET_EFFECT_PARAMETERS)
    (haccept : (ext.rackRequest R1 addChain w).1 = true) :
    (runCalls ext [ManagerCall.onCallbackStart [addRack]]
        (EngineEffectsManager.new b1 b2 mem w)).responses =
      [{ request := addRack, success := true, status := ext.initStatus }] ∧
    (runCalls ext [ManagerCall.onCallbackStart [addRack]]
        (EngineEffectsManager.new b1 b2 mem w)).lists = ([R1], [], [], []) ∧
    (runCalls ext [ManagerCall.onCallbackStart [addRack], ManagerCall.onCallbackStart [addChain]]
        (EngineEffectsManager.new b1 b2 mem w)).responses =
      [{ request := addRack, success := true, status := ext.initStatus }] ++
        (ext.rackRequest R1 addChain w).2.1 ∧
    (runCalls ext [ManagerCall.onCallbackStart [addRack], ManagerCall.onCallbackStart [addChain]]
        (EngineEffectsManager.new b1 b2 mem w)).lists = ([R1], [], [C1], []) ∧
    (runCalls ext
        [ManagerCall.onCallbackStart [addRack], ManagerCall.onCallbackStart [addChain],
         ManagerCall.onCallbackStart [setParameters]]
        (EngineEffectsManager.new b1 b2 mem w)).responses =
      [{ request := addRack, success := true, status := ext.initStatus }] ++
        (ext.rackRequest R1 addChain w).2.1 ++
        [{ request := setParameters, success := false, status := StatusCode.NO_SUCH_EFFECT }] ∧
    (runCalls ext
        [ManagerCall.onCallbackStart [addRack], ManagerCall.onCallbackStart [addChain],
         ManagerCall.onCallbackStart [setParameters]]
        (EngineEffectsManager.new b1 b2 mem w)).lists = ([R1], [], [C1], []) ∧
    (runCalls ext
        [ManagerCall.onCallbackStart [addRack], ManagerCall.onCallbackStart [addChain],
         ManagerCall.onCallbackStart [setParameters]]
        (EngineEffectsManager.new b1 b2 mem w)).forwardLog =
      [{ target := Target.rack R1, request := addChain, preFaderRacks := [R1],
         postFaderRacks := [], chains := [], effects := [], processed := true }] := by
  have e1 : runCalls ext [ManagerCall.onCallbackStart [addRack]]
      (EngineEffectsManager.new b1 b2 mem w) =
      { EngineEffectsManager.new b1 b2 mem w with
        m_preFaderRacks := [R1]
        readLog := [addRack]
        responses := [{ request := addRack, success := true, status := ext.initStatus }] } := by
    simp only [runCalls, List.foldl_cons, List.foldl_nil, ManagerCall.apply]
    rw [onCallbackStart_singleton ext _ addRack (by simp [EngineEffectsManager.new])]
    rw [body_add_rack_absent ext addRack _ h1
      (by simp [h1r, selectedRacks, EngineEffectsManager.new])]
    simp [h1r, withSelectedRacks, selectedRacks, EngineEffectsManager.new]
  have e2 : runCalls ext
      [ManagerCall.onCallbackStart [addRack], ManagerCall.onCallbackStart [addChain]]
      (EngineEffectsManager.new b1 b2 mem w) =
      { EngineEffectsManager.new b1 b2 mem w with
        m_preFaderRacks := [R1]
        m_chains := [C1]
        readLog := [addRack, addChain]
        world := (ext.rackRequest R1 addChain w).2.2
        responses := [{ request := addRack, success := true, status := ext.initStatus }] ++
          (ext.rackRequest R1 addChain w).2.1
        forwardLog := [⟨Target.rack R1, addChain, [R1], [], [], [], true⟩] } := by
    rw [show [ManagerCall.onCallbackStart [addRack], ManagerCall.onCallbackStart [addChain]] =
      [ManagerCall.onCallbackStart [addRack]] ++ [ManagerCall.onCallbackStart [addChain]]
      from rfl, runCalls_snoc, e1]
    simp only [ManagerCall.apply]
    rw [onCallbackStart_singleton ext _ addChain (by simp [EngineEffectsManager.new])]
    rw [body_add_chain ext addChain _ h2
      (by simp [h2t, EngineEffectsManager.new])
      (by simpa [h2t, EngineEffectsManager.new] using haccept)]
    simp [h2t, h2c, forwardToRack, EngineEffectsManager.new, haccept]
  have e3 : runCalls ext
      [ManagerCall.onCallbackStart [addRack], ManagerCall.onCallbackStart [addChain],
       ManagerCall.onCallbackStart [setParameters]]
      (EngineEffectsManager.new b1 b2 mem w) =
      { EngineEffectsManager.new b1 b2 mem w with
        m_preFaderRacks := [R1]
        m_chains := [C1]
        readLog := [addRack, addChain, setParameters]
        world := (ext.rackRequest R1 addChain w).2.2
        responses := [{ request := addRack, success := true, status := ext.initStatus }] ++
          (ext.rackRequest R1 addChain w).2.1 ++
          [{ request := setParameters, success := false,
             status := StatusCode.NO_SUCH_EFFECT }]
        forwardLog := [⟨Target.rack R1, addChain, [R1], [], [], [], true⟩] } := by
    rw [show [ManagerCall.onCallbackStart [addRack], ManagerCall.onCallbackStart [addChain],
        ManagerCall.onCallbackStart [setParameters]] =
      [ManagerCall.onCallbackStart [addRack], ManagerCall.onCallbackStart [addChain]] ++
        [ManagerCall.onCallbackStart [setParameters]] from rfl, runCalls_snoc, e2]
    simp only [ManagerCall.apply]
    rw [onCallbackStart_singleton ext _ setParameters (by simp [EngineEffectsManager.new])]
    rw [body_no_such_effect ext setParameters _
      (by simp [h3, MessageType.effectTargeted]) (by simp [EngineEffectsManager.new])]
    simp [EngineEffectsManager.new]
  rw [e1, e2, e3]
  simp [EngineEffectsManager.lists, EngineEffectsManager.new]

/-- C12 with accepting collaborators, rack 1, chain 2 and effect 3: the
three responses are success for the rack add, the rack's OK for the chain add,
and NO_SUCH_EFFECT without success for the parameter request. -/
theorem C12_scenario_witness :
    (runCalls acceptAll
        [ManagerCall.onCallbackStart [exampleRequest MessageType.ADD_EFFECT_RACK 0 1 true],
         ManagerCall.onCallbackStart [exampleRequest MessageType.ADD_CHAIN_TO_RACK 1 2 false],
         ManagerCall.onCallbackStart [exampleRequest MessageType.SET_EFFECT_PARAMETERS 3 0 false]]
        (EngineEffectsManager.new 1 2 (fun _ => []) ())).responses =
      [{ request := exampleRequest MessageType.ADD_EFFECT_RACK 0 1 true, success := true,
         status := StatusCode.OTHER 0 }] ++
        [{ request := exampleRequest MessageType.ADD_CHAIN_TO_RACK 1 2 false, success := true,
           status := StatusCode.OK }] ++
        [{ request := exampleRequest MessageType.SET_EFFECT_PARAMETERS 3 0 false,
           success := false, status := StatusCode.NO_SUCH_EFFECT }] :=
  (C12_scenario acceptAll 1 2 (fun _ => []) () 1 2
    (exampleRequest MessageType.ADD_EFFECT_RACK 0 1 true)
    (exampleRequest MessageType.ADD_CHAIN_TO_RACK 1 2 false)
    (exampleRequest MessageType.SET_EFFECT_PARAMETERS 3 0 false) rfl rfl rfl rfl rfl rfl
    rfl).2.2.2.2.1

/-- C13. The drain terminates, empties the queue and handles the
requests in FIFO order, whatever the collaborators do. The while statement of
onCallbackStart, run with more fuel than there are pending requests, returns,
and returns what onCallbackStart (the same loop, by recursion on the queue)
returns; afterwards the
queue is empty; the requests read are the pending ones in their order, each
once; the resulting manager is the left fold, over the pending requests in
queue order, of handling one request, so that no outcome ends the drain before
the last request. The fuel bound is sharp: with as many units of fuel as
pending requests or fewer, the loop has not yet seen the queue empty. -/
theorem C13_drain_terminates_fifo {σ : Type} (ext : Externals σ)
    (s : EngineEffectsManager σ) (fuel : Nat) (hfuel : s.requests.length < fuel) :
    onCallbackStart.whileLoop ext fuel s = some (onCallbackStart ext s) ∧
    (onCallbackStart ext s).requests = [] ∧
    (onCallbackStart ext s).readLog = s.readLog ++ s.requests ∧
    onCallbackStart ext s =
      s.requests.foldl (fun t request => onCallbackStart.body ext request
        { t with requests := t.requests.tail, readLog := t.readLog ++ [request] }) s ∧
    (∀ fewer, fewer ≤ s.requests.length → onCallbackStart.whileLoop ext fewer s = none) :=
  ⟨whileLoop_eq_loop ext s.requests fuel s rfl hfuel, onCallbackStart_requests ext s,
   onCallbackStart_readLog ext s, loop_eq_foldl ext s.requests s rfl,
   fun fewer h => whileLoop_out_of_fuel ext s.requests fewer s rfl h⟩

/-- C13 with declining collaborators and three pending requests (an
unknown rack, a declined effect add, an unknown kind): four units of fuel
suffice, and the three answers come in queue order: NO_SUCH_RACK,
INVALID_REQUEST, UNHANDLED_MESSAGE_TYPE. -/
theorem C13_drain_terminates_fifo_witness :
    onCallbackStart.whileLoop declineAll 4
        (exampleManager [7] [] [3] []
          [exampleRequest MessageType.ADD_CHAIN_TO_RACK 5 9 false,
           exampleRequest MessageType.ADD_EFFECT_TO_CHAIN 3 6 false,
           exampleRequest (MessageType.OTHER 11) 0 0 false]) =
      some (onCallbackStart declineAll
        (exampleManager [7] [] [3] []
          [exampleRequest MessageType.ADD_CHAIN_TO_RACK 5 9 false,
           exampleRequest MessageType.ADD_EFFECT_TO_CHAIN 3 6 false,
           exampleRequest (MessageType.OTHER 11) 0 0 false])) ∧
    (onCallbackStart declineAll
        (exampleManager [7] [] [3] []
          [exampleRequest MessageType.ADD_CHAIN_TO_RACK 5 9 false,
           exampleRequest MessageType.ADD_EFFECT_TO_CHAIN 3 6 false,
           exampleRequest (MessageType.OTHER 11) 0 0 false])).responses.map
        (fun r => r.status) =
      [StatusCode.NO_SUCH_RACK, StatusCode.INVALID_REQUEST,
       StatusCode.UNHANDLED_MESSAGE_TYPE] :=
  ⟨(C13_drain_terminates_fifo declineAll
      (exampleManager [7] [] [3] []
        [exampleRequest MessageType.ADD_CHAIN_TO_RACK 5 9 false,
         exampleRequest MessageType.ADD_EFFECT_TO_CHAIN 3 6 false,
         exampleRequest (MessageType.OTHER 11) 0 0 false]) 4 (by decide)).1,
   by decide⟩

/-- C14. A processed add is visible to every later request, in the same
or a later batch. First, draining two runs of requests in one callback start
is the same as draining them in two successive callback starts. Second, after
any run of calls from the freshly constructed manager, if the last processed
add or remove naming chain C is an add (a processed ADD_CHAIN_TO_RACK of C
with no processed removal of C after it), then C is in the master chain list
and a request targeting C is forwarded to C with the lists of that moment; its
responses are what C writes, and INVALID_REQUEST from the manager only when C
declines, so never NO_SUCH_CHAIN. Third, the same for effect E,
ADD_EFFECT_TO_CHAIN and NO_SUCH_EFFECT. -/
theorem C14_processed_add_is_visible {σ : Type} (ext : Externals σ) :
    (∀ (a b : List EffectsRequest) (s : EngineEffectsManager σ), s.requests = [] →
      runCalls ext [ManagerCall.onCallbackStart (a ++ b)] s =
        runCalls ext [ManagerCall.onCallbackStart a, ManagerCall.onCallbackStart b] s) ∧
    (∀ (calls : List ManagerCall) (b1 b2 : CSAMPLEPtr) (mem : Memory) (w : σ)
      (t : EngineEffectsManager σ) (later : EffectsRequest),
      t = runCalls ext calls (EngineEffectsManager.new b1 b2 mem w) →
      later.type.chainTargeted = true →
      lastEditOf later.pTargetChain (t.forwardLog.filterMap Forwarded.chainEdit) =
        some (Edit.add later.pTargetChain) →
      later.pTargetChain ∈ t.m_chains ∧
      (runCalls ext (calls ++ [ManagerCall.onCallbackStart [later]])
          (EngineEffectsManager.new b1 b2 mem w)).forwardLog =
        t.forwardLog ++ [⟨Target.chain later.pTargetChain, later, t.m_preFaderRacks,
          t.m_postFaderRacks, t.m_chains, t.m_effects,
          (ext.chainRequest later.pTargetChain later t.world).1⟩] ∧
      (runCalls ext (calls ++ [ManagerCall.onCallbackStart [later]])
          (EngineEffectsManager.new b1 b2 mem w)).responses =
        t.responses ++ (ext.chainRequest later.pTargetChain later t.world).2.1 ++
          (if (ext.chainRequest later.pTargetChain later t.world).1 then []
            else [{ request := later, success := false,
                    status := StatusCode.INVALID_REQUEST }])) ∧
    (∀ (calls : List ManagerCall) (b1 b2 : CSAMPLEPtr) (mem : Memory) (w : σ)
      (t : EngineEffectsManager σ) (later : EffectsRequest),
      t = runCalls ext calls (EngineEffectsManager.new b1 b2 mem w) →
      later.type.effectTargeted = true →
      lastEditOf later.pTargetEffect (t.forwardLog.filterMap Forwarded.effectEdit) =
        some (Edit.add later.pTargetEffect) →
      later.pTargetEffect ∈ t.m_effects ∧
      (runCalls ext (calls ++ [ManagerCall.onCallbackStart [later]])
          (EngineEffectsManager.new b1 b2 mem w)).forwardLog =
        t.forwardLog ++ [⟨Target.effect later.pTargetEffect, later, t.m_preFaderRacks,
          t.m_postFaderRacks, t.m_chains, t.m_effects,
          (ext.effectRequest later.pTargetEffect later t.world).1⟩] ∧
      (runCalls ext (calls ++ [ManagerCall.onCallbackStart [later]])
          (EngineEffectsManager.new b1 b2 mem w)).responses =
        t.responses ++ (ext.effectRequest later.pTargetEffect later t.world).2.1 ++
          (if (ext.effectRequest later.pTargetEffect later t.world).1 then []
            else [{ request := later, success := false,
                    status := StatusCode.INVALID_REQUEST }])) := by
  refine ⟨fun a b s hq => runCalls_split_batch ext a b s hq,
    fun calls b1 b2 mem w t later ht hk hlast => ?_,
    fun calls b1 b2 mem w t later ht hk hlast => ?_⟩
  · obtain ⟨hinv, hreq, _⟩ := runCalls_invariant ext calls
      (EngineEffectsManager.new b1 b2 mem w) (netInvariant_new b1 b2 mem w) rfl
    rw [← ht] at hinv hreq
    have hmem : later.pTargetChain ∈ t.m_chains := (hinv.1 _).mpr hlast
    have hb := body_chain_forwarded ext later
      { t with requests := [], readLog := t.readLog ++ [later] } hk hmem
    refine ⟨hmem, ?_, ?_⟩
    · rw [runCalls_snoc, ← ht]
      simp only [ManagerCall.apply, hreq, List.nil_append]
      rw [onCallbackStart_singleton ext _ later rfl]
      exact hb.1
    · rw [runCalls_snoc, ← ht]
      simp only [ManagerCall.apply, hreq, List.nil_append]
      rw [onCallbackStart_singleton ext _ later rfl]
      exact hb.2
  · obtain ⟨hinv, hreq, _⟩ := runCalls_invariant ext calls
      (EngineEffectsManager.new b1 b2 mem w) (netInvariant_new b1 b2 mem w) rfl
    rw [← ht] at hinv hreq
    have hmem : later.pTargetEffect ∈ t.m_effects := (hinv.2.1 _).mpr hlast
    have hb := body_effect_forwarded ext later
      { t with requests := [], readLog := t.readLog ++ [later] } hk hmem
    refine ⟨hmem, ?_, ?_⟩
    · rw [runCalls_snoc, ← ht]
      simp only [ManagerCall.apply, hreq, List.nil_append]
      rw [onCallbackStart_singleton ext _ later rfl]
      exact hb.1
    · rw [runCalls_snoc, ← ht]
      simp only [ManagerCall.apply, hreq, List.nil_append]
      rw [onCallbackStart_singleton ext _ later rfl]
      exact hb.2

/-- C14 with accepting collaborators: after a callback start that adds
rack 7 and chain 9 to it, chain 9 is in the master chain list, so that a later
ADD_EFFECT_TO_CHAIN targeting chain 9 passes the identity check. -/
theorem C14_processed_add_is_visible_witness :
    9 ∈ (runCalls acceptAll
        [ManagerCall.onCallbackStart
          [exampleRequest MessageType.ADD_EFFECT_RACK 0 7 true,
           exampleRequest MessageType.ADD_CHAIN_TO_RACK 7 9 false]]
        (EngineEffectsManager.new 1 2 (fun _ => []) ())).m_chains :=
  ((C14_processed_add_is_visible acceptAll).2.1
    [ManagerCall.onCallbackStart
      [exampleRequest MessageType.ADD_EFFECT_RACK 0 7 true,
       exampleRequest MessageType.ADD_CHAIN_TO_RACK 7 9 false]]
    1 2 (fun _ => []) () _ (exampleRequest MessageType.ADD_EFFECT_TO_CHAIN 9 5 false) rfl rfl
    (by decide)).1

/-- C15. In-place pass-through. With SampleUtil as modelled from the
spec, processInner called with the same buffer as input and output, unity old
and new gain and a rack list without a non-null rack leaves the manager, and
with it the buffer, exactly as it was, for every buffer and sample count. -/
theorem C15_in_place_unity_no_racks {σ : Type} (ext : Externals σ)
    (hutil : ext.usesSampleUtil) (racks : List EngineEffectRackPtr)
    (hnull : ∀ r ∈ racks, r = nullptr) (ih oh : ChannelHandle) (p : CSAMPLEPtr)
    (n rate : Nat) (gf : GroupFeatureState) (s : EngineEffectsManager σ) :
    processInner ext racks ih oh p p n rate gf CSAMPLE_GAIN_ONE CSAMPLE_GAIN_ONE s = s ∧
    (processInner ext racks ih oh p p n rate gf CSAMPLE_GAIN_ONE CSAMPLE_GAIN_ONE s).memory p =
      s.memory p := by
  have h : processInner ext racks ih oh p p n rate gf CSAMPLE_GAIN_ONE CSAMPLE_GAIN_ONE s = s := by
    rw [processInner_nonNull, nonNullRacks_of_all_null racks hnull, processInner_inPlace,
      hutil.1, applyRampingGain_unity, Memory_write_self]
    rfl
  exact ⟨h, by rw [h]⟩

/-- C15 on the example memory: buffer 10 is [1, 2, 3, 4] after the call
as before. -/
theorem C15_in_place_unity_no_racks_witness :
    exampleAudio.usesSampleUtil ∧ (∀ r ∈ [nullptr, nullptr], r = nullptr) ∧
    (processInner exampleAudio [nullptr, nullptr] 0 0 10 10 4 44100 0 CSAMPLE_GAIN_ONE
      CSAMPLE_GAIN_ONE (exampleAudioManager [])).memory 10 = [1, 2, 3, 4] :=
  ⟨exampleAudio_usesSampleUtil, by simp,
    (C15_in_place_unity_no_racks exampleAudio exampleAudio_usesSampleUtil [nullptr, nullptr]
      (by simp) 0 0 10 4 44100 0 (exampleAudioManager [])).2⟩

/-- C16. Mix path with one rack that reports no modification. With
SampleUtil as modelled from the spec, racks that write only the buffers they
are handed and not their input when it differs from their output, scratch
buffers apart from the caller's buffers and holding at least numSamples
samples: after processInner with the rack list [pRack] and input other than
output, every output sample i below numSamples is the output sample before
plus the input sample times the gain of the linear ramp at i; with unity old
and new gain it is the output sample before plus the input sample. -/
theorem C16_mix_one_idle_rack {σ : Type} (ext : Externals σ)
    (hutil : ext.usesSampleUtil) (hwrite : ext.racksWriteOnlyArguments)
    (hkeep : ext.racksKeepInput) (pRack : EngineEffectRackPtr)
    (hidle : ext.reportsNotModified pRack)
    (ih oh : ChannelHandle) (pIn pOut : CSAMPLEPtr) (n rate : Nat) (gf : GroupFeatureState)
    (og ng : CSAMPLE_GAIN) (s : EngineEffectsManager σ)
    (hne : pIn ≠ pOut) (hapart : s.scratchApart pIn pOut)
    (hlen : n ≤ (s.memory s.m_buffer1).length)
    (i : Nat) (hi : i < n) (hout : i < (s.memory pOut).length) :
    ((processInner ext [pRack] ih oh pIn pOut n rate gf og ng s).memory pOut).getD i 0 =
      (s.memory pOut).getD i 0 + (s.memory pIn).getD i 0 * SampleUtil.rampGain og ng n i ∧
    (og = CSAMPLE_GAIN_ONE → ng = CSAMPLE_GAIN_ONE →
      ((processInner ext [pRack] ih oh pIn pOut n rate gf og ng s).memory pOut).getD i 0 =
        (s.memory pOut).getD i 0 + (s.memory pIn).getD i 0) := by
  have main : ((processInner ext [pRack] ih oh pIn pOut n rate gf og ng s).memory pOut).getD i 0 =
      (s.memory pOut).getD i 0 + (s.memory pIn).getD i 0 * SampleUtil.rampGain og ng n i := by
    obtain ⟨hb, hi1, hi2, ho1, ho2⟩ := hapart
    obtain ⟨sa, sb, _, sd⟩ := mixStart_frame ext pIn n og ng s
    have hb0 : (processInner.mixStart ext pIn n og ng s).2.m_buffer1 ≠
        (processInner.mixStart ext pIn n og ng s).2.m_buffer2 := by rw [sa, sb]; exact hb
    obtain ⟨_, _, _, ld⟩ := mixLoop_frame ext hwrite hkeep ih oh n rate gf [pRack]
      (processInner.mixStart ext pIn n og ng s).1 (processInner.mixStart ext pIn n og ng s).2 hb0
    rw [sa, sb] at ld
    obtain ⟨e1, e2⟩ := mixLoop_single_idle ext hkeep pRack hidle ih oh n rate gf
      (processInner.mixStart ext pIn n og ng s).1 (processInner.mixStart ext pIn n og ng s).2 hb0
    rw [processInner_mix ext _ ih oh pIn pOut n rate gf og ng s hne]
    show (Memory.write _ _ _ _).getD i 0 = _
    rw [Memory_write_same, e1, e2, (ld pOut ho1 ho2).trans (sd pOut ho1), hutil.2.2,
      add_getD _ _ _ _ hi hout, mixStart_ramped ext hutil pIn n og ng s hlen i hi]
  refine ⟨main, fun h1 h2 => ?_⟩
  rw [main, h1, h2, rampGain_unity, mul_one]

/-- C16 on the example memory with the idle rack 4 and a ramp from 0 to
1 over four samples: sample 1 of the output is 20 + 2 * (2 / 4) = 21. -/
theorem C16_mix_one_idle_rack_witness :
    exampleAudio.reportsNotModified 4 ∧ (exampleAudioManager []).scratchApart 10 11 ∧
    ((processInner exampleAudio [4] 0 0 10 11 4 44100 0 0 1
      (exampleAudioManager [])).memory 11).getD 1 0 = 21 := by
  refine ⟨exampleAudio_even_reportsNotModified, exampleAudioManager_scratchApart [], ?_⟩
  rw [(C16_mix_one_idle_rack exampleAudio exampleAudio_usesSampleUtil
    exampleAudio_racksWriteOnlyArguments exampleAudio_racksKeepInput 4
    exampleAudio_even_reportsNotModified 0 0 10 11 4 44100 0 0 1 (exampleAudioManager [])
    (by decide) (exampleAudioManager_scratchApart []) (by simp [exampleAudioManager, exampleMemory])
    1 (by decide) (by simp [exampleAudioManager, exampleMemory])).1]
  norm_num [exampleAudioManager, exampleMemory, SampleUtil.rampGain]

/-- C17. Mix path with racks [A, B], A reporting a modification and B
reporting none, racks writing only the buffers they are handed and not their
input when it differs from their output, scratch buffers apart from the
caller's: the output buffer ends as SampleUtil::add of the output before and
the buffer A wrote, A having run on the ramped input (the input itself at
unity gain). With SampleUtil as modelled from the spec, sample by sample:
output before plus the output of A; and the input A ran on is the input times
the ramp gain. The racks called are A, from the ramped input into its output
buffer, and then B unless it is null, from the output buffer of A into the
other scratch buffer, which is not the one mixed. -/
theorem C17_modified_then_idle {σ : Type} (ext : Externals σ)
    (hwrite : ext.racksWriteOnlyArguments) (hkeep : ext.racksKeepInput)
    (A B : EngineEffectRackPtr) (hnull : A ≠ nullptr)
    (hA : ext.reportsModified A) (hB : ext.reportsNotModified B)
    (ih oh : ChannelHandle) (pIn pOut : CSAMPLEPtr) (n rate : Nat) (gf : GroupFeatureState)
    (og ng : CSAMPLE_GAIN) (s : EngineEffectsManager σ)
    (hne : pIn ≠ pOut) (hapart : s.scratchApart pIn pOut) :
    ∃ (rampedInput outputOfA : CSAMPLEPtr) (afterA : Memory),
      rampedInput = (processInner.mixStart ext pIn n og ng s).1 ∧
      outputOfA = (if rampedInput = s.m_buffer1 then s.m_buffer2 else s.m_buffer1) ∧
      afterA = (ext.rackProcess A ih oh rampedInput outputOfA n rate gf
        (processInner.mixStart ext pIn n og ng s).2.memory s.world).2.1 ∧
      (processInner ext [A, B] ih oh pIn pOut n rate gf og ng s).memory pOut =
        ext.add (s.memory pOut) (afterA outputOfA) n ∧
      (ext.usesSampleUtil → ∀ i, i < n → i < (s.memory pOut).length →
        ((processInner ext [A, B] ih oh pIn pOut n rate gf og ng s).memory pOut).getD i 0 =
          (s.memory pOut).getD i 0 + (afterA outputOfA).getD i 0) ∧
      (ext.usesSampleUtil → n ≤ (s.memory s.m_buffer1).length → ∀ i, i < n →
        ((processInner.mixStart ext pIn n og ng s).2.memory rampedInput).getD i 0 =
          (s.memory pIn).getD i 0 * SampleUtil.rampGain og ng n i) ∧
      (processInner ext [A, B] ih oh pIn pOut n rate gf og ng s).processLog =
        s.processLog ++ [⟨A, ih, oh, rampedInput, outputOfA, n, rate, gf, true⟩] ++
          (if B = nullptr then []
           else [⟨B, ih, oh, outputOfA,
             (if outputOfA = s.m_buffer1 then s.m_buffer2 else s.m_buffer1), n, rate, gf,
             false⟩]) ∧
      (if outputOfA = s.m_buffer1 then s.m_buffer2 else s.m_buffer1) ≠ outputOfA := by
  obtain ⟨hb, hi1, hi2, ho1, ho2⟩ := hapart
  obtain ⟨sa, sb, _, sd⟩ := mixStart_frame ext pIn n og ng s
  have hb0 : (processInner.mixStart ext pIn n og ng s).2.m_buffer1 ≠
      (processInner.mixStart ext pIn n og ng s).2.m_buffer2 := by rw [sa, sb]; exact hb
  obtain ⟨_, _, _, ld⟩ := mixLoop_frame ext hwrite hkeep ih oh n rate gf [A, B]
    (processInner.mixStart ext pIn n og ng s).1 (processInner.mixStart ext pIn n og ng s).2 hb0
  rw [sa, sb] at ld
  have hw : (processInner.mixStart ext pIn n og ng s).2.world = s.world := by
    simp only [processInner.mixStart]; split <;> rfl
  have hstep : processInner.mixLoop ext ih oh n rate gf [A, B]
      (processInner.mixStart ext pIn n og ng s).1 (processInner.mixStart ext pIn n og ng s).2 =
      processInner.mixLoop ext ih oh n rate gf [B]
        (if (processInner.mixStart ext pIn n og ng s).1 = s.m_buffer1 then s.m_buffer2
          else s.m_buffer1)
        (callRackProcess ext A ih oh (processInner.mixStart ext pIn n og ng s).1
          (if (processInner.mixStart ext pIn n og ng s).1 = s.m_buffer1 then s.m_buffer2
            else s.m_buffer1) n rate gf (processInner.mixStart ext pIn n og ng s).2).2 := by
    have hr : ∀ po, (callRackProcess ext A ih oh (processInner.mixStart ext pIn n og ng s).1 po
        n rate gf (processInner.mixStart ext pIn n og ng s).2).1 = true :=
      fun po => hA ih oh _ po n rate gf _ _
    conv_lhs => unfold processInner.mixLoop
    simp only [ne_eq, hnull, not_false_eq_true, if_true, hr, sa, sb]
  have hbA : (callRackProcess ext A ih oh (processInner.mixStart ext pIn n og ng s).1
      (if (processInner.mixStart ext pIn n og ng s).1 = s.m_buffer1 then s.m_buffer2
        else s.m_buffer1) n rate gf (processInner.mixStart ext pIn n og ng s).2).2.m_buffer1 ≠
      (callRackProcess ext A ih oh (processInner.mixStart ext pIn n og ng s).1
      (if (processInner.mixStart ext pIn n og ng s).1 = s.m_buffer1 then s.m_buffer2
        else s.m_buffer1) n rate gf (processInner.mixStart ext pIn n og ng s).2).2.m_buffer2 :=
    hb0
  obtain ⟨e1, e2⟩ := mixLoop_single_idle ext hkeep B hB ih oh n rate gf _ _ hbA
  have hmix : (processInner ext [A, B] ih oh pIn pOut n rate gf og ng s).memory pOut =
      ext.add (s.memory pOut)
        ((ext.rackProcess A ih oh (processInner.mixStart ext pIn n og ng s).1
          (if (processInner.mixStart ext pIn n og ng s).1 = s.m_buffer1 then s.m_buffer2
            else s.m_buffer1) n rate gf
          (processInner.mixStart ext pIn n og ng s).2.memory s.world).2.1
          (if (processInner.mixStart ext pIn n og ng s).1 = s.m_buffer1 then s.m_buffer2
            else s.m_buffer1)) n := by
    rw [processInner_mix ext _ ih oh pIn pOut n rate gf og ng s hne]
    show Memory.write _ _ _ _ = _
    rw [Memory_write_same, (ld pOut ho1 ho2).trans (sd pOut ho1), hstep, e1, e2]
    simp only [callRackProcess, hw]
  have hl : (processInner.mixStart ext pIn n og ng s).2.processLog = s.processLog := by
    simp only [processInner.mixStart]; split <;> rfl
  refine ⟨_, _, _, rfl, rfl, rfl, hmix, fun hutil i hi hout => ?_, fun hutil hlen i hi => ?_,
    ?_, ?_⟩
  · rw [hmix, hutil.2.2, add_getD _ _ _ _ hi hout]
  · exact mixStart_ramped ext hutil pIn n og ng s hlen i hi
  · rw [processInner_mix ext _ ih oh pIn pOut n rate gf og ng s hne]
    show (processInner.mixLoop ext ih oh n rate gf [A, B] _ _).2.processLog = _
    rw [hstep]
    by_cases h : B = nullptr
    · subst h
      simp only [processInner.mixLoop, ne_eq, not_true_eq_false, if_false, if_true,
        callRackProcess, hl, hw, List.append_nil]
      rw [hA]
    · have hr : ∀ pi po t, (callRackProcess ext B ih oh pi po n rate gf t).1 = false :=
        fun pi po t => hB ih oh pi po n rate gf t.memory t.world
      simp only [processInner.mixLoop, ne_eq, h, not_false_eq_true, if_true, hr,
        Bool.false_eq_true, if_false]
      simp only [callRackProcess, hl, hw, sa, sb]
      rw [hA, hB]
  · by_cases hp : (processInner.mixStart ext pIn n og ng s).1 = s.m_buffer1
    · simp only [hp, if_true, hb.symm, if_false]
      exact hb
    · simp only [hp, if_false, if_true]
      exact hb.symm

/-- C17 on the example memory with the doubling rack 3 and the idle rack
4 at unity gain: rack 3 reads buffer 10 and writes [2, 4, 6, 8] to scratch
buffer 1, and the output [10, 20, 30, 40] becomes [12, 24, 36, 48]. -/
theorem C17_modified_then_idle_witness :
    exampleAudio.reportsModified 3 ∧ exampleAudio.reportsNotModified 4 ∧
    ∃ (rampedInput outputOfA : CSAMPLEPtr) (afterA : Memory),
      rampedInput = 10 ∧ outputOfA = 1 ∧ afterA 1 = [2, 4, 6, 8] ∧
      (processInner exampleAudio [3, 4] 0 0 10 11 4 44100 0 1 1
        (exampleAudioManager [])).memory 11 = [12, 24, 36, 48] := by
  refine ⟨exampleAudio_odd_reportsModified, exampleAudio_even_reportsNotModified, ?_⟩
  obtain ⟨x, y, m, hx, hy, hm, h, _⟩ := C17_modified_then_idle exampleAudio
    exampleAudio_racksWriteOnlyArguments exampleAudio_racksKeepInput 3 4 (by decide)
    exampleAudio_odd_reportsModified exampleAudio_even_reportsNotModified 0 0 10 11 4 44100 0 1 1
    (exampleAudioManager []) (by decide) (exampleAudioManager_scratchApart [])
  have hx1 : x = 10 := by rw [hx]; rfl
  have hy1 : y = 1 := by rw [hy, hx1]; rfl
  have hm1 : m 1 = [2, 4, 6, 8] := by
    rw [hm, hx1, hy1]
    simp [exampleAudio, exampleAudioManager, exampleMemory, processInner.mixStart,
      CSAMPLE_GAIN_ONE, Memory.write]
    norm_num
  refine ⟨x, y, m, hx1, hy1, hm1, ?_⟩
  rw [h, hy1, hm1]
  simp [exampleAudio, exampleAudioManager, exampleMemory, SampleUtil.add, SampleUtil.overwrite,
    List.range_succ]
  norm_num

/-- C18. Null entries of the rack list are skipped. For every rack list,
buffers and gains, processInner returns the same manager (buffers, external
state, record of rack calls) as on the list without its null entries, in the
in-place and in the mix path. A list of null entries only gives what the
empty list gives, which is: in place, the buffer with the gain ramp applied
and nothing else; in the mix path, the start of the mix branch (the ramped
copy of the input, or the input itself at unity gain) added to the output. -/
theorem C18_null_racks_are_skipped {σ : Type} (ext : Externals σ)
    (racks : List EngineEffectRackPtr) (ih oh : ChannelHandle) (pIn pOut : CSAMPLEPtr)
    (n rate : Nat) (gf : GroupFeatureState) (og ng : CSAMPLE_GAIN)
    (s : EngineEffectsManager σ) :
    processInner ext racks ih oh pIn pOut n rate gf og ng s =
      processInner ext (nonNullRacks racks) ih oh pIn pOut n rate gf og ng s ∧
    ((∀ r ∈ racks, r = nullptr) →
      processInner ext racks ih oh pIn pOut n rate gf og ng s =
        processInner ext [] ih oh pIn pOut n rate gf og ng s) ∧
    (pIn = pOut →
      processInner ext [] ih oh pIn pOut n rate gf og ng s =
        { s with
          memory := s.memory.write pIn (ext.applyRampingGain (s.memory pIn) og ng n) }) ∧
    (pIn ≠ pOut →
      processInner ext [] ih oh pIn pOut n rate gf og ng s =
        { (processInner.mixStart ext pIn n og ng s).2 with
          memory := (processInner.mixStart ext pIn n og ng s).2.memory.write pOut
            (ext.add ((processInner.mixStart ext pIn n og ng s).2.memory pOut)
              ((processInner.mixStart ext pIn n og ng s).2.memory
                (processInner.mixStart ext pIn n og ng s).1) n) }) := by
  refine ⟨processInner_nonNull ext racks ih oh pIn pOut n rate gf og ng s, fun h => ?_,
    fun h => ?_, fun h => ?_⟩
  · rw [processInner_nonNull, nonNullRacks_of_all_null racks h]
  · subst h
    rw [processInner_inPlace]
    rfl
  · rw [processInner_mix ext [] ih oh pIn pOut n rate gf og ng s h]
    rfl

/-- C19. The in-place path for every rack list. The result is the left
fold, over the non-null racks in list order, of one process call with the
caller's buffer as input and as output, started from the manager in which the
buffer is the gain ramp applied once to the input: what a rack returns is not
used. In terms of sample memory and external state: the final buffers are the
composition of the racks' transformations, in list order, applied to the
ramped input. The rack calls recorded are exactly one per non-null rack, in
list order, each with the caller's buffer as input and as output. -/
theorem C19_in_place_ramp_then_racks {σ : Type} (ext : Externals σ)
    (racks : List EngineEffectRackPtr) (ih oh : ChannelHandle) (p : CSAMPLEPtr)
    (n rate : Nat) (gf : GroupFeatureState) (og ng : CSAMPLE_GAIN)
    (s : EngineEffectsManager σ) :
    processInner ext racks ih oh p p n rate gf og ng s =
      (nonNullRacks racks).foldl
        (fun u pRack => (callRackProcess ext pRack ih oh p p n rate gf u).2)
        { s with memory := s.memory.write p (ext.applyRampingGain (s.memory p) og ng n) } ∧
    (((processInner ext racks ih oh p p n rate gf og ng s).memory,
      (processInner ext racks ih oh p p n rate gf og ng s).world) : Memory × σ) =
      (nonNullRacks racks).foldl
        (fun mw pRack => (ext.rackProcess pRack ih oh p p n rate gf mw.1 mw.2).2)
        (s.memory.write p (ext.applyRampingGain (s.memory p) og ng n), s.world) ∧
    ∃ calls,
      (processInner ext racks ih oh p p n rate gf og ng s).processLog =
        s.processLog ++ calls ∧
      calls.map ProcessCall.arguments =
        (nonNullRacks racks).map (fun pRack => (pRack, ih, oh, p, p, n, rate, gf)) := by
  have h := processInner_inPlace ext racks ih oh p n rate gf og ng s
  rw [inPlaceLoop_eq_foldl] at h
  refine ⟨h, ?_, ?_⟩
  · rw [h, foldl_callRackProcess_memory_world]
  · rw [h]
    exact foldl_callRackProcess_processLog ext ih oh p n rate gf (nonNullRacks racks) _

/-- C20. processPostFaderAndMix with input other than output, racks that
write only the buffers they are handed and not their input when it differs
from their output, and scratch buffers apart from the caller's buffers: the
input buffer is after the call what it was before; so is every buffer
other than the output and the two scratch buffers of the manager; and the
output buffer is SampleUtil::add of the output before and the result of the
rack loop (the last intermediate buffer), not an overwrite. -/
theorem C20_mix_keeps_input {σ : Type} (ext : Externals σ)
    (hwrite : ext.racksWriteOnlyArguments) (hkeep : ext.racksKeepInput)
    (ih oh : ChannelHandle) (pIn pOut : CSAMPLEPtr) (n rate : Nat) (gf : GroupFeatureState)
    (og ng : CSAMPLE_GAIN) (s : EngineEffectsManager σ)
    (hne : pIn ≠ pOut) (hapart : s.scratchApart pIn pOut) :
    (processPostFaderAndMix ext ih oh pIn pOut n rate gf og ng s).memory pIn = s.memory pIn ∧
    (∀ q, q ≠ pOut → q ≠ s.m_buffer1 → q ≠ s.m_buffer2 →
      (processPostFaderAndMix ext ih oh pIn pOut n rate gf og ng s).memory q = s.memory q) ∧
    ∃ result : Buffer,
      (processPostFaderAndMix ext ih oh pIn pOut n rate gf og ng s).memory pOut =
        ext.add (s.memory pOut) result n ∧
      result =
        (processInner.mixLoop ext ih oh n rate gf s.m_postFaderRacks
          (processInner.mixStart ext pIn n og ng s).1
          (processInner.mixStart ext pIn n og ng s).2).2.memory
        (processInner.mixLoop ext ih oh n rate gf s.m_postFaderRacks
          (processInner.mixStart ext pIn n og ng s).1
          (processInner.mixStart ext pIn n og ng s).2).1 := by
  obtain ⟨hb, hi1, hi2, ho1, ho2⟩ := hapart
  obtain ⟨sa, sb, _, sd⟩ := mixStart_frame ext pIn n og ng s
  have hb0 : (processInner.mixStart ext pIn n og ng s).2.m_buffer1 ≠
      (processInner.mixStart ext pIn n og ng s).2.m_buffer2 := by rw [sa, sb]; exact hb
  obtain ⟨_, _, _, ld⟩ := mixLoop_frame ext hwrite hkeep ih oh n rate gf s.m_postFaderRacks
    (processInner.mixStart ext pIn n og ng s).1 (processInner.mixStart ext pIn n og ng s).2 hb0
  rw [sa, sb] at ld
  have hq : ∀ q, q ≠ s.m_buffer1 → q ≠ s.m_buffer2 →
      (processInner.mixLoop ext ih oh n rate gf s.m_postFaderRacks
        (processInner.mixStart ext pIn n og ng s).1
        (processInner.mixStart ext pIn n og ng s).2).2.memory q = s.memory q :=
    fun q h1 h2 => (ld q h1 h2).trans (sd q h1)
  simp only [processPostFaderAndMix]
  rw [processInner_mix ext _ ih oh pIn pOut n rate gf og ng s hne]
  refine ⟨?_, fun q h0 h1 h2 => ?_, _, ?_, rfl⟩
  · show Memory.write _ _ _ _ = _
    rw [Memory_write_other _ _ _ _ hne]
    exact hq pIn hi1 hi2
  · show Memory.write _ _ _ _ = _
    rw [Memory_write_other _ _ _ _ h0]
    exact hq q h1 h2
  · show Memory.write _ _ _ _ = _
    rw [Memory_write_same, hq pOut ho1 ho2]

/-- C20 on the example memory with the post-fader racks [3, 4]: the
input buffer 10 is [1, 2, 3, 4] after the call as before. -/
theorem C20_mix_keeps_input_witness :
    exampleAudio.racksKeepInput ∧ (exampleAudioManager [3, 4]).scratchApart 10 11 ∧
    (processPostFaderAndMix exampleAudio 0 0 10 11 4 44100 0 1 1
      (exampleAudioManager [3, 4])).memory 10 = [1, 2, 3, 4] :=
  ⟨exampleAudio_racksKeepInput, exampleAudioManager_scratchApart [3, 4],
    (C20_mix_keeps_input exampleAudio exampleAudio_racksWriteOnlyArguments
      exampleAudio_racksKeepInput 0 0 10 11 4 44100 0 1 1 (exampleAudioManager [3, 4])
      (by decide) (exampleAudioManager_scratchApart [3, 4])).1⟩

/-- C21. Each entry point runs the racks of its own list. From any manager
and for any handles, sample count and rate: processPreFaderInPlace is the
left fold, over the non-null racks of the pre-fader list in list order, of
one process call with the buffer as input and as output, started from the
buffer with the gain ramp from unity to unity applied; the rack calls it
records are those racks in that order, each with the buffer as input and as
output, and every rack called is a non-null member of the pre-fader list, so
a rack that is only in the post-fader list is not called.
processPostFaderInPlace records exactly the non-null racks of the post-fader
list, in order, each with the buffer as input and as output, and
processPostFaderAndMix exactly the non-null racks of the post-fader list, in
order; every rack they call is a non-null member of the post-fader list. -/
theorem C21_entry_points_use_their_rack_list {σ : Type} (ext : Externals σ)
    (ih oh : ChannelHandle) (n rate : Nat) (s : EngineEffectsManager σ) :
    (∀ pInOut : CSAMPLEPtr,
      processPreFaderInPlace ext ih oh pInOut n rate s =
        (nonNullRacks s.m_preFaderRacks).foldl
          (fun u pRack =>
            (callRackProcess ext pRack ih oh pInOut pInOut n rate ext.defaultFeatureState u).2)
          { s with
            memory := s.memory.write pInOut
              (ext.applyRampingGain (s.memory pInOut) CSAMPLE_GAIN_ONE CSAMPLE_GAIN_ONE n) } ∧
      ∃ calls : List ProcessCall,
        (processPreFaderInPlace ext ih oh pInOut n rate s).processLog = s.processLog ++ calls ∧
        calls.map (fun c => c.pRack) = nonNullRacks s.m_preFaderRacks ∧
        (∀ c ∈ calls, c.pInput = pInOut ∧ c.pOutput = pInOut) ∧
        (∀ c ∈ calls, c.pRack ∈ s.m_preFaderRacks ∧ c.pRack ≠ nullptr)) ∧
    (∀ (pInOut : CSAMPLEPtr) (gf : GroupFeatureState) (og ng : CSAMPLE_GAIN),
      ∃ calls : List ProcessCall,
        (processPostFaderInPlace ext ih oh pInOut n rate gf og ng s).processLog =
          s.processLog ++ calls ∧
        calls.map (fun c => c.pRack) = nonNullRacks s.m_postFaderRacks ∧
        (∀ c ∈ calls, c.pInput = pInOut ∧ c.pOutput = pInOut) ∧
        (∀ c ∈ calls, c.pRack ∈ s.m_postFaderRacks ∧ c.pRack ≠ nullptr)) ∧
    (∀ (pIn pOut : CSAMPLEPtr) (gf : GroupFeatureState) (og ng : CSAMPLE_GAIN),
      ∃ calls : List ProcessCall,
        (processPostFaderAndMix ext ih oh pIn pOut n rate gf og ng s).processLog =
          s.processLog ++ calls ∧
        calls.map (fun c => c.pRack) = nonNullRacks s.m_postFaderRacks ∧
        (∀ c ∈ calls, c.pRack ∈ s.m_postFaderRacks ∧ c.pRack ≠ nullptr)) := by
  have inPlace : ∀ (racks : List EngineEffectRackPtr) (p : CSAMPLEPtr) (gf : GroupFeatureState)
      (og ng : CSAMPLE_GAIN), ∃ calls : List ProcessCall,
      (processInner ext racks ih oh p p n rate gf og ng s).processLog = s.processLog ++ calls ∧
      calls.map (fun c => c.pRack) = nonNullRacks racks ∧
      (∀ c ∈ calls, c.pInput = p ∧ c.pOutput = p) ∧
      (∀ c ∈ calls, c.pRack ∈ racks ∧ c.pRack ≠ nullptr) := by
    intro racks p gf og ng
    rw [processInner_inPlace, inPlaceLoop_eq_foldl]
    obtain ⟨calls, h1, h2⟩ := foldl_callRackProcess_processLog ext ih oh p n rate gf
      (nonNullRacks racks)
      { s with memory := s.memory.write p (ext.applyRampingGain (s.memory p) og ng n) }
    obtain ⟨a, b⟩ := map_pRack_of_arguments calls _ ih oh p n rate gf h2
    exact ⟨calls, h1, a, fun c hc => ⟨(b c hc).2.2.1, (b c hc).2.2.2.1⟩,
      mem_of_map_pRack calls racks a⟩
  refine ⟨fun p => ⟨?_, inPlace s.m_preFaderRacks p ext.defaultFeatureState _ _⟩,
    fun p gf og ng => inPlace s.m_postFaderRacks p gf og ng, fun pIn pOut gf og ng => ?_⟩
  · simp only [processPreFaderInPlace]
    rw [processInner_inPlace, inPlaceLoop_eq_foldl]
  · obtain ⟨calls, h1, h2, _⟩ := processInner_log ext s.m_postFaderRacks ih oh pIn pOut n rate
      gf og ng s
    exact ⟨calls, h1, h2, mem_of_map_pRack calls _ h2⟩

/-- C22 fails: pre-fader processing computes no feature state, and the
state a post-fader rack receives is whatever the caller passes. On the
example manager with pre-fader rack 3 and post-fader rack 4:
processPreFaderInPlace hands rack 3 the default-constructed state 0, and the
following processPostFaderInPlace hands rack 4 the state 5 when called with 5
and the state 6 when called with 6, after the very same pre-fader call;
processPostFaderAndMix without any pre-fader call before it hands rack 4 the
state 7 it was called with. -/
theorem C22_counterexample :
    (runCalls exampleAudio
      [ManagerCall.processPreFaderInPlace 0 0 10 4 44100,
       ManagerCall.processPostFaderInPlace 0 0 10 4 44100 5 1 1]
      (exampleAudioManagerWith [3] [4])).processLog.map
        (fun c => (c.pRack, c.groupFeatures)) = [(3, 0), (4, 5)] ∧
    (runCalls exampleAudio
      [ManagerCall.processPreFaderInPlace 0 0 10 4 44100,
       ManagerCall.processPostFaderInPlace 0 0 10 4 44100 6 1 1]
      (exampleAudioManagerWith [3] [4])).processLog.map
        (fun c => (c.pRack, c.groupFeatures)) = [(3, 0), (4, 6)] ∧
    (runCalls exampleAudio
      [ManagerCall.processPostFaderAndMix 0 0 10 11 4 44100 7 1 1]
      (exampleAudioManagerWith [3] [4])).processLog.map
        (fun c => (c.pRack, c.groupFeatures)) = [(4, 7)] := by
  refine ⟨?_, ?_, ?_⟩ <;> rfl

/-- C22, amended. processPreFaderInPlace hands every non-null pre-fader
rack a default-constructed GroupFeatureState and computes none;
processPostFaderInPlace and processPostFaderAndMix hand every non-null
post-fader rack exactly the GroupFeatureState their caller passes in,
unmodified: the calls recorded are the non-null racks of the list in order,
each paired with that state. -/
theorem C22_feature_state_comes_from_the_caller {σ : Type} (ext : Externals σ)
    (ih oh : ChannelHandle) (n rate : Nat) (s : EngineEffectsManager σ) :
    (∀ pInOut : CSAMPLEPtr, ∃ calls : List ProcessCall,
      (processPreFaderInPlace ext ih oh pInOut n rate s).processLog = s.processLog ++ calls ∧
      calls.map (fun c => (c.pRack, c.groupFeatures)) =
        (nonNullRacks s.m_preFaderRacks).map (fun pRack => (pRack, ext.defaultFeatureState))) ∧
    (∀ (pInOut : CSAMPLEPtr) (gf : GroupFeatureState) (og ng : CSAMPLE_GAIN),
      ∃ calls : List ProcessCall,
        (processPostFaderInPlace ext ih oh pInOut n rate gf og ng s).processLog =
          s.processLog ++ calls ∧
        calls.map (fun c => (c.pRack, c.groupFeatures)) =
          (nonNullRacks s.m_postFaderRacks).map (fun pRack => (pRack, gf))) ∧
    (∀ (pIn pOut : CSAMPLEPtr) (gf : GroupFeatureState) (og ng : CSAMPLE_GAIN),
      ∃ calls : List ProcessCall,
        (processPostFaderAndMix ext ih oh pIn pOut n rate gf og ng s).processLog =
          s.processLog ++ calls ∧
        calls.map (fun c => (c.pRack, c.groupFeatures)) =
          (nonNullRacks s.m_postFaderRacks).map (fun pRack => (pRack, gf))) := by
  have key : ∀ (racks : List EngineEffectRackPtr) (pIn pOut : CSAMPLEPtr)
      (gf : GroupFeatureState) (og ng : CSAMPLE_GAIN), ∃ calls : List ProcessCall,
      (processInner ext racks ih oh pIn pOut n rate gf og ng s).processLog =
        s.processLog ++ calls ∧
      calls.map (fun c => (c.pRack, c.groupFeatures)) =
        (nonNullRacks racks).map (fun pRack => (pRack, gf)) := by
    intro racks pIn pOut gf og ng
    obtain ⟨calls, h1, h2, h3⟩ := processInner_log ext racks ih oh pIn pOut n rate gf og ng s
    refine ⟨calls, h1, ?_⟩
    rw [← h2, List.map_map]
    apply List.map_congr_left
    intro c hc
    simp [(h3 c hc).2.2.2.2]
  exact ⟨fun p => key s.m_preFaderRacks p p ext.defaultFeatureState _ _,
    fun p gf og ng => key s.m_postFaderRacks p p gf og ng,
    fun pIn pOut gf og ng => key s.m_postFaderRacks pIn pOut gf og ng⟩

/-- C23. The pointer comparison of the mix branch is the two-buffer state
machine of the spec. With input other than output and the caller's input not
the first scratch buffer: processInner equals `arenaMix`, the machine with an
explicit current slot that advances to the free scratch buffer only after a
stage that reports a modification. In terms of the recorded calls, one per
non-null rack in list order: the input of each call is the output of the last
earlier call that reported a modification, or the start buffer (the ramped
input) when none did; and what is added to the output buffer is, of the
memory when the loop ends, the output buffer of the last call that reported a
modification, or the start buffer when none did. -/
theorem C23_ping_pong_is_the_arena_machine {σ : Type} (ext : Externals σ)
    (racks : List EngineEffectRackPtr) (ih oh : ChannelHandle) (pIn pOut : CSAMPLEPtr)
    (n rate : Nat) (gf : GroupFeatureState) (og ng : CSAMPLE_GAIN)
    (s : EngineEffectsManager σ) (hne : pIn ≠ pOut) (hscratch : pIn ≠ s.m_buffer1) :
    processInner ext racks ih oh pIn pOut n rate gf og ng s =
      arenaMix ext racks ih oh pIn pOut n rate gf og ng s ∧
    ∃ (calls : List ProcessCall) (atEnd : Memory),
      (processInner ext racks ih oh pIn pOut n rate gf og ng s).processLog =
        s.processLog ++ calls ∧
      calls.map (fun c => c.pRack) = nonNullRacks racks ∧
      (∀ before c after, calls = before ++ c :: after →
        c.pInput = currentAfter (processInner.mixStart ext pIn n og ng s).1 before) ∧
      atEnd = (processInner.mixLoop ext ih oh n rate gf racks
        (processInner.mixStart ext pIn n og ng s).1
        (processInner.mixStart ext pIn n og ng s).2).2.memory ∧
      (processInner ext racks ih oh pIn pOut n rate gf og ng s).memory pOut =
        ext.add (atEnd pOut)
          (atEnd (currentAfter (processInner.mixStart ext pIn n og ng s).1 calls)) n := by
  refine ⟨processInner_eq_arenaMix ext racks ih oh pIn pOut n rate gf og ng s hne hscratch, ?_⟩
  obtain ⟨calls, h1, h2, _, h4, h5⟩ := mixLoop_log ext ih oh n rate gf racks
    (processInner.mixStart ext pIn n og ng s).1 (processInner.mixStart ext pIn n og ng s).2
  rw [(mixStart_log ext pIn n og ng s).1] at h1
  refine ⟨calls, _, ?_, h2, h4, rfl, ?_⟩
  · rw [processInner_mix ext racks ih oh pIn pOut n rate gf og ng s hne]
    exact h1
  · rw [processInner_mix ext racks ih oh pIn pOut n rate gf og ng s hne, ← h5]
    show Memory.write _ _ _ _ = _
    rw [Memory_write_same]

/-- C23 on the example memory with racks 4, 3, 4, 5, 4 (idle, modifying,
idle, modifying, idle) at unity gain: both machines agree, and the calls are
4 from 10 into 1, 3 from 10 into 1, 4 from 1 into 2, 5 from 1 into 2, 4 from
2 into 1. -/
theorem C23_ping_pong_is_the_arena_machine_witness :
    processInner exampleAudio [4, 3, 4, 5, 4] 0 0 10 11 4 44100 0 1 1 (exampleAudioManager []) =
      arenaMix exampleAudio [4, 3, 4, 5, 4] 0 0 10 11 4 44100 0 1 1 (exampleAudioManager []) ∧
    (arenaMix exampleAudio [4, 3, 4, 5, 4] 0 0 10 11 4 44100 0 1 1
      (exampleAudioManager [])).processLog.map (fun c => (c.pRack, c.pInput, c.pOutput,
        c.modified)) =
      [(4, 10, 1, false), (3, 10, 1, true), (4, 1, 2, false), (5, 1, 2, true),
       (4, 2, 1, false)] :=
  ⟨(C23_ping_pong_is_the_arena_machine exampleAudio [4, 3, 4, 5, 4] 0 0 10 11 4 44100 0 1 1
    (exampleAudioManager []) (by decide) (by decide)).1, rfl⟩

/-- C24. In the mix path, with the manager's two scratch buffers distinct
from each other and from the caller's two buffers: for every rack list, gain
pair and whatever the racks return, every recorded rack call (one per
non-null rack, in list order) has as output buffer one of the two scratch
buffers, other than its input buffer, and neither the caller's input nor the
caller's output buffer. -/
theorem C24_rack_output_is_a_free_scratch_buffer {σ : Type} (ext : Externals σ)
    (racks : List EngineEffectRackPtr) (ih oh : ChannelHandle) (pIn pOut : CSAMPLEPtr)
    (n rate : Nat) (gf : GroupFeatureState) (og ng : CSAMPLE_GAIN)
    (s : EngineEffectsManager σ) (hne : pIn ≠ pOut) (hapart : s.scratchApart pIn pOut) :
    ∃ calls : List ProcessCall,
      (processInner ext racks ih oh pIn pOut n rate gf og ng s).processLog =
        s.processLog ++ calls ∧
      calls.map (fun c => c.pRack) = nonNullRacks racks ∧
      ∀ c ∈ calls,
        (c.pOutput = s.m_buffer1 ∨ c.pOutput = s.m_buffer2) ∧ c.pOutput ≠ c.pInput ∧
        c.pOutput ≠ pIn ∧ c.pOutput ≠ pOut := by
  obtain ⟨hb, hi1, hi2, ho1, ho2⟩ := hapart
  obtain ⟨sa, sb, _, _⟩ := mixStart_frame ext pIn n og ng s
  rw [processInner_mix ext racks ih oh pIn pOut n rate gf og ng s hne]
  obtain ⟨calls, h1, h2, h3, _, _⟩ := mixLoop_log ext ih oh n rate gf racks
    (processInner.mixStart ext pIn n og ng s).1 (processInner.mixStart ext pIn n og ng s).2
  rw [(mixStart_log ext pIn n og ng s).1] at h1
  refine ⟨calls, h1, h2, fun c hc => ?_⟩
  have ho := (h3 c hc).2.2.2.2.2
  rw [sa, sb] at ho
  by_cases hp : c.pInput = s.m_buffer1
  · rw [if_pos hp] at ho
    rw [ho, hp]
    exact ⟨Or.inr rfl, hb.symm, hi2.symm, ho2.symm⟩
  · rw [if_neg hp] at ho
    rw [ho]
    exact ⟨Or.inl rfl, fun e => hp e.symm, hi1.symm, ho1.symm⟩

/-- C24 on the example memory with racks 3, 4, null, 5 at unity gain:
the calls are 3 from 10 into 1, 4 from 1 into 2, 5 from 1 into 2; every
output is scratch buffer 1 or 2, differs from the input, and is neither 10
nor 11. -/
theorem C24_rack_output_is_a_free_scratch_buffer_witness :
    (exampleAudioManager []).scratchApart 10 11 ∧
    ∃ calls : List ProcessCall,
      (processInner exampleAudio [3, 4, 0, 5] 0 0 10 11 4 44100 0 1 1
        (exampleAudioManager [])).processLog = calls ∧
      calls.map (fun c => (c.pRack, c.pInput, c.pOutput)) =
        [(3, 10, 1), (4, 1, 2), (5, 1, 2)] ∧
      ∀ c ∈ calls, (c.pOutput = 1 ∨ c.pOutput = 2) ∧ c.pOutput ≠ c.pInput ∧
        c.pOutput ≠ 10 ∧ c.pOutput ≠ 11 := by
  refine ⟨exampleAudioManager_scratchApart [], ?_⟩
  obtain ⟨calls, h1, _, h3⟩ := C24_rack_output_is_a_free_scratch_buffer exampleAudio [3, 4, 0, 5]
    0 0 10 11 4 44100 0 1 1 (exampleAudioManager []) (by decide)
    (exampleAudioManager_scratchApart [])
  have e : (exampleAudioManager []).processLog ++ calls = calls := rfl
  rw [e] at h1
  exact ⟨calls, h1, by rw [← h1]; rfl, h3⟩

/-- C25. The start of the mix path. With unity old and new gain nothing
is copied: the manager is unchanged and the start buffer is the caller's
input. For every other gain pair the start buffer is the first scratch
buffer, holding SampleUtil::copyWithRampingGain of the input with the two
gains. The first non-null rack of the list is called with the start buffer as
input, on the sample memory of that start, and its call is the first one
recorded. For a gain pair other than unity, with the caller's input distinct
from both scratch buffers, no recorded call has the caller's input as input
or as output. -/
theorem C25_first_rack_input {σ : Type} (ext : Externals σ)
    (racks : List EngineEffectRackPtr) (ih oh : ChannelHandle) (pIn pOut : CSAMPLEPtr)
    (n rate : Nat) (gf : GroupFeatureState) (og ng : CSAMPLE_GAIN)
    (s : EngineEffectsManager σ) (hne : pIn ≠ pOut) :
    (og = CSAMPLE_GAIN_ONE → ng = CSAMPLE_GAIN_ONE →
      processInner.mixStart ext pIn n og ng s = (pIn, s)) ∧
    (¬(og = CSAMPLE_GAIN_ONE ∧ ng = CSAMPLE_GAIN_ONE) →
      processInner.mixStart ext pIn n og ng s =
        (s.m_buffer1,
         { s with
           memory := s.memory.write s.m_buffer1
             (ext.copyWithRampingGain (s.memory s.m_buffer1) (s.memory pIn) og ng n) })) ∧
    (∀ (first : EngineEffectRackPtr) (rest : List EngineEffectRackPtr),
      nonNullRacks racks = first :: rest →
      ∃ later : List ProcessCall,
        (processInner ext racks ih oh pIn pOut n rate gf og ng s).processLog =
          s.processLog ++
            ⟨first, ih, oh, (processInner.mixStart ext pIn n og ng s).1,
              (if (processInner.mixStart ext pIn n og ng s).1 = s.m_buffer1 then s.m_buffer2
                else s.m_buffer1), n, rate, gf,
              (ext.rackProcess first ih oh (processInner.mixStart ext pIn n og ng s).1
                (if (processInner.mixStart ext pIn n og ng s).1 = s.m_buffer1 then s.m_buffer2
                  else s.m_buffer1) n rate gf
                (processInner.mixStart ext pIn n og ng s).2.memory s.world).1⟩ :: later) ∧
    (¬(og = CSAMPLE_GAIN_ONE ∧ ng = CSAMPLE_GAIN_ONE) →
      pIn ≠ s.m_buffer1 → pIn ≠ s.m_buffer2 →
      ∃ calls : List ProcessCall,
        (processInner ext racks ih oh pIn pOut n rate gf og ng s).processLog =
          s.processLog ++ calls ∧
        calls.map (fun c => c.pRack) = nonNullRacks racks ∧
        ∀ c ∈ calls, c.pInput ≠ pIn ∧ c.pOutput ≠ pIn) := by
  obtain ⟨sa, sb, _, _⟩ := mixStart_frame ext pIn n og ng s
  obtain ⟨sl, sw⟩ := mixStart_log ext pIn n og ng s
  refine ⟨fun h1 h2 => ?_, fun hu => ?_, fun first rest hfirst => ?_, fun hu hi1 hi2 => ?_⟩
  · simp [processInner.mixStart, h1, h2]
  · simp only [processInner.mixStart, hu, if_false]
  · rw [processInner_mix ext racks ih oh pIn pOut n rate gf og ng s hne]
    show ∃ later, (processInner.mixLoop ext ih oh n rate gf racks _ _).2.processLog = _
    rw [mixLoop_first ext ih oh n rate gf racks rest first hfirst]
    obtain ⟨calls, h1, _⟩ := mixLoop_log ext ih oh n rate gf rest
      (if (callRackProcess ext first ih oh (processInner.mixStart ext pIn n og ng s).1
          (if (processInner.mixStart ext pIn n og ng s).1 =
              (processInner.mixStart ext pIn n og ng s).2.m_buffer1
            then (processInner.mixStart ext pIn n og ng s).2.m_buffer2
            else (processInner.mixStart ext pIn n og ng s).2.m_buffer1) n rate gf
          (processInner.mixStart ext pIn n og ng s).2).1 = true
        then (if (processInner.mixStart ext pIn n og ng s).1 =
              (processInner.mixStart ext pIn n og ng s).2.m_buffer1
            then (processInner.mixStart ext pIn n og ng s).2.m_buffer2
            else (processInner.mixStart ext pIn n og ng s).2.m_buffer1)
        else (processInner.mixStart ext pIn n og ng s).1)
      (callRackProcess ext first ih oh (processInner.mixStart ext pIn n og ng s).1
        (if (processInner.mixStart ext pIn n og ng s).1 =
            (processInner.mixStart ext pIn n og ng s).2.m_buffer1
          then (processInner.mixStart ext pIn n og ng s).2.m_buffer2
          else (processInner.mixStart ext pIn n og ng s).2.m_buffer1) n rate gf
        (processInner.mixStart ext pIn n og ng s).2).2
    refine ⟨calls, ?_⟩
    rw [h1]
    simp only [callRackProcess, sl, sa, sb, sw, List.append_assoc, List.singleton_append]
  · rw [processInner_mix ext racks ih oh pIn pOut n rate gf og ng s hne]
    obtain ⟨calls, h1, h2, h3, h4, _⟩ := mixLoop_log ext ih oh n rate gf racks
      (processInner.mixStart ext pIn n og ng s).1 (processInner.mixStart ext pIn n og ng s).2
    rw [sl] at h1
    have hstart : (processInner.mixStart ext pIn n og ng s).1 = s.m_buffer1 := by
      simp only [processInner.mixStart, hu, if_false]
    have hout : ∀ c ∈ calls, c.pOutput = s.m_buffer1 ∨ c.pOutput = s.m_buffer2 := by
      intro c hc
      have ho := (h3 c hc).2.2.2.2.2
      rw [sa, sb] at ho
      by_cases hp : c.pInput = s.m_buffer1
      · rw [if_pos hp] at ho; exact Or.inr ho
      · rw [if_neg hp] at ho; exact Or.inl ho
    have hne2 : ∀ c ∈ calls, c.pOutput ≠ pIn := by
      intro c hc e
      rcases hout c hc with h | h
      · exact hi1 (e.symm.trans h)
      · exact hi2 (e.symm.trans h)
    refine ⟨calls, h1, h2, fun c hc => ⟨?_, hne2 c hc⟩⟩
    obtain ⟨before, after, hsplit⟩ := List.append_of_mem hc
    rw [h4 before c after hsplit, hstart]
    rcases currentAfter_mem before s.m_buffer1 with h | ⟨d, hd, h⟩
    · rw [h]; exact fun e => hi1 e.symm
    · rw [h]
      exact hne2 d (by rw [hsplit]; exact List.mem_append_left _ hd)

/-- C25 on the example memory: at unity gain the start is buffer 10 and
the manager as it was; with gains 0 and 1 the start is scratch buffer 1, and
rack 3, the first non-null rack of [null, 3, 4], is called from buffer 1 into
buffer 2. -/
theorem C25_first_rack_input_witness :
    processInner.mixStart exampleAudio 10 4 1 1 (exampleAudioManager []) =
      (10, exampleAudioManager []) ∧
    (processInner.mixStart exampleAudio 10 4 0 1 (exampleAudioManager [])).1 = 1 ∧
    ∃ later : List ProcessCall,
      (processInner exampleAudio [0, 3, 4] 0 0 10 11 4 44100 0 0 1
        (exampleAudioManager [])).processLog =
        ⟨3, 0, 0, 1, 2, 4, 44100, 0, true⟩ :: later := by
  refine ⟨(C25_first_rack_input exampleAudio [] 0 0 10 11 4 44100 0 1 1
      (exampleAudioManager []) (by decide)).1 rfl rfl, ?_, ?_⟩
  · rw [(C25_first_rack_input exampleAudio [] 0 0 10 11 4 44100 0 0 1
      (exampleAudioManager []) (by decide)).2.1 (by simp [CSAMPLE_GAIN_ONE])]
    rfl
  · obtain ⟨later, h⟩ := (C25_first_rack_input exampleAudio [0, 3, 4] 0 0 10 11 4 44100 0 0 1
      (exampleAudioManager []) (by decide)).2.2.1 3 [4] (by decide)
    exact ⟨later, h⟩

/-- C26. Draining one ADD_EFFECT_RACK or REMOVE_EFFECT_RACK request
leaves the rack list its pre-fader flag does not select, the master chain
list and the master effect list unchanged. A REMOVE_EFFECT_RACK naming a rack
that is not in the list its flag selects (it may be in the other list) leaves
all four lists unchanged and is answered by one response with success =
false. -/
theorem C26_rack_request_touches_one_list {σ : Type} (ext : Externals σ)
    (s : EngineEffectsManager σ) (request : EffectsRequest)
    (hq : s.requests = [request])
    (hk : request.type = MessageType.ADD_EFFECT_RACK ∨
      request.type = MessageType.REMOVE_EFFECT_RACK) :
    selectedRacks (!request.AddEffectRack.preFader) (onCallbackStart ext s) =
      selectedRacks (!request.AddEffectRack.preFader) s ∧
    (onCallbackStart ext s).m_chains = s.m_chains ∧
    (onCallbackStart ext s).m_effects = s.m_effects ∧
    (request.type = MessageType.REMOVE_EFFECT_RACK →
      request.RemoveEffectRack.pRack ∉ selectedRacks request.RemoveEffectRack.preFader s →
      (onCallbackStart ext s).lists = s.lists ∧
      (onCallbackStart ext s).responses = s.responses ++
        [{ request := request, success := false, status := ext.initStatus }]) := by
  rw [onCallbackStart_singleton ext s request hq]
  refine ⟨(body_rack_kind_frame ext request _ hk).1, (body_rack_kind_frame ext request _ hk).2.1,
    (body_rack_kind_frame ext request _ hk).2.2, fun hr h1 => ?_⟩
  rw [body_remove_rack_absent ext request
    { s with requests := [], readLog := s.readLog ++ [request] } hr h1]
  exact ⟨rfl, rfl⟩

/-- C26 with pre-fader list [7] and post-fader list [8]: removing rack 8
with the pre-fader flag set changes none of the lists and is answered with
success = false. -/
theorem C26_rack_request_touches_one_list_witness :
    (onCallbackStart acceptAll
      (exampleManager [7] [8] [3] [4]
        [exampleRequest MessageType.REMOVE_EFFECT_RACK 0 8 true])).lists =
      ([7], [8], [3], [4]) ∧
    (onCallbackStart acceptAll
      (exampleManager [7] [8] [3] [4]
        [exampleRequest MessageType.REMOVE_EFFECT_RACK 0 8 true])).responses =
      [{ request := exampleRequest MessageType.REMOVE_EFFECT_RACK 0 8 true, success := false,
         status := StatusCode.OTHER 0 }] :=
  (C26_rack_request_touches_one_list acceptAll
    (exampleManager [7] [8] [3] [4] [exampleRequest MessageType.REMOVE_EFFECT_RACK 0 8 true])
    (exampleRequest MessageType.REMOVE_EFFECT_RACK 0 8 true) rfl (Or.inr rfl)).2.2.2 rfl
    (by decide)

/-- C27. Round trip for an identity that is not in the list. Draining ADD
of X immediately followed by the matching REMOVE of X leaves all four lists
as they were before the ADD. For a rack X not in the list the flag selects:
ADD_EFFECT_RACK then REMOVE_EFFECT_RACK with the same rack and flag, both
answered with success = true. For a chain X not in the master chain list:
ADD_CHAIN_TO_RACK then REMOVE_CHAIN_FROM_RACK through the same listed rack,
the rack processing both. For an effect X not in the master effect list:
ADD_EFFECT_TO_CHAIN then REMOVE_EFFECT_FROM_CHAIN through the same listed
chain, the chain processing both. -/
theorem C27_round_trip_of_new_identity {σ : Type} (ext : Externals σ)
    (s : EngineEffectsManager σ) (add remove : EffectsRequest)
    (hq : s.requests = [add, remove]) :
    (add.type = MessageType.ADD_EFFECT_RACK → remove.type = MessageType.REMOVE_EFFECT_RACK →
      remove.RemoveEffectRack = add.AddEffectRack →
      add.AddEffectRack.pRack ∉ selectedRacks add.AddEffectRack.preFader s →
      (onCallbackStart ext s).lists = s.lists ∧
      (onCallbackStart ext s).responses = s.responses ++
        [{ request := add, success := true, status := ext.initStatus },
         { request := remove, success := true, status := ext.initStatus }]) ∧
    (add.type = MessageType.ADD_CHAIN_TO_RACK → remove.type = MessageType.REMOVE_CHAIN_FROM_RACK →
      remove.pTargetRack = add.pTargetRack →
      remove.RemoveChainFromRack.pChain = add.AddChainToRack.pChain →
      (add.pTargetRack ∈ s.m_preFaderRacks ∨ add.pTargetRack ∈ s.m_postFaderRacks) →
      (ext.rackRequest add.pTargetRack add s.world).1 = true →
      (ext.rackRequest add.pTargetRack remove
        (ext.rackRequest add.pTargetRack add s.world).2.2).1 = true →
      add.AddChainToRack.pChain ∉ s.m_chains →
      (onCallbackStart ext s).lists = s.lists) ∧
    (add.type = MessageType.ADD_EFFECT_TO_CHAIN →
      remove.type = MessageType.REMOVE_EFFECT_FROM_CHAIN →
      remove.pTargetChain = add.pTargetChain →
      remove.RemoveEffectFromChain.pEffect = add.AddEffectToChain.pEffect →
      add.pTargetChain ∈ s.m_chains →
      (ext.chainRequest add.pTargetChain add s.world).1 = true →
      (ext.chainRequest add.pTargetChain remove
        (ext.chainRequest add.pTargetChain add s.world).2.2).1 = true →
      add.AddEffectToChain.pEffect ∉ s.m_effects →
      (onCallbackStart ext s).lists = s.lists) := by
  rw [onCallbackStart_pair ext s add remove hq]
  refine ⟨fun ha hr hsame hx => ?_, fun ha hr ht hc h1 hp1 hp2 hx => ?_,
    fun ha hr ht he h1 hp1 hp2 hx => ?_⟩
  · rw [body_add_rack_absent ext add
      { s with requests := [remove], readLog := s.readLog ++ [add] } ha hx]
    have hin : remove.RemoveEffectRack.pRack ∈ selectedRacks remove.RemoveEffectRack.preFader
        { withSelectedRacks add.AddEffectRack.preFader
            (selectedRacks add.AddEffectRack.preFader
              { s with requests := [remove], readLog := s.readLog ++ [add] } ++
              [add.AddEffectRack.pRack])
            { s with
              requests := [remove]
              readLog := s.readLog ++ [add]
              responses := s.responses ++
                [{ request := add, success := true, status := ext.initStatus }] } with
          requests := []
          readLog := s.readLog ++ [add] ++ [remove] } := by
      rw [hsame]
      cases add.AddEffectRack.preFader <;> simp [selectedRacks, withSelectedRacks]
    rw [body_remove_rack_present ext remove _ hr hin, hsame]
    have hx2 : add.AddEffectRack.pRack ∉ selectedRacks add.AddEffectRack.preFader s := hx
    cases hf : add.AddEffectRack.preFader
    · rw [hf] at hx2
      simp only [selectedRacks, Bool.false_eq_true, if_false] at hx2
      simp [selectedRacks, withSelectedRacks, EngineEffectsManager.lists]
      exact fun a ha e => hx2 (e ▸ ha)
    · rw [hf] at hx2
      simp only [selectedRacks, if_true] at hx2
      simp [selectedRacks, withSelectedRacks, EngineEffectsManager.lists]
      exact fun a ha e => hx2 (e ▸ ha)
  · rw [body_add_chain ext add
      { s with requests := [remove], readLog := s.readLog ++ [add] } ha h1 hp1]
    refine Eq.trans (congrArg EngineEffectsManager.lists
      (body_remove_chain ext remove _ hr ?_ ?_)) ?_
    · rw [ht]; exact h1
    · rw [ht]; exact hp2
    · simp [EngineEffectsManager.lists, forwardToRack, hc]
      exact fun a ha e => hx (e ▸ ha)
  · rw [body_add_effect ext add
      { s with requests := [remove], readLog := s.readLog ++ [add] } ha h1 hp1]
    refine Eq.trans (congrArg EngineEffectsManager.lists
      (body_remove_effect ext remove _ hr ?_ ?_)) ?_
    · rw [ht]; exact h1
    · rw [ht]; exact hp2
    · simp [EngineEffectsManager.lists, forwardToChain, he]
      exact fun a ha e => hx (e ▸ ha)

/-- C27 with accepting collaborators: adding and removing the new
pre-fader rack 9 (which is in the post-fader list), the new chain 9 through
rack 7, and the new effect 9 through chain 5, each leave the four lists as
they were. -/
theorem C27_round_trip_of_new_identity_witness :
    (onCallbackStart acceptAll
      (exampleManager [7, 8] [9] [3] [4]
        [exampleRequest MessageType.ADD_EFFECT_RACK 0 9 true,
         exampleRequest MessageType.REMOVE_EFFECT_RACK 0 9 true])).lists =
      ([7, 8], [9], [3], [4]) ∧
    (onCallbackStart acceptAll
      (exampleManager [7] [] [3, 5] [4]
        [exampleRequest MessageType.ADD_CHAIN_TO_RACK 7 9 false,
         exampleRequest MessageType.REMOVE_CHAIN_FROM_RACK 7 9 false])).lists =
      ([7], [], [3, 5], [4]) ∧
    (onCallbackStart acceptAll
      (exampleManager [7] [] [3, 5] [4, 6]
        [exampleRequest MessageType.ADD_EFFECT_TO_CHAIN 5 9 false,
         exampleRequest MessageType.REMOVE_EFFECT_FROM_CHAIN 5 9 false])).lists =
      ([7], [], [3, 5], [4, 6]) :=
  ⟨((C27_round_trip_of_new_identity acceptAll
      (exampleManager [7, 8] [9] [3] [4]
        [exampleRequest MessageType.ADD_EFFECT_RACK 0 9 true,
         exampleRequest MessageType.REMOVE_EFFECT_RACK 0 9 true])
      (exampleRequest MessageType.ADD_EFFECT_RACK 0 9 true)
      (exampleRequest MessageType.REMOVE_EFFECT_RACK 0 9 true) rfl).1 rfl rfl rfl
      (by decide)).1,
   (C27_round_trip_of_new_identity acceptAll
      (exampleManager [7] [] [3, 5] [4]
        [exampleRequest MessageType.ADD_CHAIN_TO_RACK 7 9 false,
         exampleRequest MessageType.REMOVE_CHAIN_FROM_RACK 7 9 false])
      (exampleRequest MessageType.ADD_CHAIN_TO_RACK 7 9 false)
      (exampleRequest MessageType.REMOVE_CHAIN_FROM_RACK 7 9 false) rfl).2.1 rfl rfl rfl rfl
      (by decide) rfl rfl (by decide),
   (C27_round_trip_of_new_identity acceptAll
      (exampleManager [7] [] [3, 5] [4, 6]
        [exampleRequest MessageType.ADD_EFFECT_TO_CHAIN 5 9 false,
         exampleRequest MessageType.REMOVE_EFFECT_FROM_CHAIN 5 9 false])
      (exampleRequest MessageType.ADD_EFFECT_TO_CHAIN 5 9 false)
      (exampleRequest MessageType.REMOVE_EFFECT_FROM_CHAIN 5 9 false) rfl).2.2 rfl rfl rfl rfl
      (by decide) rfl rfl (by decide)⟩

/-- C28. After any run of calls from the freshly constructed manager,
whatever the collaborators answer, the pre-fader rack list has no rack twice
and the post-fader rack list has no rack twice. A rack can be in both lists:
adding rack R with the pre-fader flag and then without it gives the lists
[R] and [R]. -/
theorem C28_rack_lists_have_no_duplicates {σ : Type} (ext : Externals σ) :
    (∀ (calls : List ManagerCall) (b1 b2 : CSAMPLEPtr) (mem : Memory) (w : σ),
      (runCalls ext calls (EngineEffectsManager.new b1 b2 mem w)).m_preFaderRacks.Nodup ∧
      (runCalls ext calls (EngineEffectsManager.new b1 b2 mem w)).m_postFaderRacks.Nodup) ∧
    (∀ (b1 b2 : CSAMPLEPtr) (mem : Memory) (w : σ) (R : EngineEffectRackPtr)
      (addPre addPost : EffectsRequest),
      addPre.type = MessageType.ADD_EFFECT_RACK →
      addPre.AddEffectRack = { pRack := R, preFader := true } →
      addPost.type = MessageType.ADD_EFFECT_RACK →
      addPost.AddEffectRack = { pRack := R, preFader := false } →
      (runCalls ext [ManagerCall.onCallbackStart [addPre, addPost]]
        (EngineEffectsManager.new b1 b2 mem w)).lists = ([R], [R], [], [])) := by
  refine ⟨fun calls b1 b2 mem w => rackNodup_runCalls ext calls _ ⟨List.nodup_nil, List.nodup_nil⟩,
    fun b1 b2 mem w R addPre addPost h1 h1r h2 h2r => ?_⟩
  simp only [runCalls, List.foldl_cons, List.foldl_nil, ManagerCall.apply]
  rw [onCallbackStart_pair ext _ addPre addPost (by simp [EngineEffectsManager.new])]
  rw [body_add_rack_absent ext addPre
    { EngineEffectsManager.new b1 b2 mem w with
      requests := [addPost]
      readLog := (EngineEffectsManager.new b1 b2 mem w).readLog ++ [addPre] } h1
    (by simp [h1r, selectedRacks, EngineEffectsManager.new])]
  refine Eq.trans (congrArg EngineEffectsManager.lists
    (body_add_rack_absent ext addPost _ h2 ?_)) ?_
  · simp [h1r, h2r, selectedRacks, withSelectedRacks, EngineEffectsManager.new]
  · simp [h1r, h2r, selectedRacks, withSelectedRacks, EngineEffectsManager.new,
      EngineEffectsManager.lists]

/-- C29. Mix path against in-place path. With SampleUtil as modelled from
the spec, racks that apply one transformation `T` in place as out of place
and leave the buffers untouched when they report no modification, the output
buffer not a scratch buffer, and the input and the two scratch buffers
holding at least numSamples samples: for the same manager, input and gains,
every sample i below numSamples of the output after processPostFaderAndMix is
the output sample before plus sample i of the buffer processPostFaderInPlace
produces from the input; into an output sample that is zero it is that
sample itself; and both leave the racks in the same external state. -/
theorem C29_mix_is_output_plus_in_place {σ : Type} (ext : Externals σ) (T : RackTransform σ)
    (hutil : ext.usesSampleUtil) (hT : ext.racksApply T)
    (ih oh : ChannelHandle) (pIn pOut : CSAMPLEPtr)
    (n rate : Nat) (gf : GroupFeatureState) (og ng : CSAMPLE_GAIN)
    (s : EngineEffectsManager σ) (hne : pIn ≠ pOut)
    (ho1 : pOut ≠ s.m_buffer1) (ho2 : pOut ≠ s.m_buffer2)
    (hin : n ≤ (s.memory pIn).length) (h1 : n ≤ (s.memory s.m_buffer1).length)
    (h2 : n ≤ (s.memory s.m_buffer2).length)
    (i : Nat) (hi : i < n) (hout : i < (s.memory pOut).length) :
    ((processPostFaderAndMix ext ih oh pIn pOut n rate gf og ng s).memory pOut).getD i 0 =
      (s.memory pOut).getD i 0 +
        ((processPostFaderInPlace ext ih oh pIn n rate gf og ng s).memory pIn).getD i 0 ∧
    ((s.memory pOut).getD i 0 = 0 →
      ((processPostFaderAndMix ext ih oh pIn pOut n rate gf og ng s).memory pOut).getD i 0 =
        ((processPostFaderInPlace ext ih oh pIn n rate gf og ng s).memory pIn).getD i 0) ∧
    (processPostFaderAndMix ext ih oh pIn pOut n rate gf og ng s).world =
      (processPostFaderInPlace ext ih oh pIn n rate gf og ng s).world := by
  obtain ⟨a, b⟩ := processInner_mix_vs_inPlace ext T hutil hT s.m_postFaderRacks ih oh pIn pOut
    n rate gf og ng s hne ho1 ho2 hin h1 h2
  simp only [processPostFaderAndMix, processPostFaderInPlace]
  refine ⟨b i hi hout, fun hz => ?_, a⟩
  rw [b i hi hout, hz, zero_add]

/-- C29 on the example memory with post-fader racks 3, 4, 5 and a ramp
from 0 to 1 over four samples: in place, sample 1 becomes 2 * (2 / 4) doubled
twice, which is 4; mixed into buffer 11 the sample is 20 + 4. -/
theorem C29_mix_is_output_plus_in_place_witness :
    exampleBlockAudio.racksApply exampleTransform ∧
    ((processPostFaderInPlace exampleBlockAudio 0 0 10 4 44100 0 0 1
      (exampleAudioManager [3, 4, 5])).memory 10).getD 1 0 = 4 ∧
    ((processPostFaderAndMix exampleBlockAudio 0 0 10 11 4 44100 0 0 1
      (exampleAudioManager [3, 4, 5])).memory 11).getD 1 0 = 20 + 4 := by
  have hplace : ((processPostFaderInPlace exampleBlockAudio 0 0 10 4 44100 0 0 1
      (exampleAudioManager [3, 4, 5])).memory 10).getD 1 0 = 4 := by
    simp [processPostFaderInPlace, processInner, processInner.inPlaceLoop, callRackProcess,
      exampleBlockAudio, exampleAudio, exampleTransform, exampleAudioManager, exampleMemory,
      nullptr, Memory.write, SampleUtil.applyRampingGain, SampleUtil.overwrite,
      SampleUtil.rampGain, firstSamples, List.range_succ]
    norm_num
  refine ⟨exampleBlockAudio_racksApply, hplace, ?_⟩
  rw [(C29_mix_is_output_plus_in_place exampleBlockAudio exampleTransform
    exampleBlockAudio_usesSampleUtil exampleBlockAudio_racksApply 0 0 10 11 4 44100 0 0 1
    (exampleAudioManager [3, 4, 5]) (by decide) (by decide) (by decide)
    (by simp [exampleAudioManager, exampleMemory])
    (by simp [exampleAudioManager, exampleMemory])
    (by simp [exampleAudioManager, exampleMemory]) 1 (by decide)
    (by simp [exampleAudioManager, exampleMemory])).1, hplace]
  simp [exampleAudioManager, exampleMemory]

/-- C30. A processed remove deletes every occurrence. Draining one
REMOVE_CHAIN_FROM_RACK naming chain C through a listed rack that processes it
leaves the master chain list as it was with every occurrence of C deleted,
the others in their order, so C is not in it. A request targeting C that
follows in the queue is answered NO_SUCH_CHAIN with success = false, and C is
not called. After any run of calls from the freshly constructed manager in
which the last processed add or remove naming C is a remove, C is not in the
master chain list, and a request targeting C is answered NO_SUCH_CHAIN
without any call of a collaborator. The same for REMOVE_EFFECT_FROM_CHAIN
naming effect E, the master effect list and NO_SUCH_EFFECT. -/
theorem C30_remove_deletes_every_occurrence {σ : Type} (ext : Externals σ) :
    (∀ (s : EngineEffectsManager σ) (remove : EffectsRequest), s.requests = [remove] →
      remove.type = MessageType.REMOVE_CHAIN_FROM_RACK →
      (remove.pTargetRack ∈ s.m_preFaderRacks ∨ remove.pTargetRack ∈ s.m_postFaderRacks) →
      (ext.rackRequest remove.pTargetRack remove s.world).1 = true →
      (onCallbackStart ext s).m_chains =
        s.m_chains.filter (fun c => decide (c ≠ remove.RemoveChainFromRack.pChain)) ∧
      remove.RemoveChainFromRack.pChain ∉ (onCallbackStart ext s).m_chains) ∧
    (∀ (s : EngineEffectsManager σ) (remove later : EffectsRequest),
      s.requests = [remove, later] →
      remove.type = MessageType.REMOVE_CHAIN_FROM_RACK →
      (remove.pTargetRack ∈ s.m_preFaderRacks ∨ remove.pTargetRack ∈ s.m_postFaderRacks) →
      (ext.rackRequest remove.pTargetRack remove s.world).1 = true →
      later.type.chainTargeted = true →
      later.pTargetChain = remove.RemoveChainFromRack.pChain →
      (onCallbackStart ext s).responses =
        s.responses ++ (ext.rackRequest remove.pTargetRack remove s.world).2.1 ++
          [{ request := later, success := false, status := StatusCode.NO_SUCH_CHAIN }] ∧
      (onCallbackStart ext s).forwardLog = s.forwardLog ++
        [⟨Target.rack remove.pTargetRack, remove, s.m_preFaderRacks, s.m_postFaderRacks,
          s.m_chains, s.m_effects, true⟩]) ∧
    (∀ (calls : List ManagerCall) (b1 b2 : CSAMPLEPtr) (mem : Memory) (w : σ)
      (t : EngineEffectsManager σ) (later : EffectsRequest),
      t = runCalls ext calls (EngineEffectsManager.new b1 b2 mem w) →
      later.type.chainTargeted = true →
      lastEditOf later.pTargetChain (t.forwardLog.filterMap Forwarded.chainEdit) =
        some (Edit.remove later.pTargetChain) →
      later.pTargetChain ∉ t.m_chains ∧
      (runCalls ext (calls ++ [ManagerCall.onCallbackStart [later]])
          (EngineEffectsManager.new b1 b2 mem w)).responses =
        t.responses ++
          [{ request := later, success := false, status := StatusCode.NO_SUCH_CHAIN }] ∧
      (runCalls ext (calls ++ [ManagerCall.onCallbackStart [later]])
          (EngineEffectsManager.new b1 b2 mem w)).forwardLog = t.forwardLog) ∧
    (∀ (s : EngineEffectsManager σ) (remove : EffectsRequest), s.requests = [remove] →
      remove.type = MessageType.REMOVE_EFFECT_FROM_CHAIN →
      remove.pTargetChain ∈ s.m_chains →
      (ext.chainRequest remove.pTargetChain remove s.world).1 = true →
      (onCallbackStart ext s).m_effects =
        s.m_effects.filter (fun e => decide (e ≠ remove.RemoveEffectFromChain.pEffect)) ∧
      remove.RemoveEffectFromChain.pEffect ∉ (onCallbackStart ext s).m_effects) ∧
    (∀ (s : EngineEffectsManager σ) (remove later : EffectsRequest),
      s.requests = [remove, later] →
      remove.type = MessageType.REMOVE_EFFECT_FROM_CHAIN →
      remove.pTargetChain ∈ s.m_chains →
      (ext.chainRequest remove.pTargetChain remove s.world).1 = true →
      later.type.effectTargeted = true →
      later.pTargetEffect = remove.RemoveEffectFromChain.pEffect →
      (onCallbackStart ext s).responses =
        s.responses ++ (ext.chainRequest remove.pTargetChain remove s.world).2.1 ++
          [{ request := later, success := false, status := StatusCode.NO_SUCH_EFFECT }] ∧
      (onCallbackStart ext s).forwardLog = s.forwardLog ++
        [⟨Target.chain remove.pTargetChain, remove, s.m_preFaderRacks, s.m_postFaderRacks,
          s.m_chains, s.m_effects, true⟩]) ∧
    (∀ (calls : List ManagerCall) (b1 b2 : CSAMPLEPtr) (mem : Memory) (w : σ)
      (t : EngineEffectsManager σ) (later : EffectsRequest),
      t = runCalls ext calls (EngineEffectsManager.new b1 b2 mem w) →
      later.type.effectTargeted = true →
      lastEditOf later.pTargetEffect (t.forwardLog.filterMap Forwarded.effectEdit) =
        some (Edit.remove later.pTargetEffect) →
      later.pTargetEffect ∉ t.m_effects ∧
      (runCalls ext (calls ++ [ManagerCall.onCallbackStart [later]])
          (EngineEffectsManager.new b1 b2 mem w)).responses =
        t.responses ++
          [{ request := later, success := false, status := StatusCode.NO_SUCH_EFFECT }] ∧
      (runCalls ext (calls ++ [ManagerCall.onCallbackStart [later]])
          (EngineEffectsManager.new b1 b2 mem w)).forwardLog = t.forwardLog) := by
  refine ⟨fun s remove hq hr h1 hp => ?_, fun s remove later hq hr h1 hp hk ht => ?_,
    fun calls b1 b2 mem w t later ht hk hlast => ?_,
    fun s remove hq hr h1 hp => ?_, fun s remove later hq hr h1 hp hk ht => ?_,
    fun calls b1 b2 mem w t later ht hk hlast => ?_⟩
  · have e : (onCallbackStart ext s).m_chains =
        s.m_chains.filter (fun c => decide (c ≠ remove.RemoveChainFromRack.pChain)) := by
      rw [onCallbackStart_singleton ext s remove hq,
        body_remove_chain ext remove { s with requests := [], readLog := s.readLog ++ [remove] }
          hr h1 hp]
    exact ⟨e, by rw [e]; exact not_mem_filter_ne _ _⟩
  · rw [remove_chain_then_target ext s remove later hq hr h1 hp hk ht]
    exact ⟨rfl, rfl⟩
  · obtain ⟨hinv, hreq, _⟩ := runCalls_invariant ext calls
      (EngineEffectsManager.new b1 b2 mem w) (netInvariant_new b1 b2 mem w) rfl
    rw [← ht] at hinv hreq
    have hmem : later.pTargetChain ∉ t.m_chains :=
      not_mem_of_last_edit_remove _ _ _ hinv.1 hlast
    have hb := body_no_such_chain ext later
      { t with requests := [], readLog := t.readLog ++ [later] } hk hmem
    refine ⟨hmem, ?_, ?_⟩
    · rw [runCalls_snoc, ← ht]
      simp only [ManagerCall.apply, hreq, List.nil_append]
      rw [onCallbackStart_singleton ext _ later rfl, hb]
    · rw [runCalls_snoc, ← ht]
      simp only [ManagerCall.apply, hreq, List.nil_append]
      rw [onCallbackStart_singleton ext _ later rfl, hb]
  · have e : (onCallbackStart ext s).m_effects =
        s.m_effects.filter (fun c => decide (c ≠ remove.RemoveEffectFromChain.pEffect)) := by
      rw [onCallbackStart_singleton ext s remove hq,
        body_remove_effect ext remove { s with requests := [], readLog := s.readLog ++ [remove] }
          hr h1 hp]
    exact ⟨e, by rw [e]; exact not_mem_filter_ne _ _⟩
  · rw [remove_effect_then_target ext s remove later hq hr h1 hp hk ht]
    exact ⟨rfl, rfl⟩
  · obtain ⟨hinv, hreq, _⟩ := runCalls_invariant ext calls
      (EngineEffectsManager.new b1 b2 mem w) (netInvariant_new b1 b2 mem w) rfl
    rw [← ht] at hinv hreq
    have hmem : later.pTargetEffect ∉ t.m_effects :=
      not_mem_of_last_edit_remove _ _ _ hinv.2.1 hlast
    have hb := body_no_such_effect ext later
      { t with requests := [], readLog := t.readLog ++ [later] } hk hmem
    refine ⟨hmem, ?_, ?_⟩
    · rw [runCalls_snoc, ← ht]
      simp only [ManagerCall.apply, hreq, List.nil_append]
      rw [onCallbackStart_singleton ext _ later rfl, hb]
    · rw [runCalls_snoc, ← ht]
      simp only [ManagerCall.apply, hreq, List.nil_append]
      rw [onCallbackStart_singleton ext _ later rfl, hb]

/-- C30 with accepting collaborators: chain 9 added to rack 7 and to rack
8, with chain 3 in between, gives the master chain list [9, 3, 9]; one
removal of chain 9 from rack 7 leaves [3], and chain 9 is not listed. -/
theorem C30_remove_deletes_every_occurrence_witness :
    (runCalls acceptAll
      [ManagerCall.onCallbackStart
        [exampleRequest MessageType.ADD_EFFECT_RACK 0 7 true,
         exampleRequest MessageType.ADD_EFFECT_RACK 0 8 false,
         exampleRequest MessageType.ADD_CHAIN_TO_RACK 7 9 false,
         exampleRequest MessageType.ADD_CHAIN_TO_RACK 8 3 false,
         exampleRequest MessageType.ADD_CHAIN_TO_RACK 8 9 false]]
      (EngineEffectsManager.new 1 2 (fun _ => []) ())).m_chains = [9, 3, 9] ∧
    (runCalls acceptAll
      [ManagerCall.onCallbackStart
        [exampleRequest MessageType.ADD_EFFECT_RACK 0 7 true,
         exampleRequest MessageType.ADD_EFFECT_RACK 0 8 false,
         exampleRequest MessageType.ADD_CHAIN_TO_RACK 7 9 false,
         exampleRequest MessageType.ADD_CHAIN_TO_RACK 8 3 false,
         exampleRequest MessageType.ADD_CHAIN_TO_RACK 8 9 false],
       ManagerCall.onCallbackStart
        [exampleRequest MessageType.REMOVE_CHAIN_FROM_RACK 7 9 false]]
      (EngineEffectsManager.new 1 2 (fun _ => []) ())).m_chains = [3] ∧
    9 ∉ (runCalls acceptAll
      [ManagerCall.onCallbackStart
        [exampleRequest MessageType.ADD_EFFECT_RACK 0 7 true,
         exampleRequest MessageType.ADD_EFFECT_RACK 0 8 false,
         exampleRequest MessageType.ADD_CHAIN_TO_RACK 7 9 false,
         exampleRequest MessageType.ADD_CHAIN_TO_RACK 8 3 false,
         exampleRequest MessageType.ADD_CHAIN_TO_RACK 8 9 false],
       ManagerCall.onCallbackStart
        [exampleRequest MessageType.REMOVE_CHAIN_FROM_RACK 7 9 false]]
      (EngineEffectsManager.new 1 2 (fun _ => []) ())).m_chains :=
  ⟨by decide, by decide,
   ((C30_remove_deletes_every_occurrence acceptAll).2.2.1
    [ManagerCall.onCallbackStart
        [exampleRequest MessageType.ADD_EFFECT_RACK 0 7 true,
         exampleRequest MessageType.ADD_EFFECT_RACK 0 8 false,
         exampleRequest MessageType.ADD_CHAIN_TO_RACK 7 9 false,
         exampleRequest MessageType.ADD_CHAIN_TO_RACK 8 3 false,
         exampleRequest MessageType.ADD_CHAIN_TO_RACK 8 9 false],
       ManagerCall.onCallbackStart
        [exampleRequest MessageType.REMOVE_CHAIN_FROM_RACK 7 9 false]]
    1 2 (fun _ => []) () _
    (exampleRequest MessageType.SET_EFFECT_CHAIN_PARAMETERS 9 0 false) rfl rfl (by decide)).1⟩

end Mixxx
